import Mathlib

/-!
# ProLeagueManager: league scheduler, standings and knockout bracket

A shallow embedding of the tournament engine of `src/script.js`.

Modelling conventions.
* The mutable global `state` object becomes the record `State`; every operation takes the state
  and returns the new state, together with the text of the `alert` it raised, if any.
* Indices, lengths and round numbers are natural numbers; the parsed rounds input is an integer
  or `NaN` (`Option Int`).  Scores and stats are JavaScript numbers (`Number`): integer-valued
  doubles with rounding addition, the infinities and `NaN`.
* A nullable field is an `Option`; `none` is the JavaScript `null`.
* `generateId()` reads the clock and a random source.  Its results are supplied by an oracle
  `genId : Nat → Nat → String`: `genId r i` is the identifier produced at iteration `i` of the
  inner loop within iteration `r` of the outer loop (or at match `i` of bracket round `r`).
* Rendering (`renderLeague`, `renderBracket`, `renderParticipantsTable`) touches the page only and
  is left out.  `saveToLocal` writes a snapshot of `state` to the browser storage without
  changing `state`; it is modelled on its own and left out of the operations that call it.
-/

namespace ProLeague

/-! ## Numbers -/

/-- A JavaScript number of this program.  Scores are results of `parseInt` and stats are sums
and differences of scores and of the constants 1 and 3, so a number is `NaN`, an infinity, or a
double whose value is an integer: `fin z` is the double of value `z`.  The two zeros are one
value here: `===`, `<`, `>`, `+`, `-` and `JSON.stringify` give the same results for both.
Every operation below returns a double; a value `fin z` with `z` not a double is never produced
by them. -/
inductive Number where
  | nan
  | posInf
  | negInf
  | fin (z : Int)
deriving DecidableEq

instance (n : Nat) : OfNat Number n := ⟨Number.fin n⟩

/-- A stat literal: the content of a stat field holding the number `n`. -/
instance (n : Nat) : OfNat (Option Number) n := ⟨some (Number.fin n)⟩

/-- The spacing of the doubles around a natural number `n > 2 ^ 53`: the least power of two `u`
with `n < 2 ^ 53 * u`, searched upwards from `u`.  The first argument bounds the search. -/
def ulpFrom : Nat → Nat → Nat → Nat
  | 0, _, u => u
  | fuel + 1, n, u => if n < 2 ^ 53 * u then u else ulpFrom fuel n (2 * u)

/-- Rounding of a natural number to the nearest double, ties to the even significand; `none`
when the result overflows to infinity, that is, reaches `2 ^ 1024` (written `(2 ^ 256) ^ 4`).
Every natural number up to `2 ^ 53` is a double. -/
def roundNat (n : Nat) : Option Nat :=
  if n ≤ 2 ^ 53 then some n
  else
    let u := ulpFrom n n 1
    let q := n / u
    let r := n % u
    let m := if 2 * r < u then q else if u < 2 * r then q + 1 else if q % 2 = 0 then q else q + 1
    if m * u < (2 ^ 256) ^ 4 then some (m * u) else none

/-- The double nearest to the integer `z`, as the result of an arithmetic operation whose exact
result is `z`. -/
def Number.ofInt (z : Int) : Number :=
  match roundNat z.natAbs with
  | some v => Number.fin (if z < 0 then -(v : Int) else (v : Int))
  | none => if z < 0 then Number.negInf else Number.posInf

/-- Unary minus. -/
def Number.neg : Number → Number
  | Number.fin z => Number.fin (-z)
  | Number.nan => Number.nan
  | Number.posInf => Number.negInf
  | Number.negInf => Number.posInf

/-- The sum `x + y` of two numbers. -/
def Number.add : Number → Number → Number
  | Number.fin x, Number.fin y => Number.ofInt (x + y)
  | Number.nan, _ => Number.nan
  | _, Number.nan => Number.nan
  | Number.posInf, Number.negInf => Number.nan
  | Number.negInf, Number.posInf => Number.nan
  | Number.posInf, _ => Number.posInf
  | _, Number.posInf => Number.posInf
  | Number.negInf, _ => Number.negInf
  | _, Number.negInf => Number.negInf

/-- The difference `x - y` of two numbers. -/
def Number.sub (x y : Number) : Number := Number.add x (Number.neg y)

/-- The comparison `x < y`; false when either side is `NaN`. -/
def Number.lt : Number → Number → Bool
  | Number.fin x, Number.fin y => decide (x < y)
  | Number.nan, _ => false
  | _, Number.nan => false
  | _, Number.negInf => false
  | Number.negInf, _ => true
  | Number.posInf, _ => false
  | _, Number.posInf => true

instance : Neg Number := ⟨Number.neg⟩

instance : Add Number := ⟨Number.add⟩

instance : Sub Number := ⟨Number.sub⟩

instance : LT Number := ⟨fun x y => Number.lt x y = true⟩

instance (x y : Number) : Decidable (x < y) :=
  inferInstanceAs (Decidable (Number.lt x y = true))

/-- `ToNumber` on the content of a score or stat field: `null` counts as `0`. -/
def toNumber : Option Number → Number
  | none => 0
  | some v => v

/-- `x !== y` on the contents of two stat fields: `null` differs from every number, and `NaN`
differs from everything, itself included. -/
def strictNe (x y : Option Number) : Bool :=
  match x, y with
  | none, none => false
  | some Number.nan, _ => true
  | _, some Number.nan => true
  | some a, some b => decide (a ≠ b)
  | _, _ => true

/-! ## Data model -/

/-- Participant record: `{ id, name, pts, w, d, l, gf, ga, gd }`.  A stat field holds a number
or, after a reload of a snapshot in which it was written as `null`, `null` (`none`). -/
structure Participant where
  id : String
  name : String
  pts : Option Number
  w : Option Number
  d : Option Number
  l : Option Number
  gf : Option Number
  ga : Option Number
  gd : Option Number
deriving DecidableEq

/-- League match record: `{ id, round, homeId, awayId, homeScore, awayScore }`.  A score is
`null` (`none`) or a number. -/
structure LeagueMatch where
  id : String
  round : Nat
  homeId : String
  awayId : String
  homeScore : Option Number
  awayScore : Option Number
deriving DecidableEq

/-- Knockout match record: `{ matchId, homeId, awayId, winnerId, nextMatchId }`.  The field
`nextMatchId` is written (as `null`) for first-round matches only: `none` is an absent field and
`some none` a field holding `null`. -/
structure KnockoutMatch where
  matchId : String
  homeId : Option String
  awayId : Option String
  winnerId : Option String
  nextMatchId : Option (Option String)
deriving DecidableEq

/-- The global `state` object. -/
structure State where
  participants : List Participant
  leagueMatches : List LeagueMatch
  knockoutRounds : List (List KnockoutMatch)
deriving DecidableEq

/-! ## League logic -/

/-- The body of the `forEach` in `resetLeague` and of the first loop of `recalculateStandings`:
all seven stats are set to zero. -/
def resetStats (p : Participant) : Participant :=
  { p with pts := 0, w := 0, d := 0, l := 0, gf := 0, ga := 0, gd := 0 }

/-- `resetLeague`: empties the league matches and the bracket, zeroes every participant. -/
def resetLeague (s : State) : State :=
  { participants := s.participants.map resetStats
    leagueMatches := []
    knockoutRounds := [] }

/-- The object `{ id: 'dummy', name: 'Bye' }` pushed for an odd number of teams.  The source
object has no stat fields; they are never read from the working list, and are zero here. -/
def dummyTeam : Participant :=
  { id := "dummy", name := "Bye", pts := 0, w := 0, d := 0, l := 0, gf := 0, ga := 0, gd := 0 }

/-- The rotation at the end of the round loop:
`first = teams[0]; rest = teams.slice(1); last = rest.pop(); rest.unshift(last);
teams = [first, ...rest]`.  (With a single team `pop` would yield `undefined`; the working list
always has at least two entries.) -/
def rotateTeams : List Participant → List Participant
  | [] => []
  | first :: rest =>
    match rest.getLast? with
    | none => [first]
    | some last => first :: last :: rest.dropLast

/-- One iteration `i` of the inner loop of round index `r`: reads `teams[i]` and
`teams[teams.length - 1 - i]`, skips the pairing (`continue`) when either is the dummy, and
otherwise yields the pushed match, home and away swapped when `r >= totalRounds`. -/
def pairing (genId : Nat → Nat → String) (totalRounds r : Nat) (teams : List Participant)
    (i : Nat) : Option LeagueMatch :=
  match teams[i]?, teams[teams.length - 1 - i]? with
  | some home, some away =>
    if home.id = "dummy" ∨ away.id = "dummy" then none
    else some
      { id := genId r i
        round := r + 1
        homeId := if totalRounds ≤ r then away.id else home.id
        awayId := if totalRounds ≤ r then home.id else away.id
        homeScore := none
        awayScore := none }
  | _, _ => none

/-- The inner loop `for (let i = 0; i < teams.length / 2; i++)`, collecting `roundMatches`.
The bound `teams.length / 2` is a real number, so the loop runs for `i < ⌈length / 2⌉`. -/
def roundMatches (genId : Nat → Nat → String) (totalRounds r : Nat) (teams : List Participant) :
    List LeagueMatch :=
  (List.range ((teams.length + 1) / 2)).filterMap (pairing genId totalRounds r teams)

/-- The outer loop `for (let r = 0; r < roundsToPlay; r++)`: the first argument counts the
iterations still to run, `r` is the loop variable, `teams` the working list and `acc` the
contents of `state.leagueMatches`. -/
def leagueLoop (genId : Nat → Nat → String) (totalRounds : Nat) :
    Nat → Nat → List Participant → List LeagueMatch → List LeagueMatch
  | 0, _, _, acc => acc
  | n + 1, r, teams, acc =>
    leagueLoop genId totalRounds n (r + 1) (rotateTeams teams)
      (acc ++ roundMatches genId totalRounds r teams)

/-- `parseInt(leagueRoundsInput.value) || 1`: the argument is the result of `parseInt`, `none`
standing for `NaN`; `NaN` and `0` are falsy and give `1`. -/
def roundsInput (parsed : Option Int) : Int :=
  match parsed with
  | none => 1
  | some 0 => 1
  | some v => v

/-- The working list: a copy of the participants, with the dummy pushed when their number is
odd. -/
def workingTeams (ps : List Participant) : List Participant :=
  if ps.length % 2 ≠ 0 then ps ++ [dummyTeam] else ps

/-- `generateLeague`.  Returns the new state and the alert raised, if any. -/
def generateLeague (genId : Nat → Nat → String) (parsed : Option Int) (s : State) :
    State × Option String :=
  if s.participants.length < 2 then
    (s, some "Need at least 2 teams.")
  else
    let s1 := resetLeague s
    let teams := workingTeams s1.participants
    let totalRounds := teams.length - 1
    let roundsToPlay : Int := min (roundsInput parsed) ((totalRounds : Int) * 2)
    ({ s1 with
        leagueMatches :=
          leagueLoop genId totalRounds roundsToPlay.toNat 0 teams s1.leagueMatches }, none)

/-! ## Standings -/

/-- `state.participants.find(p => p.id === pid)`, as the index of the object found. -/
def findIndexById : List Participant → String → Option Nat
  | [], _ => none
  | p :: ps, pid => if p.id = pid then some 0 else (findIndexById ps pid).map (· + 1)

/-- In-place mutation of the object at index `i` of the participant array. -/
def modifyAt (f : Participant → Participant) : Nat → List Participant → List Participant
  | _, [] => []
  | 0, p :: ps => f p :: ps
  | i + 1, p :: ps => p :: modifyAt f i ps

/-- The body of the second `forEach` of `recalculateStandings` for one match `m`.  `h` and `a`
are the indices of the objects `home` and `away`; the assignments are applied in source
order.  The guard `m.homeScore !== null && m.awayScore !== null` lets every number through,
`NaN` included; `+=`, `-` and `++` read the stored stat through `ToNumber` and compute in
double arithmetic; `>` and `<` are false when a score is `NaN`, which leads to the last
branch. -/
def applyResult (ps : List Participant) (m : LeagueMatch) : List Participant :=
  match m.homeScore, m.awayScore with
  | some hs, some as =>
    match findIndexById ps m.homeId, findIndexById ps m.awayId with
    | some h, some a =>
      let ps := modifyAt (fun p => { p with gf := some (toNumber p.gf + hs) }) h ps
      let ps := modifyAt (fun p => { p with gf := some (toNumber p.gf + as) }) a ps
      let ps := modifyAt (fun p => { p with ga := some (toNumber p.ga + as) }) h ps
      let ps := modifyAt (fun p => { p with ga := some (toNumber p.ga + hs) }) a ps
      let ps := modifyAt (fun p => { p with gd := some (toNumber p.gf - toNumber p.ga) }) h ps
      let ps := modifyAt (fun p => { p with gd := some (toNumber p.gf - toNumber p.ga) }) a ps
      if hs > as then
        let ps := modifyAt (fun p => { p with pts := some (toNumber p.pts + 3) }) h ps
        let ps := modifyAt (fun p => { p with w := some (toNumber p.w + 1) }) h ps
        modifyAt (fun p => { p with l := some (toNumber p.l + 1) }) a ps
      else if hs < as then
        let ps := modifyAt (fun p => { p with pts := some (toNumber p.pts + 3) }) a ps
        let ps := modifyAt (fun p => { p with w := some (toNumber p.w + 1) }) a ps
        modifyAt (fun p => { p with l := some (toNumber p.l + 1) }) h ps
      else
        let ps := modifyAt (fun p => { p with pts := some (toNumber p.pts + 1) }) h ps
        let ps := modifyAt (fun p => { p with d := some (toNumber p.d + 1) }) h ps
        let ps := modifyAt (fun p => { p with pts := some (toNumber p.pts + 1) }) a ps
        modifyAt (fun p => { p with d := some (toNumber p.d + 1) }) a ps
    | _, _ => ps
  | _, _ => ps

/-- `recalculateStandings`: zero every stat, then apply every match in order. -/
def recalculateStandings (s : State) : State :=
  { s with participants := s.leagueMatches.foldl applyResult (s.participants.map resetStats) }

/-! ## Knockout logic -/

/-- The comparator of the ranking sort: points, then goal difference, then goals for, all
descending.  The subtractions read the stats through `ToNumber`. -/
def rankCompare (a b : Participant) : Number :=
  if strictNe b.pts a.pts then toNumber b.pts - toNumber a.pts
  else if strictNe b.gd a.gd then toNumber b.gd - toNumber a.gd
  else toNumber b.gf - toNumber a.gf

/-- The constant `sorted` of `generateKnockout` and of `renderParticipantsTable` (both sort a copy
of the participants with the same comparator): `[...state.participants].sort(cmp)`.
`Array.prototype.sort` is a stable sort; it reads a comparator result `NaN` as `+0`, and `a`
stays before `b` unless `cmp(a, b) > 0`.  With stats that are numbers other than `NaN` the
comparator is consistent and every stable sort gives this list.  With a `NaN` or `null` stat
the comparator is not consistent and the language leaves the order to the implementation; the
list given here is then the one of insertion in list order. -/
def sortRanking (ps : List Participant) : List Participant :=
  ps.insertionSort (fun a b => ¬ (0 < rankCompare a b))

/-- Step 2 of `generateKnockout`: the bracket size, `none` in the branch that alerts. -/
def bracketSize (n : Nat) : Option Nat :=
  if n ≥ 16 then some 16
  else if n ≥ 8 then some 8
  else if n ≥ 4 then some 4
  else if n ≥ 2 then some 2
  else none

/-- Step 4 of `generateKnockout`: the seeded pairings `{ h, a }` for a bracket size. -/
def pairings (size : Nat) : List (Nat × Nat) :=
  if size = 2 then [(0, 1)]
  else if size = 4 then [(0, 3), (1, 2)]
  else if size = 8 then [(0, 7), (3, 4), (2, 5), (1, 6)]
  else if size = 16 then
    [(0, 15), (7, 8), (3, 12), (4, 11), (2, 13), (5, 10), (1, 14), (6, 9)]
  else []

/-- The first round: `pairings.map(p => (...))`; entry `j` has identifier `genId 0 j`, and
`qualifiers[p.h].id` is read through a checked access (the bracket size never exceeds the number
of qualifiers, so the access is always in range). -/
def firstRound (genId : Nat → Nat → String) (qualifiers : List Participant)
    (prs : List (Nat × Nat)) : List KnockoutMatch :=
  prs.mapIdx (fun j p =>
    { matchId := genId 0 j
      homeId := qualifiers[p.1]?.map (fun q => q.id)
      awayId := qualifiers[p.2]?.map (fun q => q.id)
      winnerId := none
      nextMatchId := some none })

/-- One pre-allocated round of `n` empty matches, built by the inner `for` of step 5. -/
def emptyRound (genId : Nat → Nat → String) (k n : Nat) : List KnockoutMatch :=
  (List.range n).map (fun i =>
    { matchId := genId k i
      homeId := none
      awayId := none
      winnerId := none
      nextMatchId := none })

/-- The loop `while (currentSize > 1)` of step 5.  The first argument bounds the number of
iterations; `generateKnockout` passes the bracket size, which always suffices because
`currentSize` is halved in each iteration. -/
def buildRounds (genId : Nat → Nat → String) :
    Nat → Nat → List (List KnockoutMatch) → List (List KnockoutMatch)
  | 0, _, rounds => rounds
  | fuel + 1, currentSize, rounds =>
    if currentSize > 1 then
      buildRounds genId fuel (currentSize / 2)
        (rounds ++ [emptyRound genId rounds.length (currentSize / 2)])
    else rounds

/-- `generateKnockout`.  Returns the new state and the alert raised, if any. -/
def generateKnockout (genId : Nat → Nat → String) (s : State) : State × Option String :=
  let sorted := sortRanking s.participants
  match bracketSize sorted.length with
  | none => (s, some "Need at least 2 teams for a final.")
  | some size =>
    let qualifiers := sorted.take size
    let round1 := firstRound genId qualifiers (pairings size)
    ({ s with knockoutRounds := buildRounds genId size (size / 2) [round1] }, none)

/-! ## Bracket progression -/

/-- In-place mutation of the element at index `i` of an array. -/
def updateAt {α : Type} (f : α → α) : Nat → List α → List α
  | _, [] => []
  | 0, x :: xs => f x :: xs
  | i + 1, x :: xs => x :: updateAt f i xs

/-- In-place mutation of the match object `knockoutRounds[r][m]`. -/
def updateMatch (f : KnockoutMatch → KnockoutMatch) (r m : Nat)
    (rounds : List (List KnockoutMatch)) : List (List KnockoutMatch) :=
  updateAt (updateAt f m) r rounds

/-- The read `knockoutRounds[r][m]`; `none` when the round or the match is `undefined`. -/
def matchAt (rounds : List (List KnockoutMatch)) (r m : Nat) : Option KnockoutMatch :=
  match rounds[r]? with
  | none => none
  | some round => round[m]?

/-- `advanceWinner`.  Returns the new state and whether a `TypeError` was thrown.  Reading
`round[matchIndex]` on an `undefined` round, or writing `match.winnerId` on an `undefined`
match, throws before anything is written.  When the next round exists but has no match at
`floor(matchIndex / 2)`, the write to `nextMatch` throws after the winner was recorded. -/
def advanceWinner (roundIndex matchIndex : Nat) (winnerId : String) (s : State) : State × Bool :=
  match matchAt s.knockoutRounds roundIndex matchIndex with
  | none => (s, true)
  | some _ =>
    let rounds1 :=
      updateMatch (fun mt => { mt with winnerId := some winnerId }) roundIndex matchIndex
        s.knockoutRounds
    let nextRoundIndex := roundIndex + 1
    if nextRoundIndex < rounds1.length then
      let nextMatchIndex := matchIndex / 2
      match matchAt rounds1 nextRoundIndex nextMatchIndex with
      | none => ({ s with knockoutRounds := rounds1 }, true)
      | some _ =>
        let rounds2 :=
          if matchIndex % 2 = 0 then
            updateMatch (fun nm => { nm with homeId := some winnerId }) nextRoundIndex
              nextMatchIndex rounds1
          else
            updateMatch (fun nm => { nm with awayId := some winnerId }) nextRoundIndex
              nextMatchIndex rounds1
        ({ s with
            knockoutRounds :=
              updateMatch (fun nm => { nm with winnerId := none }) nextRoundIndex nextMatchIndex
                rounds2 }, false)
    else ({ s with knockoutRounds := rounds1 }, false)

/-- `window.advance`, the click handler of a bracket line: `r` and `m` are the results of
`parseInt` on the indices written by `renderBracket`; the call is dropped when the id text is
`undefined` or `null`. -/
def windowAdvance (r m : Nat) (id : String) (s : State) : State × Bool :=
  if id ≠ "undefined" ∧ id ≠ "null" then advanceWinner r m id s else (s, false)

/-! ## Score entry -/

/-- `state.leagueMatches.find(m => m.id === matchId)`, as the index of the object found. -/
def findMatchIndex : List LeagueMatch → String → Option Nat
  | [], _ => none
  | m :: ms, mid => if m.id = mid then some 0 else (findMatchIndex ms mid).map (· + 1)

/-- `updateScore`.  The argument `value` is the outcome of `value === '' ? null : parseInt(value)`:
`none` for the empty text, `some v` for the number `v` that `parseInt` returns for any other
text, which is `NaN` when the text does not start with an integer (`.5`, `abc`). -/
def updateScore (matchId type : String) (value : Option Number) (s : State) : State :=
  match findMatchIndex s.leagueMatches matchId with
  | none => s
  | some i =>
    let ms1 :=
      if type = "home" then updateAt (fun m => { m with homeScore := value }) i s.leagueMatches
      else s.leagueMatches
    let ms2 :=
      if type = "away" then updateAt (fun m => { m with awayScore := value }) i ms1
      else ms1
    recalculateStandings { s with leagueMatches := ms2 }

/-! ## Persistence -/

/-- What `JSON.stringify` followed by `JSON.parse` makes of the content of a score or stat
field: `null` stays `null`, a finite number is written and read back as itself, and `NaN`,
`Infinity` and `-Infinity` are written as `null`. -/
def jsonNumber : Option Number → Option Number
  | some (Number.fin z) => some (Number.fin z)
  | _ => none

/-- A participant object as written by `JSON.stringify` and read back by `JSON.parse`. -/
def jsonParticipant (p : Participant) : Participant :=
  { id := p.id
    name := p.name
    pts := jsonNumber p.pts
    w := jsonNumber p.w
    d := jsonNumber p.d
    l := jsonNumber p.l
    gf := jsonNumber p.gf
    ga := jsonNumber p.ga
    gd := jsonNumber p.gd }

/-- A league match object as written by `JSON.stringify` and read back by `JSON.parse`. -/
def jsonMatch (m : LeagueMatch) : LeagueMatch :=
  { m with homeScore := jsonNumber m.homeScore, awayScore := jsonNumber m.awayScore }

/-- The JSON document kept under the key `tournamentData`, as `JSON.parse` returns it, by the
keys this program writes or reads; `none` is an absent key. -/
structure Snapshot where
  participants : Option (List Participant)
  leagueMatches : Option (List LeagueMatch)
  knockoutRounds : Option (List (List KnockoutMatch))
  knockoutRockoutRounds : Option (List (List KnockoutMatch))
deriving DecidableEq

/-- The result of `localStorage.getItem('tournamentData')`: nothing stored, a text that
`JSON.parse` rejects, or a document. -/
inductive Stored where
  | absent
  | malformed
  | document (data : Snapshot)
deriving DecidableEq

/-- `saveToLocal`: the stored item is `JSON.stringify(state)`, a document with exactly the three
keys of `state`; strings and finite numbers are written as they are, `NaN` and the infinities
as `null`. -/
def saveToLocal (s : State) : Stored :=
  Stored.document
    { participants := some (s.participants.map jsonParticipant)
      leagueMatches := some (s.leagueMatches.map jsonMatch)
      knockoutRounds := some s.knockoutRounds
      knockoutRockoutRounds := none }

/-- `loadFromLocal`: nothing happens without a stored item or when parsing throws; otherwise
each field is read with `|| []`, the bracket from the key `knockoutRockoutRounds`. -/
def loadFromLocal (saved : Stored) (s : State) : State :=
  match saved with
  | Stored.absent => s
  | Stored.malformed => s
  | Stored.document data =>
    { participants := data.participants.getD []
      leagueMatches := data.leagueMatches.getD []
      knockoutRounds := data.knockoutRockoutRounds.getD [] }

/-! ## Auxiliary definitions for statements and proofs -/

/-- Index, in the initial working list of length `n + 1`, of the entry that sits at position `j`
after `k` rotations (`k ≤ n`, `j ≤ n`): position `0` never moves, the others move one place
towards the end at each rotation and wrap around from the last place to place `1`. -/
def seat (n k j : Nat) : Nat :=
  if j = 0 then 0 else if k < j then j - k else j + n - k

/-- Length of the working list for `n` participants: `n` padded to the next even number. -/
def paddedLength (n : Nat) : Nat := n + n % 2

/-- Number of iterations of the round loop for a parsed input and `n` participants:
`min(roundsInput, 2 × (M − 1))`, none when that is not positive. -/
def roundsToPlay (parsed : Option Int) (n : Nat) : Nat :=
  (min (roundsInput parsed) (((paddedLength n - 1 : Nat) : Int) * 2)).toNat

/-- A freshly registered participant, as built by `addParticipant`: the given id (and the same
text as name) with all stats zero.  Used to write down concrete inputs. -/
def mkParticipant (pid : String) : Participant :=
  { id := pid, name := pid, pts := 0, w := 0, d := 0, l := 0, gf := 0, ga := 0, gd := 0 }

/-- The state right after registering participants with the given ids: no league matches, no
bracket.  Used to write down concrete inputs. -/
def stateOf (ids : List String) : State :=
  { participants := ids.map mkParticipant, leagueMatches := [], knockoutRounds := [] }

/-- The working list keeps the ids of real participants apart: its ids other than `dummy` are
pairwise different. -/
def DistinctReal (teams : List Participant) : Prop :=
  ((teams.map (fun p => p.id)).filter (fun x => x ≠ "dummy")).Nodup

instance (teams : List Participant) : Decidable (DistinctReal teams) := by
  unfold DistinctReal
  infer_instance

/-! ## The circle method as the specification words it -/

/-- Specification: the ids of the working list, the placeholder id appended when the number of
participants is odd. -/
def paddedIds (ps : List Participant) : List String :=
  ps.map (fun p => p.id) ++ (if ps.length % 2 = 1 then ["dummy"] else [])

/-- Specification: one rotation.  Position 0 keeps its entry, position 1 receives the last
entry, every later position `j` receives the entry of position `j − 1`. -/
def circleStep (L : List String) : List String :=
  (List.range L.length).filterMap
    (fun j => if j = 0 then L[0]? else if j = 1 then L[L.length - 1]? else L[j - 1]?)

/-- Specification: the list `L_k` obtained from `L_0` by `k` rotations. -/
def circleList (L0 : List String) : Nat → List String
  | 0 => L0
  | k + 1 => circleStep (circleList L0 k)

/-- Specification: the pairings of one round on the list `L` of even size `M`: for
`i = 0, ..., M/2 − 1` in order, home `L[i]` against away `L[M − 1 − i]`, pairings with the
placeholder omitted. -/
def circleRound (L : List String) : List (String × String) :=
  (List.range (L.length / 2)).filterMap (fun i =>
    match L[i]?, L[L.length - 1 - i]? with
    | some home, some away =>
      if home = "dummy" ∨ away = "dummy" then none else some (home, away)
    | _, _ => none)

/-! ## Standings as the specification words them -/

/-- Both scores of the match are set. -/
def bothSet (m : LeagueMatch) : Bool :=
  m.homeScore.isSome && m.awayScore.isSome

/-- The matches that count for the participant with id `pid`: both scores set, and `pid` is
the home or the away side. -/
def countedFor (pid : String) (ms : List LeagueMatch) : List LeagueMatch :=
  ms.filter (fun m => bothSet m && (decide (m.homeId = pid) || decide (m.awayId = pid)))

/-- The integer held by a score or stat field; 0 when the field holds `null` or a number that
is no integer. -/
def intValue : Option Number → Int
  | some (Number.fin z) => z
  | _ => 0

/-- The score of the side `pid` in a match that counts for it. -/
def ownScore (pid : String) (m : LeagueMatch) : Int :=
  if m.homeId = pid then intValue m.homeScore else intValue m.awayScore

/-- The score of the opponent of `pid` in a match that counts for it. -/
def oppScore (pid : String) (m : LeagueMatch) : Int :=
  if m.homeId = pid then intValue m.awayScore else intValue m.homeScore

/-- The score or stat field holds an integer. -/
def isInteger : Option Number → Bool
  | some (Number.fin _) => true
  | _ => false

/-- Both scores of the match are integers. -/
def IntegerScores (m : LeagueMatch) : Prop :=
  isInteger m.homeScore = true ∧ isInteger m.awayScore = true

instance (m : LeagueMatch) : Decidable (IntegerScores m) := by
  unfold IntegerScores
  infer_instance

/-- The sum of the absolute values of the scores of the matches with both scores set. -/
def scoreTotal (ms : List LeagueMatch) : Nat :=
  (ms.map (fun m =>
    if bothSet m then (intValue m.homeScore).natAbs + (intValue m.awayScore).natAbs
    else 0)).sum

/-- The net effect of one match on one participant record, when the home and the away side are
different participants: the home side and the away side get their goals, goal difference,
points and win, draw or loss; everybody else is untouched. -/
def stepStats (m : LeagueMatch) (p : Participant) : Participant :=
  match m.homeScore, m.awayScore with
  | some hs, some as =>
    if p.id = m.homeId then
      { p with
        gf := some (toNumber p.gf + hs), ga := some (toNumber p.ga + as)
        gd := some (toNumber p.gf + hs - (toNumber p.ga + as))
        pts := if hs > as then some (toNumber p.pts + 3) else if hs < as then p.pts
          else some (toNumber p.pts + 1)
        w := if hs > as then some (toNumber p.w + 1) else p.w
        l := if hs > as then p.l else if hs < as then some (toNumber p.l + 1) else p.l
        d := if hs > as then p.d else if hs < as then p.d else some (toNumber p.d + 1) }
    else if p.id = m.awayId then
      { p with
        gf := some (toNumber p.gf + as), ga := some (toNumber p.ga + hs)
        gd := some (toNumber p.gf + as - (toNumber p.ga + hs))
        pts := if hs > as then p.pts else if hs < as then some (toNumber p.pts + 3)
          else some (toNumber p.pts + 1)
        w := if hs > as then p.w else if hs < as then some (toNumber p.w + 1) else p.w
        l := if hs > as then some (toNumber p.l + 1) else p.l
        d := if hs > as then p.d else if hs < as then p.d else some (toNumber p.d + 1) }
    else p
  | _, _ => p

/-! ## Reachable states -/

/-- The bracket states reachable from `s0` by `advanceWinner` calls whose indices address an
existing match and whose winner id is the home id or the away id of that match at the time of
the call. -/
inductive ReachableByWinners (s0 : State) : State → Prop
  | start : ReachableByWinners s0 s0
  | advance (s : State) (r m : Nat) (w : String) (mt : KnockoutMatch) :
      ReachableByWinners s0 s → matchAt s.knockoutRounds r m = some mt →
      (mt.homeId = some w ∨ mt.awayId = some w) →
      ReachableByWinners s0 (advanceWinner r m w s).1

/-- The bracket states reachable from `s0` by `advanceWinner` calls whose indices address an
existing match, with any winner id. -/
inductive ReachableByCalls (s0 : State) : State → Prop
  | start : ReachableByCalls s0 s0
  | advance (s : State) (r m : Nat) (w : String) (mt : KnockoutMatch) :
      ReachableByCalls s0 s → matchAt s.knockoutRounds r m = some mt →
      ReachableByCalls s0 (advanceWinner r m w s).1

/-- The league states reachable from `s0` by score entries through `updateScore`, on the home
or the away side, with the empty value (`none`) or an entered value (`some v`) that satisfies
`ok`; with `ok` always true these are all score entries. -/
inductive ReachableByScores (ok : Number → Prop) (s0 : State) : State → Prop
  | start : ReachableByScores ok s0 s0
  | home (s : State) (matchId : String) (value : Option Number) :
      ReachableByScores ok s0 s → (∀ v, value = some v → ok v) →
      ReachableByScores ok s0 (updateScore matchId "home" value s)
  | away (s : State) (matchId : String) (value : Option Number) :
      ReachableByScores ok s0 s → (∀ v, value = some v → ok v) →
      ReachableByScores ok s0 (updateScore matchId "away" value s)

/-! ## Persistence as the specification words it -/

/-- Specification: the score or stat field holds `null` or a finite number. -/
def finiteField : Option Number → Bool
  | some Number.nan => false
  | some Number.posInf => false
  | some Number.negInf => false
  | _ => true

/-- Specification: no score and no stat of the state is `NaN` or infinite. -/
def FiniteNumbers (s : State) : Prop :=
  (∀ p ∈ s.participants, finiteField p.pts = true ∧ finiteField p.w = true ∧
    finiteField p.d = true ∧ finiteField p.l = true ∧ finiteField p.gf = true ∧
    finiteField p.ga = true ∧ finiteField p.gd = true) ∧
  (∀ m ∈ s.leagueMatches, finiteField m.homeScore = true ∧ finiteField m.awayScore = true)

instance (s : State) : Decidable (FiniteNumbers s) := by
  unfold FiniteNumbers
  infer_instance

/-! ## Bracket progression as the specification words it -/

/-- Specification: the effect of recording a winner on the destination match: the slot fed by
`matchIndex` (home for an even index, away for an odd one) receives the winner and the winner
field is cleared. -/
def feedSlot (matchIndex : Nat) (winnerId : String) (nm : KnockoutMatch) : KnockoutMatch :=
  if matchIndex % 2 = 0 then { nm with homeId := some winnerId, winnerId := none }
  else { nm with awayId := some winnerId, winnerId := none }

/-- Specification: every round has twice as many matches as the next one. -/
def Halving (rounds : List (List KnockoutMatch)) : Prop :=
  ∀ k, k < rounds.length - 1 →
    (rounds.getD k []).length = 2 * (rounds.getD (k + 1) []).length

instance (rounds : List (List KnockoutMatch)) : Decidable (Halving rounds) := by
  unfold Halving
  infer_instance

/-! ## Ranking as the specification words it -/

/-- Specification: the participant has integer stats. -/
def IntegerStats (p : Participant) : Prop :=
  isInteger p.pts = true ∧ isInteger p.w = true ∧ isInteger p.d = true ∧
  isInteger p.l = true ∧ isInteger p.gf = true ∧ isInteger p.ga = true ∧
  isInteger p.gd = true

instance (p : Participant) : Decidable (IntegerStats p) := by
  unfold IntegerStats
  infer_instance

/-- Specification: the ranking key (points, goal difference, goals for), for integer stats. -/
def rankKey (p : Participant) : Int × Int × Int :=
  (intValue p.pts, intValue p.gd, intValue p.gf)

/-- Specification: the key of `a` is lexicographically greater than or equal to the key of
`b`. -/
def keyGe (a b : Participant) : Prop :=
  intValue a.pts > intValue b.pts ∨ (intValue a.pts = intValue b.pts ∧
    (intValue a.gd > intValue b.gd ∨ (intValue a.gd = intValue b.gd ∧
      intValue a.gf ≥ intValue b.gf)))

instance (a b : Participant) : Decidable (keyGe a b) := by
  unfold keyGe
  infer_instance

/-! ## Seeding as the specification words it -/

/-- Specification: the first-round pairing table (rank of the home side, rank of the away side)
for each bracket size. -/
def seedTable : Nat → List (Nat × Nat)
  | 2 => [(0, 1)]
  | 4 => [(0, 3), (1, 2)]
  | 8 => [(0, 7), (3, 4), (2, 5), (1, 6)]
  | 16 => [(0, 15), (7, 8), (3, 12), (4, 11), (2, 13), (5, 10), (1, 14), (6, 9)]
  | _ => []

/-- Specification: `size` is the largest element of {2, 4, 8, 16} that is at most `n`. -/
def IsBracketSize (n size : Nat) : Prop :=
  size ∈ [2, 4, 8, 16] ∧ size ≤ n ∧ ∀ t ∈ [2, 4, 8, 16], t ≤ n → t ≤ size

instance (n size : Nat) : Decidable (IsBracketSize n size) := by
  unfold IsBracketSize
  infer_instance

/-! ## The league loop unrolled -/

theorem rotateTeams_single (first : Participant) : rotateTeams [first] = [first] := rfl

theorem rotateTeams_cons (first last : Participant) (rest : List Participant)
    (h : rest.getLast? = some last) :
    rotateTeams (first :: rest) = first :: last :: rest.dropLast := by
  simp [rotateTeams, h]

theorem rotateTeams_cases (first : Participant) (rest : List Participant) :
    (rest = [] ∧ rotateTeams (first :: rest) = [first]) ∨
    ∃ last, rest.getLast? = some last ∧ rest.dropLast ++ [last] = rest ∧
      rotateTeams (first :: rest) = first :: last :: rest.dropLast := by
  cases h : rest.getLast? with
  | none => left; simp at h; subst h; exact ⟨rfl, rfl⟩
  | some last =>
    right
    exact ⟨last, rfl, List.dropLast_append_getLast? last h, rotateTeams_cons _ _ _ h⟩

theorem length_rotateTeams (T : List Participant) : (rotateTeams T).length = T.length := by
  cases T with
  | nil => rfl
  | cons first rest =>
    rcases rotateTeams_cases first rest with ⟨h1, h2⟩ | ⟨last, _, h2, h3⟩
    · rw [h2, h1]
    · rw [h3]
      conv_rhs => rw [← h2]
      simp

theorem rotateTeams_perm (T : List Participant) : (rotateTeams T).Perm T := by
  cases T with
  | nil => exact List.Perm.refl _
  | cons first rest =>
    rcases rotateTeams_cases first rest with ⟨h1, h2⟩ | ⟨last, _, h2, h3⟩
    · rw [h2, h1]
    · rw [h3]
      refine List.Perm.cons _ ?_
      conv_rhs => rw [← h2]
      simpa using (List.perm_append_comm : ([last] ++ rest.dropLast).Perm (rest.dropLast ++ [last]))

theorem getElem?_rotateTeams (T : List Participant) (n j : Nat) (hT : T.length = n + 1)
    (hj : j ≤ n) : (rotateTeams T)[j]? = T[seat n 1 j]? := by
  cases T with
  | nil => simp at hT
  | cons first rest =>
    simp at hT
    rcases rotateTeams_cases first rest with ⟨h1, h2⟩ | ⟨last, h, h2, h3⟩
    · subst h1; simp at hT; subst hT
      have : j = 0 := by omega
      subst this; simp [seat, h2]
    · rw [h3]
      rw [List.getLast?_eq_getElem?] at h
      rcases j with _ | _ | j
      · simp [seat]
      · have : seat n 1 1 = (rest.length - 1) + 1 := by simp [seat]; omega
        simp [this, h]
      · have : seat n 1 (j + 2) = j + 1 := by simp [seat]
        rw [this]
        simp [List.dropLast_eq_take, List.getElem?_take]
        omega

theorem seat_succ (n k j : Nat) (hk : k + 1 ≤ n) (hj : j ≤ n) :
    seat n k (seat n 1 j) = seat n (k + 1) j := by
  unfold seat
  split_ifs <;> omega

theorem seat_le (n k j : Nat) (hk : k ≤ n) (hj : j ≤ n) : seat n k j ≤ n := by
  unfold seat
  split_ifs <;> omega

theorem seat_zero (n j : Nat) : seat n 0 j = j := by
  unfold seat
  split_ifs <;> omega

theorem seat_full (n j : Nat) (hj : j ≤ n) : seat n n j = j := by
  unfold seat
  split_ifs <;> omega

theorem length_iterate_rotateTeams (k : Nat) (T : List Participant) :
    (rotateTeams^[k] T).length = T.length := by
  induction k generalizing T with
  | zero => rfl
  | succ k ih => rw [Function.iterate_succ_apply, ih, length_rotateTeams]

theorem iterate_rotateTeams_perm (k : Nat) (T : List Participant) :
    (rotateTeams^[k] T).Perm T := by
  induction k generalizing T with
  | zero => exact List.Perm.refl _
  | succ k ih =>
    rw [Function.iterate_succ_apply]
    exact (ih _).trans (rotateTeams_perm T)

theorem getElem?_iterate_rotateTeams (T : List Participant) (n k j : Nat)
    (hT : T.length = n + 1) (hk : k ≤ n) (hj : j ≤ n) :
    (rotateTeams^[k] T)[j]? = T[seat n k j]? := by
  induction k generalizing j with
  | zero => rw [seat_zero]; rfl
  | succ k ih =>
    rw [Function.iterate_succ_apply',
      getElem?_rotateTeams _ n _ (by rw [length_iterate_rotateTeams, hT]) hj,
      ih _ (by omega) (seat_le n 1 j (by omega) hj), seat_succ n k j hk hj]


/-! ## The league loop unrolled -/

theorem leagueLoop_eq (genId : Nat → Nat → String) (T n r : Nat) (teams : List Participant)
    (acc : List LeagueMatch) :
    leagueLoop genId T n r teams acc =
      acc ++ (List.range n).flatMap
        (fun k => roundMatches genId T (r + k) (rotateTeams^[k] teams)) := by
  induction n generalizing r teams acc with
  | zero => simp [leagueLoop]
  | succ n ih =>
    rw [leagueLoop, ih, List.range_succ_eq_map, List.flatMap_cons, List.flatMap_map,
      List.append_assoc]
    congr 2
    apply List.flatMap_congr
    intro k _
    simp only [Function.comp, Function.iterate_succ_apply, Nat.succ_eq_add_one]
    congr 1
    omega

theorem length_workingTeams (ps : List Participant) :
    (workingTeams ps).length = paddedLength ps.length := by
  unfold workingTeams paddedLength
  split_ifs with h
  · simp; omega
  · omega

theorem generateLeague_fail (genId : Nat → Nat → String) (parsed : Option Int) (s : State)
    (h : s.participants.length < 2) :
    generateLeague genId parsed s = (s, some "Need at least 2 teams.") := by
  simp [generateLeague, h]

theorem generateLeague_ok (genId : Nat → Nat → String) (parsed : Option Int) (s : State)
    (h : 2 ≤ s.participants.length) :
    generateLeague genId parsed s =
      ({ participants := s.participants.map resetStats
         leagueMatches := (List.range (roundsToPlay parsed s.participants.length)).flatMap
           (fun k => roundMatches genId (paddedLength s.participants.length - 1) k
             (rotateTeams^[k] (workingTeams (s.participants.map resetStats))))
         knockoutRounds := [] }, none) := by
  have h1 : ¬ s.participants.length < 2 := by omega
  simp only [generateLeague, h1, if_false, resetLeague, leagueLoop_eq, List.nil_append,
    length_workingTeams, List.length_map, Nat.zero_add, roundsToPlay]

theorem round_of_mem_roundMatches (genId : Nat → Nat → String) (T r : Nat)
    (teams : List Participant) (m : LeagueMatch) (hm : m ∈ roundMatches genId T r teams) :
    m.round = r + 1 := by
  simp only [roundMatches, List.mem_filterMap, pairing] at hm
  obtain ⟨i, _, hi⟩ := hm
  split at hi
  · split at hi
    · simp at hi
    · simp at hi; rw [← hi]
  · simp at hi

theorem filter_round_flatMap (genId : Nat → Nat → String) (T n r : Nat)
    (teams : Nat → List Participant) :
    ((List.range n).flatMap (fun k => roundMatches genId T k (teams k))).filter
        (fun m => m.round = r + 1) =
      if r < n then roundMatches genId T r (teams r) else [] := by
  induction n with
  | zero => simp
  | succ n ih =>
    rw [List.range_succ, List.flatMap_append, List.filter_append, ih, List.flatMap_singleton]
    by_cases h1 : r < n
    · have : List.filter (fun m => decide (m.round = r + 1)) (roundMatches genId T n (teams n)) = [] := by
        rw [List.filter_eq_nil_iff]
        intro m hm
        have := round_of_mem_roundMatches _ _ _ _ _ hm
        simp; omega
      simp [h1, this, Nat.lt_succ_of_lt h1]
    · by_cases h2 : r = n
      · subst h2
        have : List.filter (fun m => decide (m.round = r + 1)) (roundMatches genId T r (teams r)) = roundMatches genId T r (teams r) := by
          rw [List.filter_eq_self]
          intro m hm
          simp [round_of_mem_roundMatches _ _ _ _ _ hm]
        simp [this]
      · have : List.filter (fun m => decide (m.round = r + 1)) (roundMatches genId T n (teams n)) = [] := by
          rw [List.filter_eq_nil_iff]
          intro m hm
          have := round_of_mem_roundMatches _ _ _ _ _ hm
          simp; omega
        have h3 : ¬ r < n + 1 := by omega
        simp [h1, this, h3]

/-! ## Membership in a round -/

theorem pairing_eq_some (genId : Nat → Nat → String) (T r i : Nat) (teams : List Participant)
    (home away : Participant) (hh : teams[i]? = some home)
    (ha : teams[teams.length - 1 - i]? = some away)
    (h1 : home.id ≠ "dummy") (h2 : away.id ≠ "dummy") :
    pairing genId T r teams i = some
      { id := genId r i
        round := r + 1
        homeId := if T ≤ r then away.id else home.id
        awayId := if T ≤ r then home.id else away.id
        homeScore := none
        awayScore := none } := by
  simp [pairing, hh, ha, h1, h2]

theorem pairing_some_inv (genId : Nat → Nat → String) (T r i : Nat) (teams : List Participant)
    (m : LeagueMatch) (h : pairing genId T r teams i = some m) :
    ∃ home away, teams[i]? = some home ∧ teams[teams.length - 1 - i]? = some away ∧
      home.id ≠ "dummy" ∧ away.id ≠ "dummy" ∧
      m = { id := genId r i
            round := r + 1
            homeId := if T ≤ r then away.id else home.id
            awayId := if T ≤ r then home.id else away.id
            homeScore := none
            awayScore := none } := by
  unfold pairing at h
  split at h
  · next home away hh ha =>
    split at h
    · simp at h
    · next hd =>
      simp only [not_or] at hd
      simp only [Option.some.injEq] at h
      exact ⟨home, away, hh, ha, hd.1, hd.2, h.symm⟩
  · simp at h

theorem mem_roundMatches (genId : Nat → Nat → String) (T r : Nat) (teams : List Participant)
    (m : LeagueMatch) (hm : m ∈ roundMatches genId T r teams) :
    ∃ i home away, i < (teams.length + 1) / 2 ∧ teams[i]? = some home ∧
      teams[teams.length - 1 - i]? = some away ∧
      home.id ≠ "dummy" ∧ away.id ≠ "dummy" ∧
      m = { id := genId r i
            round := r + 1
            homeId := if T ≤ r then away.id else home.id
            awayId := if T ≤ r then home.id else away.id
            homeScore := none
            awayScore := none } := by
  simp only [roundMatches, List.mem_filterMap, List.mem_range] at hm
  obtain ⟨i, hi, h⟩ := hm
  obtain ⟨home, away, h1, h2, h3, h4, h5⟩ := pairing_some_inv _ _ _ _ _ _ h
  exact ⟨i, home, away, hi, h1, h2, h3, h4, h5⟩

theorem resetStats_id (p : Participant) : (resetStats p).id = p.id := rfl

theorem map_id_resetStats (ps : List Participant) :
    (ps.map resetStats).map (fun p => p.id) = ps.map (fun p => p.id) := by
  simp [List.map_map, Function.comp, resetStats_id]

theorem ids_workingTeams (ps : List Participant) :
    (workingTeams ps).map (fun p => p.id) =
      ps.map (fun p => p.id) ++ (if ps.length % 2 ≠ 0 then ["dummy"] else []) := by
  unfold workingTeams
  split_ifs <;> simp [dummyTeam]

/-- Every match of a fixture list built by the round loop is between two entries of the initial
working list, neither of which has the id of the bye placeholder. -/
theorem sides_of_mem_fixtures (genId : Nat → Nat → String) (T n : Nat)
    (teams : List Participant) (m : LeagueMatch)
    (hm : m ∈ (List.range n).flatMap
      (fun k => roundMatches genId T k (rotateTeams^[k] teams))) :
    m.homeId ≠ "dummy" ∧ m.awayId ≠ "dummy" ∧
      m.homeId ∈ teams.map (fun p => p.id) ∧ m.awayId ∈ teams.map (fun p => p.id) ∧
      m.homeScore = none ∧ m.awayScore = none := by
  simp only [List.mem_flatMap, List.mem_range] at hm
  obtain ⟨k, _, hk⟩ := hm
  obtain ⟨i, home, away, _, h1, h2, h3, h4, h5⟩ := mem_roundMatches _ _ _ _ _ hk
  have p := iterate_rotateTeams_perm k teams
  have m1 : home.id ∈ teams.map (fun p => p.id) :=
    List.mem_map.mpr ⟨home, p.mem_iff.mp (List.getElem?_mem h1), rfl⟩
  have m2 : away.id ∈ teams.map (fun p => p.id) :=
    List.mem_map.mpr ⟨away, p.mem_iff.mp (List.getElem?_mem h2), rfl⟩
  subst h5
  by_cases hT : T ≤ k <;> simp [hT, h3, h4, m1, m2]

/-- C3. With an odd number N ≥ 3 of participants, whatever the requested round count, no match
in the output of `generateLeague` has the id of the bye placeholder (`dummy`) as its home or away
id: both sides of every generated match are ids of real participants. -/
theorem generateLeague_never_references_bye (genId : Nat → Nat → String) (parsed : Option Int)
    (s : State) (hodd : s.participants.length % 2 = 1) (h3 : 3 ≤ s.participants.length) :
    ∀ m ∈ (generateLeague genId parsed s).1.leagueMatches,
      m.homeId ≠ "dummy" ∧ m.awayId ≠ "dummy" ∧
      m.homeId ∈ s.participants.map (fun p => p.id) ∧
      m.awayId ∈ s.participants.map (fun p => p.id) := by
  intro m hm
  rw [generateLeague_ok _ _ _ (by omega)] at hm
  obtain ⟨h1, h2, h3, h4, _⟩ := sides_of_mem_fixtures _ _ _ _ _ hm
  rw [ids_workingTeams, map_id_resetStats] at h3 h4
  simp only [List.length_map, hodd] at h3 h4
  simp only [List.mem_append] at h3 h4
  refine ⟨h1, h2, ?_, ?_⟩
  · rcases h3 with h | h
    · exact h
    · simp at h; exact absurd h h1
  · rcases h4 with h | h
    · exact h
    · simp at h; exact absurd h h2

/-- Witness for C3: three participants, five requested rounds, at the first generated match
B-C. -/
theorem generateLeague_never_references_bye_witness :
    (stateOf ["A", "B", "C"]).participants.length % 2 = 1 ∧
    3 ≤ (stateOf ["A", "B", "C"]).participants.length ∧
    ({ id := "", round := 1, homeId := "B", awayId := "C", homeScore := none,
       awayScore := none } : LeagueMatch) ∈
      (generateLeague (fun _ _ => "") (some 5) (stateOf ["A", "B", "C"])).1.leagueMatches ∧
    ("B" ≠ "dummy" ∧ "C" ≠ "dummy" ∧
      "B" ∈ (stateOf ["A", "B", "C"]).participants.map (fun p => p.id) ∧
      "C" ∈ (stateOf ["A", "B", "C"]).participants.map (fun p => p.id)) :=
  ⟨by decide, by decide, by decide,
    generateLeague_never_references_bye (fun _ _ => "") (some 5) (stateOf ["A", "B", "C"])
      (by decide) (by decide)
      { id := "", round := 1, homeId := "B", awayId := "C", homeScore := none,
        awayScore := none } (by decide)⟩

/-! ## Failure and reset -/

theorem length_sortRanking (ps : List Participant) : (sortRanking ps).length = ps.length :=
  List.length_insertionSort _ ps

theorem generateKnockout_fail (genId : Nat → Nat → String) (s : State)
    (h : s.participants.length < 2) :
    generateKnockout genId s = (s, some "Need at least 2 teams for a final.") := by
  have hb : bracketSize (sortRanking s.participants).length = none := by
    rw [length_sortRanking]
    unfold bracketSize
    split_ifs <;> first | omega | rfl
  simp only [generateKnockout, hb]

/-- C7. With fewer than two participants `generateLeague` and `generateKnockout` both fail: each
raises its alert and returns the state exactly as it was (participants with their stats, league
matches and knockout rounds), so no partial fixture list or bracket is produced. -/
theorem generation_fails_below_two_participants (genId : Nat → Nat → String)
    (parsed : Option Int) (s : State) (h : s.participants.length < 2) :
    generateLeague genId parsed s = (s, some "Need at least 2 teams.") ∧
    generateKnockout genId s = (s, some "Need at least 2 teams for a final.") :=
  ⟨generateLeague_fail genId parsed s h, generateKnockout_fail genId s h⟩

/-- Witness for C7: one participant, with a league match and a bracket left over. -/
theorem generation_fails_below_two_participants_witness :
    generateLeague (fun _ _ => "x") (some 3)
        { participants := [{ mkParticipant "A" with pts := 4, gf := 2 }]
          leagueMatches := [{ id := "m", round := 1, homeId := "A", awayId := "B",
                              homeScore := some 1, awayScore := none }]
          knockoutRounds := [[{ matchId := "k", homeId := some "A", awayId := none,
                                winnerId := none, nextMatchId := none }]] } =
      ({ participants := [{ mkParticipant "A" with pts := 4, gf := 2 }]
         leagueMatches := [{ id := "m", round := 1, homeId := "A", awayId := "B",
                             homeScore := some 1, awayScore := none }]
         knockoutRounds := [[{ matchId := "k", homeId := some "A", awayId := none,
                               winnerId := none, nextMatchId := none }]] },
        some "Need at least 2 teams.") ∧
    generateKnockout (fun _ _ => "x")
        { participants := [{ mkParticipant "A" with pts := 4, gf := 2 }]
          leagueMatches := [{ id := "m", round := 1, homeId := "A", awayId := "B",
                              homeScore := some 1, awayScore := none }]
          knockoutRounds := [[{ matchId := "k", homeId := some "A", awayId := none,
                                winnerId := none, nextMatchId := none }]] } =
      ({ participants := [{ mkParticipant "A" with pts := 4, gf := 2 }]
         leagueMatches := [{ id := "m", round := 1, homeId := "A", awayId := "B",
                             homeScore := some 1, awayScore := none }]
         knockoutRounds := [[{ matchId := "k", homeId := some "A", awayId := none,
                               winnerId := none, nextMatchId := none }]] },
        some "Need at least 2 teams for a final.") :=
  generation_fails_below_two_participants (fun _ _ => "x") (some 3) _ (by decide)

theorem roundMatches_congr_ids (g1 g2 : Nat → Nat → String) (T r : Nat)
    (teams : List Participant) :
    (roundMatches g1 T r teams).map (fun m => { m with id := "" }) =
      (roundMatches g2 T r teams).map (fun m => { m with id := "" }) := by
  unfold roundMatches
  rw [List.map_filterMap, List.map_filterMap]
  apply List.filterMap_congr
  intro i _
  unfold pairing
  split
  · split <;> simp
  · simp

theorem map_resetStats_eq (ps : List Participant) :
    ps.map resetStats =
      (ps.map (fun p => (p.id, p.name))).map (fun q =>
        { id := q.1, name := q.2, pts := 0, w := 0, d := 0, l := 0, gf := 0, ga := 0, gd := 0 }) := by
  simp [List.map_map, Function.comp, resetStats]

/-- C8. With at least two participants `generateLeague` succeeds (no alert) and, whatever league
matches, scores, stats and bracket the state held: the bracket is empty afterwards; every
participant keeps id and name and has all seven stats zero; the league matches are exactly the
list built by the round loop from the participants, each match with both scores unset and an
identifier freshly drawn from the generator; hence two states with the same participants give
the same result, and the result for two different identifier sources differs in match
identifiers only. -/
theorem generateLeague_replaces_prior_state (genId : Nat → Nat → String) (parsed : Option Int)
    (s : State) (h : 2 ≤ s.participants.length) :
    (generateLeague genId parsed s).2 = none ∧
    (generateLeague genId parsed s).1.knockoutRounds = [] ∧
    (generateLeague genId parsed s).1.participants.map (fun p => (p.id, p.name)) =
      s.participants.map (fun p => (p.id, p.name)) ∧
    (∀ p ∈ (generateLeague genId parsed s).1.participants,
      p.pts = 0 ∧ p.w = 0 ∧ p.d = 0 ∧ p.l = 0 ∧ p.gf = 0 ∧ p.ga = 0 ∧ p.gd = 0) ∧
    (generateLeague genId parsed s).1.leagueMatches =
      leagueLoop genId (paddedLength s.participants.length - 1)
        (roundsToPlay parsed s.participants.length) 0
        (workingTeams (s.participants.map resetStats)) [] ∧
    (∀ m ∈ (generateLeague genId parsed s).1.leagueMatches,
      m.homeScore = none ∧ m.awayScore = none ∧ ∃ r i, m.id = genId r i) ∧
    (∀ s2 : State, s2.participants = s.participants →
      generateLeague genId parsed s2 = generateLeague genId parsed s) ∧
    (∀ (genId2 : Nat → Nat → String) (s2 : State),
      s2.participants.map (fun p => (p.id, p.name)) =
        s.participants.map (fun p => (p.id, p.name)) →
      (generateLeague genId2 parsed s2).1.participants =
        (generateLeague genId parsed s).1.participants ∧
      (generateLeague genId2 parsed s2).1.knockoutRounds =
        (generateLeague genId parsed s).1.knockoutRounds ∧
      (generateLeague genId2 parsed s2).1.leagueMatches.map (fun m => { m with id := "" }) =
        (generateLeague genId parsed s).1.leagueMatches.map (fun m => { m with id := "" })) := by
  have hok := generateLeague_ok genId parsed s h
  refine ⟨by rw [hok], by rw [hok], ?_, ?_, ?_, ?_, ?_, ?_⟩
  · rw [hok]
    simp [List.map_map, Function.comp, resetStats]
  · rw [hok]
    intro p hp
    simp only [List.mem_map] at hp
    obtain ⟨q, _, rfl⟩ := hp
    simp [resetStats]
  · rw [hok, leagueLoop_eq]
    simp
  · rw [hok]
    intro m hm
    obtain ⟨_, _, _, _, h5, h6⟩ := sides_of_mem_fixtures _ _ _ _ _ hm
    refine ⟨h5, h6, ?_⟩
    simp only [List.mem_flatMap, List.mem_range] at hm
    obtain ⟨k, _, hk⟩ := hm
    obtain ⟨i, home, away, _, _, _, _, _, h7⟩ := mem_roundMatches _ _ _ _ _ hk
    exact ⟨k, i, by rw [h7]⟩
  · intro s2 h2
    rw [hok, generateLeague_ok genId parsed s2 (by rw [h2]; exact h), h2]
  · intro genId2 s2 h2
    have hlen : s2.participants.length = s.participants.length := by
      have := congrArg List.length h2
      simpa using this
    have hreset : s2.participants.map resetStats = s.participants.map resetStats :=
      (map_resetStats_eq _).trans ((congrArg _ h2).trans (map_resetStats_eq _).symm)
    rw [hok, generateLeague_ok genId2 parsed s2 (by rw [hlen]; exact h), hlen, hreset]
    refine ⟨rfl, rfl, ?_⟩
    simp only [List.map_flatMap]
    apply List.flatMap_congr
    intro k _
    exact roundMatches_congr_ids _ _ _ _ _

/-- Witness for C8: two participants with old stats, an old match and an old bracket. -/
theorem generateLeague_replaces_prior_state_witness :
    (generateLeague (fun _ _ => "x") (some 1)
        { participants := [{ mkParticipant "A" with pts := 3, w := 1, gf := 2, gd := 2 },
                           { mkParticipant "B" with l := 1, ga := 2, gd := some (-2) }]
          leagueMatches := [{ id := "old", round := 1, homeId := "A", awayId := "B",
                              homeScore := some 2, awayScore := some 0 }]
          knockoutRounds := [[{ matchId := "k", homeId := some "A", awayId := some "B",
                                winnerId := some "A", nextMatchId := some none }]] }).1 =
      { participants := [mkParticipant "A", mkParticipant "B"]
        leagueMatches := [{ id := "x", round := 1, homeId := "A", awayId := "B",
                            homeScore := none, awayScore := none }]
        knockoutRounds := [] } ∧
    (generateLeague (fun _ _ => "x") (some 1)
        { participants := [{ mkParticipant "A" with pts := 3, w := 1, gf := 2, gd := 2 },
                           { mkParticipant "B" with l := 1, ga := 2, gd := some (-2) }]
          leagueMatches := [{ id := "old", round := 1, homeId := "A", awayId := "B",
                              homeScore := some 2, awayScore := some 0 }]
          knockoutRounds := [[{ matchId := "k", homeId := some "A", awayId := some "B",
                                winnerId := some "A", nextMatchId := some none }]] }).1.knockoutRounds
      = [] :=
  ⟨by decide, (generateLeague_replaces_prior_state (fun _ _ => "x") (some 1) _ (by decide)).2.1⟩

/-! ## The second half of a double round robin -/

theorem iterate_rotateTeams_full (T : List Participant) (n : Nat) (hT : T.length = n + 1) :
    rotateTeams^[n] T = T := by
  apply List.ext_getElem?
  intro j
  by_cases hj : j ≤ n
  · rw [getElem?_iterate_rotateTeams T n n j hT (le_refl n) hj, seat_full n j hj]
  · rw [List.getElem?_eq_none (by rw [length_iterate_rotateTeams]; omega),
      List.getElem?_eq_none (by omega)]

theorem roundsInput_of_ne_zero (R : Int) (hR : R ≠ 0) : roundsInput (some R) = R := by
  unfold roundsInput
  split
  · next h => simp at h
  · next h => simp at h; exact absurd h hR
  · next h => simp at h; exact h.symm

theorem roundsToPlay_of_pos (R : Int) (n : Nat) (hR : 1 ≤ R) :
    roundsToPlay (some R) n = (min R (((paddedLength n - 1 : Nat) : Int) * 2)).toNat := by
  unfold roundsToPlay
  rw [roundsInput_of_ne_zero R (by omega)]

theorem roundMatches_swap (genId : Nat → Nat → String) (T k1 k2 : Nat)
    (teams : List Participant) (h1 : k1 < T) (h2 : T ≤ k2) :
    (roundMatches genId T k2 teams).map (fun m => (m.homeId, m.awayId)) =
      (roundMatches genId T k1 teams).map (fun m => (m.awayId, m.homeId)) := by
  unfold roundMatches
  rw [List.map_filterMap, List.map_filterMap]
  apply List.filterMap_congr
  intro i _
  have h3 : ¬ T ≤ k1 := by omega
  unfold pairing
  split
  · split <;> simp [h2, h3]
  · simp

/-- C2. With an even number N ≥ 2 of participants and a requested round count R with
N − 1 < R ≤ 2(N − 1): for every r with 1 ≤ r ≤ R − (N − 1), the (home, away) pairs of round
r + (N − 1), in order, are the (away, home) pairs of round r, in order. -/
theorem generateLeague_second_half_reverses (genId : Nat → Nat → String) (s : State) (R : Int)
    (r : Nat) (heven : s.participants.length % 2 = 0) (h2 : 2 ≤ s.participants.length)
    (hR1 : ((s.participants.length - 1 : Nat) : Int) < R)
    (hR2 : R ≤ 2 * ((s.participants.length - 1 : Nat) : Int))
    (hr1 : 1 ≤ r) (hr2 : (r : Int) ≤ R - ((s.participants.length - 1 : Nat) : Int)) :
    (((generateLeague genId (some R) s).1.leagueMatches).filter
        (fun m => m.round = r + (s.participants.length - 1))).map
        (fun m => (m.homeId, m.awayId)) =
      (((generateLeague genId (some R) s).1.leagueMatches).filter
        (fun m => m.round = r)).map (fun m => (m.awayId, m.homeId)) := by
  have hpad : paddedLength s.participants.length = s.participants.length := by
    unfold paddedLength; omega
  have hn : roundsToPlay (some R) s.participants.length = R.toNat := by
    rw [roundsToPlay_of_pos R _ (by omega), hpad]
    congr 1
    omega
  have hlen : (workingTeams (s.participants.map resetStats)).length =
      (s.participants.length - 1) + 1 := by
    rw [length_workingTeams, List.length_map, hpad]; omega
  rw [generateLeague_ok _ _ _ h2]
  simp only [hn, hpad]
  obtain ⟨r0, rfl⟩ : ∃ r0, r = r0 + 1 := ⟨r - 1, by omega⟩
  have e1 : r0 + 1 + (s.participants.length - 1) = (r0 + (s.participants.length - 1)) + 1 := by
    omega
  rw [e1, filter_round_flatMap, filter_round_flatMap]
  have c1 : r0 + (s.participants.length - 1) < R.toNat := by omega
  have c2 : r0 < R.toNat := by omega
  rw [if_pos c1, if_pos c2, Function.iterate_add_apply, iterate_rotateTeams_full _ _ hlen]
  exact roundMatches_swap _ _ _ _ _ (by omega) (by omega)

/-- Witness for C2: four participants, six requested rounds, round 2 against round 5. -/
theorem generateLeague_second_half_reverses_witness :
    (((generateLeague (fun _ _ => "") (some 6) (stateOf ["A", "B", "C", "D"])).1.leagueMatches).filter
        (fun m => m.round = 2 + ((stateOf ["A", "B", "C", "D"]).participants.length - 1))).map
        (fun m => (m.homeId, m.awayId)) = [("C", "A"), ("B", "D")] ∧
    (((generateLeague (fun _ _ => "") (some 6) (stateOf ["A", "B", "C", "D"])).1.leagueMatches).filter
        (fun m => m.round = 2 + ((stateOf ["A", "B", "C", "D"]).participants.length - 1))).map
        (fun m => (m.homeId, m.awayId)) =
      (((generateLeague (fun _ _ => "") (some 6) (stateOf ["A", "B", "C", "D"])).1.leagueMatches).filter
        (fun m => m.round = 2)).map (fun m => (m.awayId, m.homeId)) :=
  ⟨by decide,
   generateLeague_second_half_reverses (fun _ _ => "") (stateOf ["A", "B", "C", "D"]) 6 2
    (by decide) (by decide) (by decide) (by decide) (by decide) (by decide)⟩

/-! ## Arithmetic of the rotation -/

theorem seat_injective (n k j1 j2 : Nat) (hk : k ≤ n) (h1 : j1 ≤ n) (h2 : j2 ≤ n)
    (h : seat n k j1 = seat n k j2) : j1 = j2 := by
  unfold seat at h
  split_ifs at h <;> omega

theorem seat_spec (n k j : Nat) :
    (j = 0 ∧ seat n k j = 0) ∨ (j ≠ 0 ∧ k < j ∧ seat n k j = j - k) ∨
      (j ≠ 0 ∧ j ≤ k ∧ seat n k j = j + n - k) := by
  unfold seat
  split_ifs <;> omega

/-- Two rounds `k`, `k'` of the first cycle of a working list of even length `2 h` that pair
the same two entries (in either order) at inner indices `i`, `i'` are the same round, and the
inner indices agree. -/
theorem meet_unique (h k k' i i' : Nat) (hk : k < 2 * h - 1) (hk' : k' < 2 * h - 1)
    (hi : i < h) (hi' : i' < h)
    (H : (seat (2 * h - 1) k i = seat (2 * h - 1) k' i' ∧
          seat (2 * h - 1) k (2 * h - 1 - i) = seat (2 * h - 1) k' (2 * h - 1 - i')) ∨
         (seat (2 * h - 1) k i = seat (2 * h - 1) k' (2 * h - 1 - i') ∧
          seat (2 * h - 1) k (2 * h - 1 - i) = seat (2 * h - 1) k' i')) :
    k = k' ∧ i = i' := by
  have s1 := seat_spec (2 * h - 1) k i
  have s2 := seat_spec (2 * h - 1) k (2 * h - 1 - i)
  have s3 := seat_spec (2 * h - 1) k' i'
  have s4 := seat_spec (2 * h - 1) k' (2 * h - 1 - i')
  generalize seat (2 * h - 1) k i = u1 at *
  generalize seat (2 * h - 1) k (2 * h - 1 - i) = u2 at *
  generalize seat (2 * h - 1) k' i' = u3 at *
  generalize seat (2 * h - 1) k' (2 * h - 1 - i') = u4 at *
  omega

/-- Any two different entries `a < b` of a working list of even length `2 h` are paired in some
round `k` of the first cycle, at some inner index `i`. -/
theorem meet_exists (h a b : Nat) (hab : a < b) (hb : b < 2 * h) :
    ∃ k i, k < 2 * h - 1 ∧ i < h ∧
      ((seat (2 * h - 1) k i = a ∧ seat (2 * h - 1) k (2 * h - 1 - i) = b) ∨
       (seat (2 * h - 1) k i = b ∧ seat (2 * h - 1) k (2 * h - 1 - i) = a)) := by
  by_cases ha : a = 0
  · refine ⟨2 * h - 1 - b, 0, by omega, by omega, Or.inl ⟨?_, ?_⟩⟩
    · simp [seat, ha]
    · unfold seat; split_ifs <;> omega
  · by_cases hs : (a + b) % 2 = 0
    · refine ⟨2 * h - 1 - (a + b) / 2, b - (a + b) / 2, by omega, by omega, Or.inr ⟨?_, ?_⟩⟩
      · unfold seat; split_ifs <;> omega
      · unfold seat; split_ifs <;> omega
    · by_cases hle : a + b ≤ 2 * h - 1
      · refine ⟨(2 * h - 1 - (a + b)) / 2, a + (2 * h - 1 - (a + b)) / 2, by omega, by omega,
          Or.inl ⟨?_, ?_⟩⟩
        · unfold seat; split_ifs <;> omega
        · unfold seat; split_ifs <;> omega
      · refine ⟨(3 * (2 * h - 1) - (a + b)) / 2,
          a + (3 * (2 * h - 1) - (a + b)) / 2 - (2 * h - 1), by omega, by omega,
          Or.inl ⟨?_, ?_⟩⟩
        · unfold seat; split_ifs <;> omega
        · unfold seat; split_ifs <;> omega

/-! ## Counting in a list built by `filterMap` -/

theorem countP_filterMap_unique {α β : Type} [DecidableEq α] (l : List α) (hl : l.Nodup)
    (f : α → Option β) (Q : β → Bool) (x : α) (hx : x ∈ l) (y : β) (hfx : f x = some y)
    (hQ : Q y = true) (huniq : ∀ x' ∈ l, ∀ y', f x' = some y' → Q y' = true → x' = x) :
    List.countP Q (l.filterMap f) = 1 := by
  rw [List.countP_filterMap, ← List.count_eq_one_of_mem hl hx, List.count_eq_countP]
  apply List.countP_congr
  intro a ha
  constructor
  · intro h1
    cases hfa : f a with
    | none => simp [hfa] at h1
    | some y' =>
      simp [hfa] at h1
      simp [huniq a ha y' hfa h1]
  · intro h1
    simp at h1
    subst h1
    simp [hfx, hQ]

theorem length_filterMap_of_isSome {α β : Type} (l : List α) (f : α → Option β)
    (h : ∀ x ∈ l, (f x).isSome = true) : (l.filterMap f).length = l.length := by
  induction l with
  | nil => rfl
  | cons a l ih =>
    have ha := h a (List.mem_cons_self a l)
    obtain ⟨b, hb⟩ := Option.isSome_iff_exists.mp ha
    rw [List.filterMap_cons_some hb, List.length_cons, List.length_cons,
      ih (fun x hx => h x (List.mem_cons_of_mem a hx))]

/-- In a list whose entries satisfying `p` are pairwise different, an entry satisfying `p`
occurs at one position only. -/
theorem position_unique {l : List String} {p : String → Bool} (hl : (l.filter p).Nodup)
    {a b : Nat} {x : String} (ha : l[a]? = some x) (hb : l[b]? = some x) (hp : p x = true) :
    a = b := by
  induction l generalizing a b with
  | nil => simp at ha
  | cons y l ih =>
    have hnd : (l.filter p).Nodup := by
      rw [List.filter_cons] at hl
      split at hl
      · exact (List.nodup_cons.mp hl).2
      · exact hl
    have key : ∀ c : Nat, l[c]? = some x → y = x → False := by
      intro c hc hy
      subst hy
      rw [List.filter_cons, if_pos hp] at hl
      exact (List.nodup_cons.mp hl).1 (List.mem_filter.mpr ⟨List.getElem?_mem hc, hp⟩)
    cases a with
    | zero =>
      cases b with
      | zero => rfl
      | succ b =>
        simp at ha hb
        exact (key b hb ha).elim
    | succ a =>
      cases b with
      | zero =>
        simp at ha hb
        exact (key a ha hb).elim
      | succ b =>
        simp at ha hb
        rw [ih hnd ha hb]

theorem distinctReal_workingTeams (ps : List Participant)
    (hnd : (ps.map (fun p => p.id)).Nodup) :
    DistinctReal (workingTeams (ps.map resetStats)) := by
  unfold DistinctReal
  rw [ids_workingTeams, map_id_resetStats, List.filter_append]
  have : List.filter (fun x => decide (x ≠ "dummy"))
      (if (ps.map resetStats).length % 2 ≠ 0 then ["dummy"] else []) = [] := by
    split_ifs <;> simp
  rw [this, List.append_nil]
  exact hnd.filter _

theorem distinctReal_iterate (k : Nat) (teams : List Participant) (h : DistinctReal teams) :
    DistinctReal (rotateTeams^[k] teams) := by
  unfold DistinctReal at *
  exact ((((iterate_rotateTeams_perm k teams).map _).filter _).nodup_iff).mpr h

theorem distinctReal_position {teams : List Participant} (h : DistinctReal teams) {a b : Nat}
    {p q : Participant} (ha : teams[a]? = some p) (hb : teams[b]? = some q)
    (hid : p.id = q.id) (hreal : p.id ≠ "dummy") : a = b := by
  have h1 : (teams.map (fun p => p.id))[a]? = some p.id := by simp [ha]
  have h2 : (teams.map (fun p => p.id))[b]? = some p.id := by simp [hb, hid]
  exact position_unique h h1 h2 (by simpa using hreal)

/-- The fixture list as one `filterMap` over the pairs (round index, inner index). -/
theorem fixtures_eq_filterMap (genId : Nat → Nat → String) (T n h : Nat)
    (teams : List Participant) (hlen : (teams.length + 1) / 2 = h) :
    (List.range n).flatMap (fun k => roundMatches genId T k (rotateTeams^[k] teams)) =
      (List.product (List.range n) (List.range h)).filterMap
        (fun ki => pairing genId T ki.1 (rotateTeams^[ki.1] teams) ki.2) := by
  unfold List.product
  rw [List.filterMap_flatMap]
  apply List.flatMap_congr
  intro k _
  rw [List.filterMap_map]
  unfold roundMatches
  rw [length_iterate_rotateTeams, hlen]
  rfl

/-! ## Every pair meets once in the first cycle -/

theorem pair_count_one_of_lt (genId : Nat → Nat → String) (teams : List Participant) (h : Nat)
    (hlen : teams.length = 2 * h) (hd : DistinctReal teams) (pa pb : Nat) (a b : Participant)
    (ha : teams[pa]? = some a) (hb : teams[pb]? = some b) (hlt : pa < pb)
    (hra : a.id ≠ "dummy") (hrb : b.id ≠ "dummy") :
    List.countP
      (fun m => decide ((m.homeId = a.id ∧ m.awayId = b.id) ∨
        (m.homeId = b.id ∧ m.awayId = a.id)))
      ((List.range (2 * h - 1)).flatMap
        (fun k => roundMatches genId (2 * h - 1) k (rotateTeams^[k] teams))) = 1 := by
  have hpb : pb < 2 * h := by
    have := (List.getElem?_eq_some_iff.mp hb).1
    omega
  have hh : 1 ≤ h := by omega
  have hT : teams.length = (2 * h - 1) + 1 := by omega
  have hget : ∀ k j, k < 2 * h - 1 → j ≤ 2 * h - 1 →
      (rotateTeams^[k] teams)[j]? = teams[seat (2 * h - 1) k j]? :=
    fun k j hk hj => getElem?_iterate_rotateTeams teams (2 * h - 1) k j hT (by omega) hj
  have hlenk : ∀ k, (rotateTeams^[k] teams).length - 1 = 2 * h - 1 := by
    intro k; rw [length_iterate_rotateTeams]; omega
  obtain ⟨k, i, hk, hi, hki⟩ := meet_exists h pa pb hlt hpb
  rw [fixtures_eq_filterMap genId (2 * h - 1) (2 * h - 1) h teams (by omega)]
  have hnk : ¬ (2 * h - 1 ≤ k) := by omega
  rcases hki with ⟨e1, e2⟩ | ⟨e1, e2⟩
  · refine countP_filterMap_unique _ (List.Nodup.product (List.nodup_range _)
      (List.nodup_range _)) _ _ (k, i) (by simp [List.mem_product, hk, hi]) _
      (pairing_eq_some genId _ k i _ a b (by rw [hget k i hk (by omega), e1, ha])
        (by rw [hlenk, hget k _ hk (by omega), e2, hb]) hra hrb) (by simp [hnk]) ?_
    rintro ⟨k', i'⟩ hmem m' hm' hQ
    simp only [List.mem_product, List.mem_range] at hmem
    obtain ⟨home, away, g1, g2, g3, g4, rfl⟩ := pairing_some_inv _ _ _ _ _ _ hm'
    have hnk' : ¬ (2 * h - 1 ≤ k') := by omega
    simp only [hnk', if_false, decide_eq_true_eq] at hQ
    simp only at g1 g2
    rw [hget k' i' hmem.1 (by omega)] at g1
    rw [hlenk, hget k' _ hmem.1 (by omega)] at g2
    have := meet_unique h k k' i i' hk hmem.1 hi hmem.2 (by
      rcases hQ with ⟨q1, q2⟩ | ⟨q1, q2⟩
      · left
        rw [e1, e2, distinctReal_position hd ha g1 q1.symm hra,
          distinctReal_position hd hb g2 q2.symm hrb]
        exact ⟨rfl, rfl⟩
      · right
        rw [e1, e2, distinctReal_position hd ha g2 q2.symm hra,
          distinctReal_position hd hb g1 q1.symm hrb]
        exact ⟨rfl, rfl⟩)
    rw [this.1, this.2]
  · refine countP_filterMap_unique _ (List.Nodup.product (List.nodup_range _)
      (List.nodup_range _)) _ _ (k, i) (by simp [List.mem_product, hk, hi]) _
      (pairing_eq_some genId _ k i _ b a (by rw [hget k i hk (by omega), e1, hb])
        (by rw [hlenk, hget k _ hk (by omega), e2, ha]) hrb hra) (by simp [hnk]) ?_
    rintro ⟨k', i'⟩ hmem m' hm' hQ
    simp only [List.mem_product, List.mem_range] at hmem
    obtain ⟨home, away, g1, g2, g3, g4, rfl⟩ := pairing_some_inv _ _ _ _ _ _ hm'
    have hnk' : ¬ (2 * h - 1 ≤ k') := by omega
    simp only [hnk', if_false, decide_eq_true_eq] at hQ
    simp only at g1 g2
    rw [hget k' i' hmem.1 (by omega)] at g1
    rw [hlenk, hget k' _ hmem.1 (by omega)] at g2
    have := meet_unique h k k' i i' hk hmem.1 hi hmem.2 (by
      rcases hQ with ⟨q1, q2⟩ | ⟨q1, q2⟩
      · right
        rw [e1, e2, distinctReal_position hd ha g1 q1.symm hra,
          distinctReal_position hd hb g2 q2.symm hrb]
        exact ⟨rfl, rfl⟩
      · left
        rw [e1, e2, distinctReal_position hd ha g2 q2.symm hra,
          distinctReal_position hd hb g1 q1.symm hrb]
        exact ⟨rfl, rfl⟩)
    rw [this.1, this.2]

theorem pair_count_one (genId : Nat → Nat → String) (teams : List Participant) (h : Nat)
    (hlen : teams.length = 2 * h) (hd : DistinctReal teams) (a b : Participant)
    (ha : a ∈ teams) (hb : b ∈ teams) (hne : a.id ≠ b.id)
    (hra : a.id ≠ "dummy") (hrb : b.id ≠ "dummy") :
    List.countP
      (fun m => decide ((m.homeId = a.id ∧ m.awayId = b.id) ∨
        (m.homeId = b.id ∧ m.awayId = a.id)))
      ((List.range (2 * h - 1)).flatMap
        (fun k => roundMatches genId (2 * h - 1) k (rotateTeams^[k] teams))) = 1 := by
  obtain ⟨pa, hpa⟩ := List.mem_iff_getElem?.mp ha
  obtain ⟨pb, hpb⟩ := List.mem_iff_getElem?.mp hb
  rcases Nat.lt_trichotomy pa pb with hlt | heq | hgt
  · exact pair_count_one_of_lt genId teams h hlen hd pa pb a b hpa hpb hlt hra hrb
  · subst heq
    rw [hpa] at hpb
    simp only [Option.some.injEq] at hpb
    exact absurd (congrArg (fun p => p.id) hpb) hne
  · refine Eq.trans ?_ (pair_count_one_of_lt genId teams h hlen hd pb pa b a hpb hpa hgt hrb hra)
    apply List.countP_congr
    intro m _
    simp only [decide_eq_true_eq]
    exact Or.comm

/-- In a working list without the dummy, every inner iteration yields a match. -/
theorem length_roundMatches_of_real (genId : Nat → Nat → String) (T r h : Nat)
    (teams : List Participant) (hlen : teams.length = 2 * h)
    (hreal : ∀ p ∈ teams, p.id ≠ "dummy") :
    (roundMatches genId T r teams).length = h := by
  unfold roundMatches
  rw [length_filterMap_of_isSome, List.length_range]
  · omega
  · intro i hi
    simp only [List.mem_range] at hi
    have h1 : i < teams.length := by omega
    have h2 : teams.length - 1 - i < teams.length := by omega
    rw [pairing_eq_some genId T r i teams teams[i] teams[teams.length - 1 - i]
      (List.getElem?_eq_getElem h1) (List.getElem?_eq_getElem h2)
      (hreal _ (List.getElem_mem h1)) (hreal _ (List.getElem_mem h2))]
    rfl

theorem workingTeams_even (ps : List Participant) (h : ps.length % 2 = 0) :
    workingTeams (ps.map resetStats) = ps.map resetStats := by
  unfold workingTeams
  simp [h]

/-- C1 (amended). With an even number N ≥ 2 of participants whose ids are pairwise different
and none of which is the placeholder id `dummy`, `generateLeague` with requested round count
N − 1 produces rounds numbered 1 to N − 1 only, each of them with exactly N / 2 matches, and
every two different participants meet (as home and away, in either order) in exactly one match
of the whole list. -/
theorem generateLeague_even_round_robin (genId : Nat → Nat → String) (s : State)
    (heven : s.participants.length % 2 = 0) (h2 : 2 ≤ s.participants.length)
    (hnd : (s.participants.map (fun p => p.id)).Nodup)
    (hreal : "dummy" ∉ s.participants.map (fun p => p.id)) :
    (∀ m ∈ (generateLeague genId (some ((s.participants.length - 1 : Nat) : Int)) s).1.leagueMatches,
      1 ≤ m.round ∧ m.round ≤ s.participants.length - 1) ∧
    (∀ r : Nat, 1 ≤ r → r ≤ s.participants.length - 1 →
      ((generateLeague genId (some ((s.participants.length - 1 : Nat) : Int)) s).1.leagueMatches.filter
        (fun m => m.round = r)).length = s.participants.length / 2) ∧
    (∀ a ∈ s.participants, ∀ b ∈ s.participants, a.id ≠ b.id →
      (generateLeague genId (some ((s.participants.length - 1 : Nat) : Int)) s).1.leagueMatches.countP
        (fun m => (m.homeId = a.id ∧ m.awayId = b.id) ∨
          (m.homeId = b.id ∧ m.awayId = a.id)) = 1) := by
  have hpad : paddedLength s.participants.length = s.participants.length := by
    unfold paddedLength; omega
  have hn : roundsToPlay (some ((s.participants.length - 1 : Nat) : Int))
      s.participants.length = s.participants.length - 1 := by
    rw [roundsToPlay_of_pos _ _ (by omega), hpad]
    omega
  have hlen : (s.participants.map resetStats).length = 2 * (s.participants.length / 2) := by
    rw [List.length_map]; omega
  have hr : ∀ p ∈ s.participants.map resetStats, p.id ≠ "dummy" := by
    intro p hp hid
    apply hreal
    rw [← map_id_resetStats, ← hid]
    exact List.mem_map_of_mem _ hp
  have hT : s.participants.length - 1 = 2 * (s.participants.length / 2) - 1 := by omega
  rw [generateLeague_ok _ _ _ h2]
  simp only [hn, hpad, workingTeams_even _ heven]
  refine ⟨?_, ?_, ?_⟩
  · intro m hm
    simp only [List.mem_flatMap, List.mem_range] at hm
    obtain ⟨k, hk, hmk⟩ := hm
    rw [round_of_mem_roundMatches _ _ _ _ _ hmk]
    omega
  · intro r hr1 hr2
    obtain ⟨r0, rfl⟩ : ∃ r0, r = r0 + 1 := ⟨r - 1, by omega⟩
    rw [filter_round_flatMap, if_pos (by omega)]
    apply length_roundMatches_of_real
    · rw [length_iterate_rotateTeams, hlen]
    · intro p hp
      exact hr p ((iterate_rotateTeams_perm _ _).mem_iff.mp hp)
  · intro a ha b hb hne
    have hd : DistinctReal (s.participants.map resetStats) := by
      have := distinctReal_workingTeams s.participants hnd
      rwa [workingTeams_even _ heven] at this
    rw [hT]
    exact pair_count_one genId _ _ hlen hd (resetStats a) (resetStats b)
      (List.mem_map_of_mem _ ha) (List.mem_map_of_mem _ hb) hne
      (hr _ (List.mem_map_of_mem _ ha)) (hr _ (List.mem_map_of_mem _ hb))

/-- Witness for C1 (amended): four participants A, B, C, D and three requested rounds; round 2
has two matches and A meets B exactly once. -/
theorem generateLeague_even_round_robin_witness :
    (stateOf ["A", "B", "C", "D"]).participants.length % 2 = 0 ∧
    2 ≤ (stateOf ["A", "B", "C", "D"]).participants.length ∧
    ((stateOf ["A", "B", "C", "D"]).participants.map (fun p => p.id)).Nodup ∧
    "dummy" ∉ (stateOf ["A", "B", "C", "D"]).participants.map (fun p => p.id) ∧
    ((generateLeague (fun _ _ => "")
        (some (((stateOf ["A", "B", "C", "D"]).participants.length - 1 : Nat) : Int))
        (stateOf ["A", "B", "C", "D"])).1.leagueMatches.filter
        (fun m => m.round = 2)).length = (stateOf ["A", "B", "C", "D"]).participants.length / 2 ∧
    (generateLeague (fun _ _ => "")
        (some (((stateOf ["A", "B", "C", "D"]).participants.length - 1 : Nat) : Int))
        (stateOf ["A", "B", "C", "D"])).1.leagueMatches.countP
        (fun m => (m.homeId = (mkParticipant "A").id ∧ m.awayId = (mkParticipant "B").id) ∨
          (m.homeId = (mkParticipant "B").id ∧ m.awayId = (mkParticipant "A").id)) = 1 :=
  ⟨by decide, by decide, by decide, by decide,
    (generateLeague_even_round_robin (fun _ _ => "") (stateOf ["A", "B", "C", "D"])
      (by decide) (by decide) (by decide) (by decide)).2.1 2 (by decide) (by decide),
    (generateLeague_even_round_robin (fun _ _ => "") (stateOf ["A", "B", "C", "D"])
      (by decide) (by decide) (by decide) (by decide)).2.2 (mkParticipant "A") (by decide)
      (mkParticipant "B") (by decide) (by decide)⟩

/-- Counterexample to C1 as stated: the two participants `dummy` and `B` have different ids,
N = 2 is even, the requested round count is N − 1 = 1, and the only round has no match at all
instead of N / 2 = 1, so the pair never meets. -/
theorem generateLeague_even_round_robin_counterexample :
    (stateOf ["dummy", "B"]).participants.length % 2 = 0 ∧
    2 ≤ (stateOf ["dummy", "B"]).participants.length ∧
    ((stateOf ["dummy", "B"]).participants.map (fun p => p.id)).Nodup ∧
    (generateLeague (fun _ _ => "") (some 1) (stateOf ["dummy", "B"])).1.leagueMatches = [] ∧
    ((generateLeague (fun _ _ => "") (some 1) (stateOf ["dummy", "B"])).1.leagueMatches.filter
      (fun m => m.round = 1)).length ≠ (stateOf ["dummy", "B"]).participants.length / 2 ∧
    (generateLeague (fun _ _ => "") (some 1) (stateOf ["dummy", "B"])).1.leagueMatches.countP
      (fun m => (m.homeId = "dummy" ∧ m.awayId = "B") ∨
        (m.homeId = "B" ∧ m.awayId = "dummy")) ≠ 1 := by
  decide

/-! ## Slots within one round -/

theorem sides_of_pairing (genId : Nat → Nat → String) (T r i : Nat) (teams : List Participant)
    (m : LeagueMatch) (h : pairing genId T r teams i = some m) :
    ∃ home away, teams[i]? = some home ∧ teams[teams.length - 1 - i]? = some away ∧
      home.id ≠ "dummy" ∧ away.id ≠ "dummy" ∧
      ((m.homeId = home.id ∧ m.awayId = away.id) ∨
       (m.homeId = away.id ∧ m.awayId = home.id)) := by
  obtain ⟨home, away, h1, h2, h3, h4, rfl⟩ := pairing_some_inv _ _ _ _ _ _ h
  refine ⟨home, away, h1, h2, h3, h4, ?_⟩
  by_cases hT : T ≤ r <;> simp [hT]

/-- The slot ids of a match produced at inner index `i`: they belong to positions `i` and
`length − 1 − i` of the working list and are not the dummy id. -/
theorem slot_position (genId : Nat → Nat → String) (T r i : Nat) (teams : List Participant)
    (m : LeagueMatch) (h : pairing genId T r teams i = some m) (x : String)
    (hx : x ∈ [m.homeId, m.awayId]) :
    x ≠ "dummy" ∧ ∃ p, p.id = x ∧
      (teams[i]? = some p ∨ teams[teams.length - 1 - i]? = some p) := by
  obtain ⟨home, away, h1, h2, h3, h4, h5⟩ := sides_of_pairing _ _ _ _ _ _ h
  simp only [List.mem_cons, List.mem_singleton, List.not_mem_nil, or_false] at hx
  rcases h5 with ⟨e1, e2⟩ | ⟨e1, e2⟩ <;> rcases hx with hx | hx
  · exact ⟨by rw [hx, e1]; exact h3, home, by rw [hx, e1], Or.inl h1⟩
  · exact ⟨by rw [hx, e2]; exact h4, away, by rw [hx, e2], Or.inr h2⟩
  · exact ⟨by rw [hx, e1]; exact h4, away, by rw [hx, e1], Or.inr h2⟩
  · exact ⟨by rw [hx, e2]; exact h3, home, by rw [hx, e2], Or.inl h1⟩

theorem home_ne_away_of_pairing (genId : Nat → Nat → String) (T r i h : Nat)
    (teams : List Participant) (hlen : teams.length = 2 * h) (hd : DistinctReal teams)
    (hi : i < h) (m : LeagueMatch) (hm : pairing genId T r teams i = some m) :
    m.homeId ≠ m.awayId := by
  obtain ⟨home, away, h1, h2, h3, h4, h5⟩ := sides_of_pairing _ _ _ _ _ _ hm
  intro heq
  have hid : home.id = away.id := by
    rcases h5 with ⟨e1, e2⟩ | ⟨e1, e2⟩
    · rw [← e1, ← e2]; exact heq
    · rw [← e1, ← e2]; exact heq.symm
  have := distinctReal_position hd h1 h2 hid h3
  omega

theorem slots_nodup_roundMatches (genId : Nat → Nat → String) (T r h : Nat)
    (teams : List Participant) (hlen : teams.length = 2 * h) (hd : DistinctReal teams) :
    ((roundMatches genId T r teams).flatMap (fun m => [m.homeId, m.awayId])).Nodup := by
  rw [List.nodup_flatMap]
  have hh : (teams.length + 1) / 2 = h := by omega
  constructor
  · intro m hm
    simp only [roundMatches, List.mem_filterMap, List.mem_range, hh] at hm
    obtain ⟨i, hi, hp⟩ := hm
    have := home_ne_away_of_pairing genId T r i h teams hlen hd hi m hp
    simp [this]
  · unfold roundMatches
    rw [List.pairwise_filterMap, hh]
    refine List.Pairwise.imp_of_mem ?_ (List.pairwise_lt_range h)
    intro i i' hi hi' hlt m hm m' hm'
    simp only [List.mem_range] at hi hi'
    simp only [Option.mem_def] at hm hm'
    simp only [Function.onFun]
    intro x hx hx'
    obtain ⟨hreal, p, hp, hpos⟩ := slot_position _ _ _ _ _ _ hm x hx
    obtain ⟨_, q, hq, hpos'⟩ := slot_position _ _ _ _ _ _ hm' x hx'
    have hid : p.id = q.id := by rw [hp, hq]
    have hr : p.id ≠ "dummy" := by rw [hp]; exact hreal
    rcases hpos with g | g <;> rcases hpos' with g' | g' <;>
      have := distinctReal_position hd g g' hid hr <;> omega

/-- With no dummy in the working list, every entry takes part in exactly one match of a
round. -/
theorem plays_once_in_round (genId : Nat → Nat → String) (T r h : Nat)
    (teams : List Participant) (hlen : teams.length = 2 * h) (hd : DistinctReal teams)
    (hreal : ∀ p ∈ teams, p.id ≠ "dummy") (p : Participant) (hp : p ∈ teams) :
    List.countP (fun m => decide (m.homeId = p.id ∨ m.awayId = p.id))
      (roundMatches genId T r teams) = 1 := by
  obtain ⟨a, ha⟩ := List.mem_iff_getElem?.mp hp
  have ha' : a < 2 * h := by
    have := (List.getElem?_eq_some_iff.mp ha).1
    omega
  have hh : (teams.length + 1) / 2 = h := by omega
  have huniq : ∀ i' ∈ List.range h, ∀ m', pairing genId T r teams i' = some m' →
      decide (m'.homeId = p.id ∨ m'.awayId = p.id) = true → i' = a ∨ teams.length - 1 - i' = a := by
    intro i' _ m' hm' hQ
    simp only [decide_eq_true_eq] at hQ
    obtain ⟨home, away, h1, h2, h3, h4, h5⟩ := sides_of_pairing _ _ _ _ _ _ hm'
    have : home.id = p.id ∨ away.id = p.id := by
      rcases h5 with ⟨e1, e2⟩ | ⟨e1, e2⟩ <;> rcases hQ with q | q
      · left; rw [← e1]; exact q
      · right; rw [← e2]; exact q
      · right; rw [← e1]; exact q
      · left; rw [← e2]; exact q
    rcases this with e | e
    · left; exact distinctReal_position hd h1 ha e h3
    · right; exact distinctReal_position hd h2 ha e h4
  have hsome : ∀ i, i < h → ∃ m, pairing genId T r teams i = some m ∧
      m.round = r + 1 ∧
      ((m.homeId = teams[i]?.map (fun q => q.id) ∧
        m.awayId = teams[teams.length - 1 - i]?.map (fun q => q.id)) ∨
       (m.awayId = teams[i]?.map (fun q => q.id) ∧
        m.homeId = teams[teams.length - 1 - i]?.map (fun q => q.id))) := by
    intro i hi
    have h1 : i < teams.length := by omega
    have h2 : teams.length - 1 - i < teams.length := by omega
    refine ⟨_, pairing_eq_some genId T r i teams teams[i] teams[teams.length - 1 - i]
      (List.getElem?_eq_getElem h1) (List.getElem?_eq_getElem h2)
      (hreal _ (List.getElem_mem h1)) (hreal _ (List.getElem_mem h2)), rfl, ?_⟩
    by_cases hT : T ≤ r <;> simp [hT, List.getElem?_eq_getElem h1, List.getElem?_eq_getElem h2]
  unfold roundMatches
  rw [hh]
  by_cases hlt : a < h
  · obtain ⟨m, hm, _, hs⟩ := hsome a hlt
    refine countP_filterMap_unique _ (List.nodup_range h) _ _ a (by simp [hlt]) m hm ?_ ?_
    · simp only [ha, Option.map_some', Option.some.injEq] at hs
      simp only [decide_eq_true_eq]
      rcases hs with ⟨e, _⟩ | ⟨e, _⟩
      · left; exact_mod_cast e
      · right; exact_mod_cast e
    · intro i' hi' m' hm' hQ
      have := huniq i' hi' m' hm' hQ
      simp only [List.mem_range] at hi'
      omega
  · obtain ⟨m, hm, _, hs⟩ := hsome (teams.length - 1 - a) (by omega)
    have e0 : teams.length - 1 - (teams.length - 1 - a) = a := by omega
    refine countP_filterMap_unique _ (List.nodup_range h) _ _ (teams.length - 1 - a)
      (by simp; omega) m hm ?_ ?_
    · simp only [e0, ha, Option.map_some', Option.some.injEq] at hs
      simp only [decide_eq_true_eq]
      rcases hs with ⟨_, e⟩ | ⟨_, e⟩
      · right; exact_mod_cast e
      · left; exact_mod_cast e
    · intro i' hi' m' hm' hQ
      have := huniq i' hi' m' hm' hQ
      simp only [List.mem_range] at hi'
      omega

theorem filter_round_zero (genId : Nat → Nat → String) (T n : Nat)
    (teams : Nat → List Participant) :
    ((List.range n).flatMap (fun k => roundMatches genId T k (teams k))).filter
        (fun m => m.round = 0) = [] := by
  rw [List.filter_eq_nil_iff]
  intro m hm
  simp only [List.mem_flatMap, List.mem_range] at hm
  obtain ⟨k, _, hk⟩ := hm
  have := round_of_mem_roundMatches _ _ _ _ _ hk
  simp; omega

theorem length_workingTeams_even (ps : List Participant) :
    (workingTeams ps).length = 2 * ((ps.length + 1) / 2) := by
  rw [length_workingTeams]; unfold paddedLength; omega

/-- C6 (amended). With at least two participants whose ids are pairwise different, whatever the
requested round count: within each round of the output of `generateLeague` no id occupies more
than one match slot (the home and away ids of the matches of a round are pairwise different),
so every match has different home and away ids; and when the number of participants is even
and none of them has the placeholder id `dummy`, every participant plays exactly one match in
each generated round. -/
theorem generateLeague_one_slot_per_round (genId : Nat → Nat → String) (parsed : Option Int)
    (s : State) (h2 : 2 ≤ s.participants.length)
    (hnd : (s.participants.map (fun p => p.id)).Nodup) :
    (∀ r : Nat, (((generateLeague genId parsed s).1.leagueMatches.filter
        (fun m => m.round = r)).flatMap (fun m => [m.homeId, m.awayId])).Nodup) ∧
    (∀ m ∈ (generateLeague genId parsed s).1.leagueMatches, m.homeId ≠ m.awayId) ∧
    (s.participants.length % 2 = 0 → "dummy" ∉ s.participants.map (fun p => p.id) →
      ∀ r : Nat, 1 ≤ r →
        (r : Int) ≤ min (roundsInput parsed) (((s.participants.length - 1 : Nat) : Int) * 2) →
        ∀ p ∈ s.participants,
          ((generateLeague genId parsed s).1.leagueMatches.filter
            (fun m => m.round = r)).countP
            (fun m => m.homeId = p.id ∨ m.awayId = p.id) = 1) := by
  have hd0 := distinctReal_workingTeams s.participants hnd
  have hlen0 := length_workingTeams_even (s.participants.map resetStats)
  have hdk : ∀ k, DistinctReal (rotateTeams^[k] (workingTeams (s.participants.map resetStats))) :=
    fun k => distinctReal_iterate k _ hd0
  have hlenk : ∀ k, (rotateTeams^[k] (workingTeams (s.participants.map resetStats))).length =
      2 * (((s.participants.map resetStats).length + 1) / 2) := by
    intro k; rw [length_iterate_rotateTeams, hlen0]
  rw [generateLeague_ok _ _ _ h2]
  simp only
  refine ⟨?_, ?_, ?_⟩
  · intro r
    cases r with
    | zero => rw [filter_round_zero]; simp
    | succ r0 =>
      rw [filter_round_flatMap]
      split_ifs
      · exact slots_nodup_roundMatches _ _ _ _ _ (hlenk r0) (hdk r0)
      · simp
  · intro m hm
    simp only [List.mem_flatMap, List.mem_range] at hm
    obtain ⟨k, _, hk⟩ := hm
    have hk' := hk
    simp only [roundMatches, List.mem_filterMap, List.mem_range] at hk'
    obtain ⟨i, hi, hp⟩ := hk'
    rw [hlenk k] at hi
    exact home_ne_away_of_pairing genId _ k i _ _ (hlenk k) (hdk k) (by omega) m hp
  · intro heven hreal r hr1 hr2 p hp
    have hpad : paddedLength s.participants.length = s.participants.length := by
      unfold paddedLength; omega
    obtain ⟨r0, rfl⟩ : ∃ r0, r = r0 + 1 := ⟨r - 1, by omega⟩
    have hlt : r0 < roundsToPlay parsed s.participants.length := by
      unfold roundsToPlay
      rw [hpad]
      omega
    rw [filter_round_flatMap, if_pos hlt]
    have hr : ∀ q ∈ workingTeams (s.participants.map resetStats), q.id ≠ "dummy" := by
      rw [workingTeams_even _ heven]
      intro q hq hid
      apply hreal
      rw [← map_id_resetStats, ← hid]
      exact List.mem_map_of_mem _ hq
    have hmem : resetStats p ∈ rotateTeams^[r0] (workingTeams (s.participants.map resetStats)) := by
      rw [(iterate_rotateTeams_perm _ _).mem_iff, workingTeams_even _ heven]
      exact List.mem_map_of_mem _ hp
    exact plays_once_in_round genId _ r0 _ _ (hlenk r0) (hdk r0)
      (fun q hq => hr q ((iterate_rotateTeams_perm _ _).mem_iff.mp hq)) (resetStats p) hmem

/-- Witness for C6 (amended): four participants, six requested rounds; the slots of round 5
are pairwise different and C plays exactly one match in round 5. -/
theorem generateLeague_one_slot_per_round_witness :
    2 ≤ (stateOf ["A", "B", "C", "D"]).participants.length ∧
    ((stateOf ["A", "B", "C", "D"]).participants.map (fun p => p.id)).Nodup ∧
    (((generateLeague (fun _ _ => "") (some 6)
        (stateOf ["A", "B", "C", "D"])).1.leagueMatches.filter
        (fun m => m.round = 5)).flatMap (fun m => [m.homeId, m.awayId])).Nodup ∧
    ((generateLeague (fun _ _ => "") (some 6)
        (stateOf ["A", "B", "C", "D"])).1.leagueMatches.filter
        (fun m => m.round = 5)).countP
        (fun m => m.homeId = (mkParticipant "C").id ∨ m.awayId = (mkParticipant "C").id) = 1 :=
  ⟨by decide, by decide,
    (generateLeague_one_slot_per_round (fun _ _ => "") (some 6) (stateOf ["A", "B", "C", "D"])
      (by decide) (by decide)).1 5,
    (generateLeague_one_slot_per_round (fun _ _ => "") (some 6) (stateOf ["A", "B", "C", "D"])
      (by decide) (by decide)).2.2 (by decide) (by decide) 5 (by decide) (by decide)
      (mkParticipant "C") (by decide)⟩

/-- Counterexample to C6 as stated: the four participants `dummy`, B, C, D have pairwise
different ids and N = 4 is even, yet in round 1, which is generated, participant D plays no
match (and neither does the participant with id `dummy`). -/
theorem generateLeague_one_slot_per_round_counterexample :
    2 ≤ (stateOf ["dummy", "B", "C", "D"]).participants.length ∧
    (stateOf ["dummy", "B", "C", "D"]).participants.length % 2 = 0 ∧
    ((stateOf ["dummy", "B", "C", "D"]).participants.map (fun p => p.id)).Nodup ∧
    (generateLeague (fun _ _ => "") (some 1)
      (stateOf ["dummy", "B", "C", "D"])).1.leagueMatches.map
      (fun m => (m.round, m.homeId, m.awayId)) = [(1, "B", "C")] ∧
    mkParticipant "D" ∈ (stateOf ["dummy", "B", "C", "D"]).participants ∧
    ((generateLeague (fun _ _ => "") (some 1)
      (stateOf ["dummy", "B", "C", "D"])).1.leagueMatches.filter
      (fun m => m.round = 1)).countP
      (fun m => m.homeId = (mkParticipant "D").id ∨ m.awayId = (mkParticipant "D").id) = 0 := by
  decide

/-! ## Round numbers -/

theorem fixtures_sorted (genId : Nat → Nat → String) (T n : Nat)
    (teams : Nat → List Participant) :
    List.Pairwise (fun m1 m2 : LeagueMatch => m1.round ≤ m2.round)
      ((List.range n).flatMap (fun k => roundMatches genId T k (teams k))) := by
  induction n with
  | zero => simp
  | succ n ih =>
    rw [List.range_succ, List.flatMap_append, List.flatMap_singleton, List.pairwise_append]
    refine ⟨ih, ?_, ?_⟩
    · apply List.pairwise_of_forall_mem_list
      intro a ha b hb
      rw [round_of_mem_roundMatches _ _ _ _ _ ha, round_of_mem_roundMatches _ _ _ _ _ hb]
    · intro a ha b hb
      simp only [List.mem_flatMap, List.mem_range] at ha
      obtain ⟨k, hk, hak⟩ := ha
      rw [round_of_mem_roundMatches _ _ _ _ _ hak, round_of_mem_roundMatches _ _ _ _ _ hb]
      omega

/-- A round is never empty when the ids of the working list are pairwise different and the
list has at least four entries if one of them is the dummy. -/
theorem roundMatches_ne_nil (genId : Nat → Nat → String) (T r h : Nat)
    (teams : List Participant) (hlen : teams.length = 2 * h) (hh : 1 ≤ h)
    (hnd : (teams.map (fun p => p.id)).Nodup)
    (hbig : "dummy" ∈ teams.map (fun p => p.id) → 2 ≤ h) :
    ∃ m, m ∈ roundMatches genId T r teams := by
  have hpos : ∀ a b : Nat, ∀ p q : Participant, teams[a]? = some p → teams[b]? = some q →
      p.id = q.id → a = b := by
    intro a b p q ha hb hid
    have h1 : (teams.map (fun p => p.id))[a]? = some p.id := by simp [ha]
    have h2 : (teams.map (fun p => p.id))[b]? = some p.id := by simp [hb, hid]
    exact position_unique (p := fun _ => true) (by simpa using hnd) h1 h2 rfl
  have hget : ∀ i, (hi : i < teams.length) → teams[i]? = some teams[i] :=
    fun i hi => List.getElem?_eq_getElem hi
  have h0 : 0 < teams.length := by omega
  have h1 : teams.length - 1 - 0 < teams.length := by omega
  by_cases hd : teams[0].id = "dummy" ∨ teams[teams.length - 1 - 0].id = "dummy"
  · have h2 : 2 ≤ h := by
      apply hbig
      rcases hd with e | e
      · rw [← e]; exact List.mem_map_of_mem _ (List.getElem_mem h0)
      · rw [← e]; exact List.mem_map_of_mem _ (List.getElem_mem h1)
    have g1 : 1 < teams.length := by omega
    have g2 : teams.length - 1 - 1 < teams.length := by omega
    have r1 : teams[1].id ≠ "dummy" := by
      intro e
      rcases hd with e' | e'
      · have := hpos _ _ _ _ (hget 1 g1) (hget 0 h0) (by rw [e, e'])
        omega
      · have := hpos _ _ _ _ (hget 1 g1) (hget _ h1) (by rw [e, e'])
        omega
    have r2 : teams[teams.length - 1 - 1].id ≠ "dummy" := by
      intro e
      rcases hd with e' | e'
      · have := hpos _ _ _ _ (hget _ g2) (hget 0 h0) (by rw [e, e'])
        omega
      · have := hpos _ _ _ _ (hget _ g2) (hget _ h1) (by rw [e, e'])
        omega
    have hp := pairing_eq_some genId T r 1 teams _ _ (hget 1 g1) (hget _ g2) r1 r2
    exact ⟨_, by
      unfold roundMatches
      exact List.mem_filterMap.mpr ⟨1, List.mem_range.mpr (by omega), hp⟩⟩
  · simp only [not_or] at hd
    have hp := pairing_eq_some genId T r 0 teams _ _ (hget 0 h0) (hget _ h1) hd.1 hd.2
    exact ⟨_, by
      unfold roundMatches
      exact List.mem_filterMap.mpr ⟨0, List.mem_range.mpr (by omega), hp⟩⟩

theorem nodup_ids_workingTeams (ps : List Participant)
    (hnd : (ps.map (fun p => p.id)).Nodup) (hreal : "dummy" ∉ ps.map (fun p => p.id)) :
    ((workingTeams (ps.map resetStats)).map (fun p => p.id)).Nodup := by
  rw [ids_workingTeams, map_id_resetStats]
  split_ifs
  · rw [List.nodup_append]
    refine ⟨hnd, by simp, ?_⟩
    intro x hx hx'
    simp only [List.mem_singleton] at hx'
    subst hx'
    exact hreal hx
  · simpa using hnd

/-- C4. With at least two participants whose ids are pairwise different and none of which is
the placeholder id, and a requested round count R ≥ 1: the round numbers occurring in the
output of `generateLeague` are exactly 1, ..., min(R, 2(M − 1)), M being the participant count
padded to even, and the match list is ordered by non-decreasing round number. -/
theorem generateLeague_round_numbers (genId : Nat → Nat → String) (s : State) (R : Int)
    (h2 : 2 ≤ s.participants.length)
    (hnd : (s.participants.map (fun p => p.id)).Nodup)
    (hreal : "dummy" ∉ s.participants.map (fun p => p.id)) (hR : 1 ≤ R) :
    (∀ r : Nat, (∃ m ∈ (generateLeague genId (some R) s).1.leagueMatches, m.round = r) ↔
      (1 ≤ r ∧ (r : Int) ≤ min R
        (2 * (((s.participants.length + s.participants.length % 2 : Nat) : Int) - 1)))) ∧
    List.Pairwise (fun a b : Nat => a ≤ b)
      ((generateLeague genId (some R) s).1.leagueMatches.map (fun m => m.round)) := by
  have hn : ∀ r0 : Nat, r0 < roundsToPlay (some R) s.participants.length ↔
      ((r0 + 1 : Nat) : Int) ≤ min R
        (2 * (((s.participants.length + s.participants.length % 2 : Nat) : Int) - 1)) := by
    intro r0
    rw [roundsToPlay_of_pos R _ hR]
    unfold paddedLength
    omega
  rw [generateLeague_ok _ _ _ h2]
  simp only
  refine ⟨?_, ?_⟩
  · intro r
    constructor
    · rintro ⟨m, hm, rfl⟩
      simp only [List.mem_flatMap, List.mem_range] at hm
      obtain ⟨k, hk, hmk⟩ := hm
      rw [round_of_mem_roundMatches _ _ _ _ _ hmk]
      exact ⟨by omega, (hn k).mp hk⟩
    · rintro ⟨hr1, hr2⟩
      obtain ⟨r0, rfl⟩ : ∃ r0, r = r0 + 1 := ⟨r - 1, by omega⟩
      have hlt := (hn r0).mpr hr2
      have hnd0 := nodup_ids_workingTeams s.participants hnd hreal
      have hndk : ((rotateTeams^[r0] (workingTeams (s.participants.map resetStats))).map
          (fun p => p.id)).Nodup :=
        (((iterate_rotateTeams_perm r0 _).map _).nodup_iff).mpr hnd0
      have hlenk : (rotateTeams^[r0] (workingTeams (s.participants.map resetStats))).length =
          2 * (((s.participants.map resetStats).length + 1) / 2) := by
        rw [length_iterate_rotateTeams, length_workingTeams_even]
      obtain ⟨m, hm⟩ := roundMatches_ne_nil genId
        (paddedLength s.participants.length - 1) r0 _ _ hlenk
        (by rw [List.length_map]; omega) hndk (by
          intro hmem
          rw [((iterate_rotateTeams_perm r0 _).map _).mem_iff, ids_workingTeams,
            map_id_resetStats, List.mem_append] at hmem
          rw [List.length_map]
          rcases hmem with hmem | hmem
          · exact absurd hmem hreal
          · split_ifs at hmem with hodd
            · rw [List.length_map] at hodd
              omega
            · simp at hmem)
      exact ⟨m, List.mem_flatMap.mpr ⟨r0, List.mem_range.mpr hlt, hm⟩,
        round_of_mem_roundMatches _ _ _ _ _ hm⟩
  · rw [List.pairwise_map]
    exact fixtures_sorted _ _ _ _

/-- Witness for C4: three participants (padded to four) and ten requested rounds; round
number 6 occurs, and the round numbers are 1 to 6 in order. -/
theorem generateLeague_round_numbers_witness :
    2 ≤ (stateOf ["A", "B", "C"]).participants.length ∧
    ((stateOf ["A", "B", "C"]).participants.map (fun p => p.id)).Nodup ∧
    "dummy" ∉ (stateOf ["A", "B", "C"]).participants.map (fun p => p.id) ∧
    (∃ m ∈ (generateLeague (fun _ _ => "") (some 10)
        (stateOf ["A", "B", "C"])).1.leagueMatches, m.round = 6) ∧
    (generateLeague (fun _ _ => "") (some 10) (stateOf ["A", "B", "C"])).1.leagueMatches.map
      (fun m => m.round) = [1, 2, 3, 4, 5, 6] :=
  ⟨by decide, by decide, by decide,
    ((generateLeague_round_numbers (fun _ _ => "") (stateOf ["A", "B", "C"]) 10
      (by decide) (by decide) (by decide) (by decide)).1 6).mpr ⟨by decide, by decide⟩,
    by decide⟩

/-! ## The circle method -/

theorem getElem?_filterMap_range {α : Type} (n : Nat) (f : Nat → Option α)
    (hf : ∀ j, j < n → (f j).isSome = true) (j : Nat) (hj : j < n) :
    ((List.range n).filterMap f)[j]? = f j := by
  induction n with
  | zero => omega
  | succ n ih =>
    have hlen : ((List.range n).filterMap f).length = n := by
      rw [length_filterMap_of_isSome _ _ (fun x hx => hf x (by
        have := List.mem_range.mp hx; omega)), List.length_range]
    rw [List.range_succ, List.filterMap_append]
    by_cases hjn : j < n
    · rw [List.getElem?_append_left (by rw [hlen]; exact hjn)]
      exact ih (fun j hj => hf j (by omega)) hjn
    · have : j = n := by omega
      subst this
      rw [List.getElem?_append_right (by rw [hlen]), hlen, Nat.sub_self]
      obtain ⟨b, hb⟩ := Option.isSome_iff_exists.mp (hf j (by omega))
      simp [hb]

theorem length_circleStep (L : List String) : (circleStep L).length = L.length := by
  unfold circleStep
  rw [length_filterMap_of_isSome, List.length_range]
  intro j hj
  have := List.mem_range.mp hj
  split_ifs
  · rw [List.getElem?_eq_getElem (by omega)]; rfl
  · rw [List.getElem?_eq_getElem (by omega)]; rfl
  · rw [List.getElem?_eq_getElem (by omega)]; rfl

theorem getElem?_circleStep (L : List String) (n j : Nat) (hL : L.length = n + 1) (hj : j ≤ n) :
    (circleStep L)[j]? = L[seat n 1 j]? := by
  unfold circleStep
  rw [getElem?_filterMap_range _ _ _ j (by omega)]
  · unfold seat
    split_ifs <;> first | rfl | (congr 1; omega)
  · intro j hj
    split_ifs
    · rw [List.getElem?_eq_getElem (by omega)]; rfl
    · rw [List.getElem?_eq_getElem (by omega)]; rfl
    · rw [List.getElem?_eq_getElem (by omega)]; rfl

theorem ids_rotateTeams (teams : List Participant) :
    (rotateTeams teams).map (fun p => p.id) = circleStep (teams.map (fun p => p.id)) := by
  cases hT : teams.length with
  | zero =>
    rw [List.length_eq_zero] at hT
    subst hT
    rfl
  | succ n =>
    apply List.ext_getElem?
    intro j
    by_cases hj : j ≤ n
    · rw [List.getElem?_map, getElem?_rotateTeams teams n j hT hj,
        getElem?_circleStep _ n j (by rw [List.length_map, hT]) hj, List.getElem?_map]
    · rw [List.getElem?_eq_none (by rw [List.length_map, length_rotateTeams]; omega),
        List.getElem?_eq_none (by rw [length_circleStep, List.length_map]; omega)]

theorem ids_iterate_rotateTeams (k : Nat) (teams : List Participant) :
    (rotateTeams^[k] teams).map (fun p => p.id) = circleList (teams.map (fun p => p.id)) k := by
  induction k with
  | zero => rfl
  | succ k ih => rw [Function.iterate_succ_apply', ids_rotateTeams, ih, circleList]

theorem roundMatches_eq_circleRound (genId : Nat → Nat → String) (T r : Nat)
    (teams : List Participant) (hr : r < T) (heven : teams.length % 2 = 0) :
    (roundMatches genId T r teams).map (fun m => (m.homeId, m.awayId)) =
      circleRound (teams.map (fun p => p.id)) := by
  unfold roundMatches circleRound
  have hh : (teams.length + 1) / 2 = teams.length / 2 := by omega
  have hT : ¬ T ≤ r := by omega
  rw [List.map_filterMap, List.length_map, hh]
  apply List.filterMap_congr
  intro i _
  unfold pairing
  simp only [List.getElem?_map]
  cases teams[i]? with
  | none => simp
  | some home =>
    cases teams[teams.length - 1 - i]? with
    | none => simp
    | some away =>
      by_cases hd : home.id = "dummy" ∨ away.id = "dummy" <;> simp [hd, hT]

theorem paddedIds_eq (ps : List Participant) :
    (workingTeams (ps.map resetStats)).map (fun p => p.id) = paddedIds ps := by
  rw [ids_workingTeams, map_id_resetStats, List.length_map]
  unfold paddedIds
  by_cases h : ps.length % 2 = 1
  · rw [if_pos h, if_pos (by omega)]
  · rw [if_neg h, if_neg (by omega)]

/-- C5. `generateLeague` implements the circle method: with L_0 the padded id list of even
size M and L_(k+1) the rotation of L_k (first kept, last moved to position 1), for every
k < min(R, M − 1) the (home, away) pairs of round k + 1 are, in order of i = 0, ..., M/2 − 1,
(L_k[i], L_k[M − 1 − i]) with the placeholder pairings omitted.  For participants A, B, C, D
and R = 3 the output is round 1: A-D, B-C; round 2: A-C, D-B; round 3: A-B, C-D. -/
theorem generateLeague_is_circle_method :
    (∀ (genId : Nat → Nat → String) (parsed : Option Int) (s : State) (k : Nat),
      2 ≤ s.participants.length →
      (k : Int) < min (roundsInput parsed)
        (((s.participants.length + s.participants.length % 2 : Nat) : Int) - 1) →
      ((generateLeague genId parsed s).1.leagueMatches.filter
          (fun m => m.round = k + 1)).map (fun m => (m.homeId, m.awayId)) =
        circleRound (circleList (paddedIds s.participants) k)) ∧
    (generateLeague (fun _ _ => "") (some 3) (stateOf ["A", "B", "C", "D"])).1.leagueMatches.map
        (fun m => (m.round, m.homeId, m.awayId)) =
      [(1, "A", "D"), (1, "B", "C"), (2, "A", "C"), (2, "D", "B"), (3, "A", "B"),
        (3, "C", "D")] := by
  refine ⟨?_, by decide⟩
  intro genId parsed s k h2 hk
  have hlt : k < roundsToPlay parsed s.participants.length := by
    unfold roundsToPlay paddedLength
    omega
  have hlen : (rotateTeams^[k] (workingTeams (s.participants.map resetStats))).length % 2 = 0 := by
    rw [length_iterate_rotateTeams, length_workingTeams_even]
    omega
  rw [generateLeague_ok _ _ _ h2]
  simp only
  rw [filter_round_flatMap, if_pos hlt,
    roundMatches_eq_circleRound _ _ _ _ (by unfold paddedLength; omega) hlen,
    ids_iterate_rotateTeams, paddedIds_eq]

/-- Witness for C5: five participants (padded to six), requested count 4, round 3 (k = 2). -/
theorem generateLeague_is_circle_method_witness :
    ((generateLeague (fun _ _ => "") (some 4)
        (stateOf ["A", "B", "C", "D", "E"])).1.leagueMatches.filter
        (fun m => m.round = 2 + 1)).map (fun m => (m.homeId, m.awayId)) =
      circleRound (circleList (paddedIds (stateOf ["A", "B", "C", "D", "E"]).participants) 2) ∧
    circleRound (circleList (paddedIds (stateOf ["A", "B", "C", "D", "E"]).participants) 2) =
      [("A", "D"), ("E", "C")] :=
  ⟨generateLeague_is_circle_method.1 (fun _ _ => "") (some 4)
    (stateOf ["A", "B", "C", "D", "E"]) 2 (by decide) (by decide), by decide⟩

/-! ## Standings -/

@[simp] theorem toNumber_some (v : Number) : toNumber (some v) = v := rfl

theorem getElem?_modifyAt (f : Participant → Participant) (i : Nat) (ps : List Participant)
    (j : Nat) : (modifyAt f i ps)[j]? = if j = i then ps[j]?.map f else ps[j]? := by
  induction ps generalizing i j with
  | nil => simp [modifyAt]
  | cons p ps ih =>
    cases i with
    | zero =>
      cases j with
      | zero => simp [modifyAt]
      | succ j => simp [modifyAt]
    | succ i =>
      cases j with
      | zero => simp [modifyAt]
      | succ j => simp [modifyAt, ih]

theorem get_modifyAt_self (f : Participant → Participant) (i : Nat) (ps : List Participant) :
    (modifyAt f i ps)[i]? = ps[i]?.map f := by
  rw [getElem?_modifyAt, if_pos rfl]

theorem get_modifyAt_ne (f : Participant → Participant) (i j : Nat) (ps : List Participant)
    (h : j ≠ i) : (modifyAt f i ps)[j]? = ps[j]? := by
  rw [getElem?_modifyAt, if_neg h]

theorem length_modifyAt (f : Participant → Participant) (i : Nat) (ps : List Participant) :
    (modifyAt f i ps).length = ps.length := by
  induction ps generalizing i with
  | nil => simp [modifyAt]
  | cons p ps ih =>
    cases i with
    | zero => simp [modifyAt]
    | succ i => simp [modifyAt, ih]

theorem findIndexById_some (ps : List Participant) (x : String) (h : Nat)
    (hf : findIndexById ps x = some h) : ∃ p, ps[h]? = some p ∧ p.id = x := by
  induction ps generalizing h with
  | nil => simp [findIndexById] at hf
  | cons q ps ih =>
    unfold findIndexById at hf
    split_ifs at hf with hq
    · simp only [Option.some.injEq] at hf
      subst hf
      exact ⟨q, by simp, hq⟩
    · cases hr : findIndexById ps x with
      | none => simp [hr] at hf
      | some h' =>
        simp only [hr, Option.map_some', Option.some.injEq] at hf
        subst hf
        obtain ⟨p, hp1, hp2⟩ := ih h' hr
        exact ⟨p, by simpa using hp1, hp2⟩

theorem findIndexById_of_mem (ps : List Participant) (x : String)
    (hx : x ∈ ps.map (fun p => p.id)) : ∃ h, findIndexById ps x = some h := by
  induction ps with
  | nil => simp at hx
  | cons q ps ih =>
    unfold findIndexById
    by_cases hq : q.id = x
    · exact ⟨0, by simp [hq]⟩
    · simp only [List.map_cons, List.mem_cons] at hx
      rcases hx with hx | hx
      · exact absurd hx.symm hq
      · obtain ⟨h, hh⟩ := ih hx
        exact ⟨h + 1, by simp [hq, hh]⟩

theorem applyResult_eq_map (ps : List Participant) (m : LeagueMatch)
    (hnd : (ps.map (fun p => p.id)).Nodup) (hne : m.homeId ≠ m.awayId)
    (hh : m.homeId ∈ ps.map (fun p => p.id)) (ha : m.awayId ∈ ps.map (fun p => p.id)) :
    applyResult ps m = ps.map (stepStats m) := by
  obtain ⟨h, hfh⟩ := findIndexById_of_mem ps _ hh
  obtain ⟨a, hfa⟩ := findIndexById_of_mem ps _ ha
  obtain ⟨ph, hph, hphid⟩ := findIndexById_some ps _ h hfh
  obtain ⟨pa, hpa, hpaid⟩ := findIndexById_some ps _ a hfa
  have hpos : ∀ (i j : Nat) (p q : Participant), ps[i]? = some p → ps[j]? = some q →
      p.id = q.id → i = j := by
    intro i j p q hi hj hid
    have h1 : (ps.map (fun p => p.id))[i]? = some p.id := by simp [hi]
    have h2 : (ps.map (fun p => p.id))[j]? = some p.id := by simp [hj, hid]
    exact position_unique (p := fun _ => true) (by simpa using hnd) h1 h2 rfl
  have hha : h ≠ a := by
    intro e
    subst e
    rw [hph] at hpa
    simp only [Option.some.injEq] at hpa
    subst hpa
    exact hne (hphid.symm.trans hpaid)
  unfold applyResult stepStats
  cases hs : m.homeScore with
  | none => simp
  | some x =>
    cases has : m.awayScore with
    | none => simp
    | some y =>
      simp only [hfh, hfa]
      have hah : a ≠ h := fun e => hha e.symm
      apply List.ext_getElem?
      intro j
      rw [List.getElem?_map]
      by_cases e1 : j = h
      · subst e1
        split_ifs <;>
          simp only [get_modifyAt_self, get_modifyAt_ne _ _ _ _ hha, hph, Option.map_some',
            hphid, if_true] <;> rfl
      · by_cases e2 : j = a
        · subst e2
          have hqh : ¬ pa.id = m.homeId := by
            rw [hpaid]; exact fun e => hne e.symm
          split_ifs <;>
            simp only [get_modifyAt_self, get_modifyAt_ne _ _ _ _ hah, hpa, Option.map_some',
              hpaid, hqh, if_true, if_false] <;> first | rfl | simp_all [toNumber_some]
        · cases hj : ps[j]? with
          | none =>
            split_ifs <;>
              simp only [get_modifyAt_ne _ _ _ _ e1, get_modifyAt_ne _ _ _ _ e2, hj,
                Option.map_none']
          | some q =>
            have hqh : ¬ q.id = m.homeId := by
              intro e
              exact e1 (hpos _ _ _ _ hj hph (e.trans hphid.symm))
            have hqa : ¬ q.id = m.awayId := by
              intro e
              exact e2 (hpos _ _ _ _ hj hpa (e.trans hpaid.symm))
            split_ifs <;>
              simp only [get_modifyAt_ne _ _ _ _ e1, get_modifyAt_ne _ _ _ _ e2, hj,
                Option.map_some', hqh, hqa, if_false]

theorem ids_map_stepStats (m : LeagueMatch) (ps : List Participant) :
    (ps.map (stepStats m)).map (fun p => (p.id, p.name)) = ps.map (fun p => (p.id, p.name)) := by
  rw [List.map_map]
  apply List.map_congr_left
  intro p _
  simp only [Function.comp, stepStats]
  split
  · split_ifs <;> rfl
  · rfl

theorem foldl_applyResult_eq_map (ms : List LeagueMatch) (ps : List Participant)
    (hnd : (ps.map (fun p => p.id)).Nodup)
    (hms : ∀ m ∈ ms, m.homeId ≠ m.awayId ∧ m.homeId ∈ ps.map (fun p => p.id) ∧
      m.awayId ∈ ps.map (fun p => p.id)) :
    ms.foldl applyResult ps = ps.map (fun p => ms.foldl (fun q m => stepStats m q) p) := by
  induction ms generalizing ps with
  | nil => simp
  | cons m ms ih =>
    obtain ⟨h1, h2, h3⟩ := hms m (List.mem_cons_self m ms)
    have hids : (ps.map (stepStats m)).map (fun p => p.id) = ps.map (fun p => p.id) := by
      have := congrArg (List.map Prod.fst) (ids_map_stepStats m ps)
      simpa [List.map_map, Function.comp] using this
    rw [List.foldl_cons, applyResult_eq_map ps m hnd h1 h2 h3, ih _ (by rw [hids]; exact hnd)
      (by rw [hids]; exact fun m' hm' => hms m' (List.mem_cons_of_mem m hm')), List.map_map]
    rfl
/-! ## Number arithmetic -/

theorem roundNat_exact (n : Nat) (h : n ≤ 2 ^ 53) : roundNat n = some n := by
  unfold roundNat
  rw [if_pos h]

theorem ofInt_exact (z : Int) (h : z.natAbs ≤ 2 ^ 53) : Number.ofInt z = Number.fin z := by
  unfold Number.ofInt
  rw [roundNat_exact _ h]
  simp only
  congr 1
  split_ifs <;> omega

theorem add_fin (x y : Int) (h : (x + y).natAbs ≤ 2 ^ 53) :
    (Number.fin x + Number.fin y : Number) = Number.fin (x + y) :=
  ofInt_exact _ h

theorem sub_fin (x y : Int) (h : (x - y).natAbs ≤ 2 ^ 53) :
    (Number.fin x - Number.fin y : Number) = Number.fin (x - y) := by
  have e : x + -y = x - y := by ring
  show Number.ofInt (x + -y) = _
  rw [e]
  exact ofInt_exact _ h

theorem lt_fin (x y : Int) : (Number.fin x < Number.fin y) ↔ x < y := by
  show Number.lt (Number.fin x) (Number.fin y) = true ↔ x < y
  simp [Number.lt]

theorem ulpFrom_pos (fuel n u : Nat) (hu : 0 < u) : 0 < ulpFrom fuel n u := by
  induction fuel generalizing u with
  | zero => exact hu
  | succ fuel ih =>
    unfold ulpFrom
    split_ifs
    · exact hu
    · exact ih _ (by omega)

theorem ulpFrom_le (fuel n u : Nat) (hu : u ≤ n) : ulpFrom fuel n u ≤ n := by
  induction fuel generalizing u with
  | zero => exact hu
  | succ fuel ih =>
    unfold ulpFrom
    split_ifs with h
    · exact hu
    · refine ih _ ?_
      have : 2 * u ≤ 2 ^ 53 * u := Nat.mul_le_mul_right u (by norm_num)
      omega

theorem roundNat_pos (n v : Nat) (h : roundNat n = some v) : 0 < v ↔ 0 < n := by
  unfold roundNat at h
  by_cases h1 : n ≤ 2 ^ 53
  · rw [if_pos h1] at h
    simp only [Option.some.injEq] at h
    rw [h]
  · rw [if_neg h1] at h
    have hn : 0 < n := by
      have : 0 < 2 ^ 53 := by norm_num
      omega
    have hu := ulpFrom_pos n n 1 (by norm_num)
    have hle := ulpFrom_le n n 1 (by omega)
    have hq : 0 < n / ulpFrom n n 1 := Nat.div_pos hle hu
    refine ⟨fun _ => hn, fun _ => ?_⟩
    simp only at h
    generalize hm : (if 2 * (n % ulpFrom n n 1) < ulpFrom n n 1 then n / ulpFrom n n 1
      else if ulpFrom n n 1 < 2 * (n % ulpFrom n n 1) then n / ulpFrom n n 1 + 1
      else if n / ulpFrom n n 1 % 2 = 0 then n / ulpFrom n n 1
      else n / ulpFrom n n 1 + 1) = m at h
    have hmpos : 0 < m := by
      rw [← hm]
      split_ifs <;> omega
    by_cases h2 : m * ulpFrom n n 1 < (2 ^ 256) ^ 4
    · rw [if_pos h2] at h
      simp only [Option.some.injEq] at h
      rw [← h]
      exact Nat.mul_pos hmpos hu
    · rw [if_neg h2] at h
      exact absurd h (by simp)

theorem roundNat_none (n : Nat) (h : roundNat n = none) : 0 < n := by
  unfold roundNat at h
  split_ifs at h with h1
  have : 0 < 2 ^ 53 := by norm_num
  omega

/-- Rounding keeps the sign: the computed difference is positive exactly when the exact one
is. -/
theorem zero_lt_ofInt (z : Int) : (0 : Number) < Number.ofInt z ↔ 0 < z := by
  show Number.lt (Number.fin 0) (Number.ofInt z) = true ↔ 0 < z
  unfold Number.ofInt
  cases h : roundNat z.natAbs with
  | none =>
    have := roundNat_none _ h
    simp only
    split_ifs with hz
    · simp [Number.lt]; omega
    · simp [Number.lt]; omega
  | some v =>
    have := roundNat_pos _ _ h
    simp only
    split_ifs with hz
    · simp [Number.lt]; omega
    · simp [Number.lt]; omega

theorem zero_lt_sub_fin (x y : Int) : (0 : Number) < Number.fin x - Number.fin y ↔ y < x := by
  show (0 : Number) < Number.ofInt (x + -y) ↔ y < x
  rw [zero_lt_ofInt]
  omega
/-! ## Standings in exact arithmetic -/

theorem scoreTotal_cons (m : LeagueMatch) (ms : List LeagueMatch) :
    scoreTotal (m :: ms) = scoreTotal [m] + scoreTotal ms := by
  simp [scoreTotal]

theorem scoreTotal_single (m : LeagueMatch) (x y : Int) (hs : m.homeScore = some (Number.fin x))
    (has : m.awayScore = some (Number.fin y)) : scoreTotal [m] = x.natAbs + y.natAbs := by
  simp [scoreTotal, bothSet, hs, has, intValue]

theorem isInteger_some (v : Number) (h : isInteger (some v) = true) :
    ∃ z, v = Number.fin z := by
  cases v with
  | fin z => exact ⟨z, rfl⟩
  | nan => simp [isInteger] at h
  | posInf => simp [isInteger] at h
  | negInf => simp [isInteger] at h

theorem isInteger_iff (x : Option Number) :
    isInteger x = true ↔ ∃ z, x = some (Number.fin z) := by
  cases x with
  | none => simp [isInteger]
  | some v =>
    constructor
    · intro h
      obtain ⟨z, rfl⟩ := isInteger_some v h
      exact ⟨z, rfl⟩
    · rintro ⟨z, h⟩
      rw [h]
      rfl

/-- Effect of one match on the record of the participant `pid` whose stats are integers, while
every sum stays within the range in which double arithmetic is exact. -/
theorem stepStats_exact (pid : String) (m : LeagueMatch) (q : Participant)
    (g a w l d P : Int) (hid : q.id = pid) (hne : m.homeId ≠ m.awayId)
    (hint : bothSet m = true → IntegerScores m)
    (hgf : q.gf = some (Number.fin g)) (hga : q.ga = some (Number.fin a))
    (hw : q.w = some (Number.fin w)) (hl : q.l = some (Number.fin l))
    (hd : q.d = some (Number.fin d)) (hP : q.pts = some (Number.fin P))
    (hb : g.natAbs + a.natAbs + scoreTotal [m] ≤ 2 ^ 53)
    (hbw : w.natAbs + 1 ≤ 2 ^ 53) (hbl : l.natAbs + 1 ≤ 2 ^ 53) (hbd : d.natAbs + 1 ≤ 2 ^ 53)
    (hbP : P.natAbs + 3 ≤ 2 ^ 53) :
    (stepStats m q).id = pid ∧ (stepStats m q).name = q.name ∧
    (stepStats m q).gf =
      some (Number.fin (g + ((countedFor pid [m]).map (ownScore pid)).sum)) ∧
    (stepStats m q).ga =
      some (Number.fin (a + ((countedFor pid [m]).map (oppScore pid)).sum)) ∧
    (stepStats m q).w = some (Number.fin (w +
      ((countedFor pid [m]).countP (fun m => oppScore pid m < ownScore pid m) : Nat))) ∧
    (stepStats m q).l = some (Number.fin (l +
      ((countedFor pid [m]).countP (fun m => ownScore pid m < oppScore pid m) : Nat))) ∧
    (stepStats m q).d = some (Number.fin (d +
      ((countedFor pid [m]).countP (fun m => ownScore pid m = oppScore pid m) : Nat))) ∧
    (stepStats m q).pts = some (Number.fin (P +
      3 * ((countedFor pid [m]).countP (fun m => oppScore pid m < ownScore pid m) : Nat) +
      ((countedFor pid [m]).countP (fun m => ownScore pid m = oppScore pid m) : Nat))) ∧
    (q.gd = some (Number.fin (g - a)) →
      (stepStats m q).gd = some (Number.fin
        (g + ((countedFor pid [m]).map (ownScore pid)).sum -
          (a + ((countedFor pid [m]).map (oppScore pid)).sum)))) := by
  subst hid
  cases hs : m.homeScore with
  | none =>
    simp [stepStats, countedFor, bothSet, hs, hgf, hga, hw, hl, hd, hP]
  | some xv =>
    cases has : m.awayScore with
    | none =>
      simp [stepStats, countedFor, bothSet, hs, has, hgf, hga, hw, hl, hd, hP]
    | some yv =>
      obtain ⟨hi1, hi2⟩ := hint (by simp [bothSet, hs, has])
      rw [hs] at hi1
      rw [has] at hi2
      obtain ⟨x, rfl⟩ := isInteger_some xv hi1
      obtain ⟨y, rfl⟩ := isInteger_some yv hi2
      rw [scoreTotal_single m x y hs has] at hb
      have ex1 : (Number.fin g + Number.fin x : Number) = Number.fin (g + x) :=
        add_fin _ _ (by omega)
      have ex2 : (Number.fin a + Number.fin y : Number) = Number.fin (a + y) :=
        add_fin _ _ (by omega)
      have ex3 : (Number.fin g + Number.fin y : Number) = Number.fin (g + y) :=
        add_fin _ _ (by omega)
      have ex4 : (Number.fin a + Number.fin x : Number) = Number.fin (a + x) :=
        add_fin _ _ (by omega)
      have ex5 : (Number.fin (g + x) - Number.fin (a + y) : Number) =
          Number.fin (g + x - (a + y)) := sub_fin _ _ (by omega)
      have ex6 : (Number.fin (g + y) - Number.fin (a + x) : Number) =
          Number.fin (g + y - (a + x)) := sub_fin _ _ (by omega)
      have ew : (Number.fin w + 1 : Number) = Number.fin (w + 1) := add_fin w 1 (by omega)
      have el : (Number.fin l + 1 : Number) = Number.fin (l + 1) := add_fin l 1 (by omega)
      have ed : (Number.fin d + 1 : Number) = Number.fin (d + 1) := add_fin d 1 (by omega)
      have eP1 : (Number.fin P + 1 : Number) = Number.fin (P + 1) := add_fin P 1 (by omega)
      have eP3 : (Number.fin P + 3 : Number) = Number.fin (P + 3) := add_fin P 3 (by omega)
      by_cases e1 : q.id = m.homeId
      · have e1' : m.homeId = q.id := e1.symm
        rcases lt_trichotomy x y with c | c | c
        · have c1 : ¬ y < x := by omega
          have c2 : ¬ x = y := by omega
          simp [stepStats, countedFor, bothSet, ownScore, oppScore, intValue, hs, has, e1, c,
            c1, c2, List.countP_cons, List.filter_cons, hgf, hga, hw, hl, hd, hP, lt_fin,
            ex1, ex2, ex5, el]
        · subst c
          simp [stepStats, countedFor, bothSet, ownScore, oppScore, intValue, hs, has, e1,
            List.countP_cons, List.filter_cons, hgf, hga, hw, hl, hd, hP, lt_fin,
            ex1, ex2, ex5, ed, eP1]
        · have c1 : ¬ x < y := by omega
          have c2 : ¬ x = y := by omega
          simp [stepStats, countedFor, bothSet, ownScore, oppScore, intValue, hs, has, e1, c,
            c1, c2, List.countP_cons, List.filter_cons, hgf, hga, hw, hl, hd, hP, lt_fin,
            ex1, ex2, ex5, ew, eP3]
      · have e1' : ¬ m.homeId = q.id := fun e => e1 e.symm
        have hne' : ¬ m.awayId = m.homeId := fun e => hne e.symm
        by_cases e2 : q.id = m.awayId
        · rcases lt_trichotomy x y with c | c | c
          · have c1 : ¬ y < x := by omega
            have c2 : ¬ y = x := by omega
            simp [stepStats, countedFor, bothSet, ownScore, oppScore, intValue, hs, has, e1,
              e1', e2, c, c1, c2, hne, hne', List.countP_cons, List.filter_cons, hgf, hga, hw,
              hl, hd, hP, lt_fin, ex3, ex4, ex6, ew, eP3]
          · subst c
            simp [stepStats, countedFor, bothSet, ownScore, oppScore, intValue, hs, has, e1,
              e1', e2, hne, hne', List.countP_cons, List.filter_cons, hgf, hga, hw,
              hl, hd, hP, lt_fin, ex3, ex4, ex6, ed, eP1]
          · have c1 : ¬ x < y := by omega
            have c2 : ¬ y = x := by omega
            simp [stepStats, countedFor, bothSet, ownScore, oppScore, intValue, hs, has, e1,
              e1', e2, c, c1, c2, hne, hne', List.countP_cons, List.filter_cons, hgf, hga, hw,
              hl, hd, hP, lt_fin, ex3, ex4, ex6, el]
        · have e2' : ¬ m.awayId = q.id := fun e => e2 e.symm
          simp [stepStats, countedFor, bothSet, hs, has, e1, e1', e2, e2', List.filter_cons,
            hgf, hga, hw, hl, hd, hP]

theorem countedFor_cons (pid : String) (m : LeagueMatch) (ms : List LeagueMatch) :
    countedFor pid (m :: ms) = countedFor pid [m] ++ countedFor pid ms := by
  unfold countedFor
  rw [← List.filter_append]
  rfl

/-- One match changes no sum by more than its two scores and no count by more than one. -/
theorem countedFor_single_bounds (pid : String) (m : LeagueMatch) :
    (((countedFor pid [m]).map (ownScore pid)).sum).natAbs +
      (((countedFor pid [m]).map (oppScore pid)).sum).natAbs ≤ scoreTotal [m] ∧
    (countedFor pid [m]).countP (fun m => oppScore pid m < ownScore pid m) ≤ 1 ∧
    (countedFor pid [m]).countP (fun m => ownScore pid m < oppScore pid m) ≤ 1 ∧
    (countedFor pid [m]).countP (fun m => ownScore pid m = oppScore pid m) ≤ 1 ∧
    3 * (countedFor pid [m]).countP (fun m => oppScore pid m < ownScore pid m) +
      (countedFor pid [m]).countP (fun m => ownScore pid m = oppScore pid m) ≤ 3 := by
  by_cases hc : (bothSet m && (decide (m.homeId = pid) || decide (m.awayId = pid))) = true
  · have e : countedFor pid [m] = [m] := by
      unfold countedFor
      rw [List.filter_cons, if_pos hc]
      rfl
    have hb : bothSet m = true := by
      simp only [Bool.and_eq_true] at hc
      exact hc.1
    rw [e]
    simp only [List.map_cons, List.map_nil, List.sum_cons, List.sum_nil, add_zero,
      List.countP_cons, List.countP_nil, zero_add]
    refine ⟨?_, ?_, ?_, ?_, ?_⟩
    · simp only [scoreTotal, List.map_cons, List.map_nil, List.sum_cons, List.sum_nil, add_zero,
        hb, if_true]
      unfold ownScore oppScore
      split_ifs <;> omega
    · split_ifs <;> omega
    · split_ifs <;> omega
    · split_ifs <;> omega
    · have h1 : ∀ (A B : Prop) [Decidable A] [Decidable B], ¬ (A ∧ B) →
          3 * (if A then 1 else 0) + (if B then 1 else 0) ≤ 3 := by
        intro A B _ _ h
        split_ifs <;> first | omega | exact absurd ⟨‹A›, ‹B›⟩ h
      simp only [decide_eq_true_eq]
      exact h1 _ _ (by omega)
  · have e : countedFor pid [m] = [] := by
      unfold countedFor
      rw [List.filter_cons, if_neg hc]
      rfl
    rw [e]
    simp

/-- The record of the participant `pid` after all matches, in terms of the matches counting
for `pid`, while every sum stays within the range in which double arithmetic is exact. -/
theorem fold_stepStats_exact (pid : String) (ms : List LeagueMatch) (q : Participant)
    (g a w l d P : Int) (hid : q.id = pid) (hne : ∀ m ∈ ms, m.homeId ≠ m.awayId)
    (hint : ∀ m ∈ ms, bothSet m = true → IntegerScores m)
    (hgf : q.gf = some (Number.fin g)) (hga : q.ga = some (Number.fin a))
    (hw : q.w = some (Number.fin w)) (hl : q.l = some (Number.fin l))
    (hd : q.d = some (Number.fin d)) (hP : q.pts = some (Number.fin P))
    (hgd : q.gd = some (Number.fin (g - a)))
    (hb : g.natAbs + a.natAbs + scoreTotal ms ≤ 2 ^ 53)
    (hbw : w.natAbs + ms.length ≤ 2 ^ 53) (hbl : l.natAbs + ms.length ≤ 2 ^ 53)
    (hbd : d.natAbs + ms.length ≤ 2 ^ 53) (hbP : P.natAbs + 3 * ms.length ≤ 2 ^ 53) :
    (ms.foldl (fun q m => stepStats m q) q).id = pid ∧
    (ms.foldl (fun q m => stepStats m q) q).name = q.name ∧
    (ms.foldl (fun q m => stepStats m q) q).gf =
      some (Number.fin (g + ((countedFor pid ms).map (ownScore pid)).sum)) ∧
    (ms.foldl (fun q m => stepStats m q) q).ga =
      some (Number.fin (a + ((countedFor pid ms).map (oppScore pid)).sum)) ∧
    (ms.foldl (fun q m => stepStats m q) q).w = some (Number.fin (w +
      ((countedFor pid ms).countP (fun m => oppScore pid m < ownScore pid m) : Nat))) ∧
    (ms.foldl (fun q m => stepStats m q) q).l = some (Number.fin (l +
      ((countedFor pid ms).countP (fun m => ownScore pid m < oppScore pid m) : Nat))) ∧
    (ms.foldl (fun q m => stepStats m q) q).d = some (Number.fin (d +
      ((countedFor pid ms).countP (fun m => ownScore pid m = oppScore pid m) : Nat))) ∧
    (ms.foldl (fun q m => stepStats m q) q).pts = some (Number.fin (P +
      3 * ((countedFor pid ms).countP (fun m => oppScore pid m < ownScore pid m) : Nat) +
      ((countedFor pid ms).countP (fun m => ownScore pid m = oppScore pid m) : Nat))) ∧
    (ms.foldl (fun q m => stepStats m q) q).gd = some (Number.fin
      (g + ((countedFor pid ms).map (ownScore pid)).sum -
        (a + ((countedFor pid ms).map (oppScore pid)).sum))) := by
  induction ms generalizing q g a w l d P with
  | nil =>
    simp only [List.foldl_nil, countedFor, List.filter_nil, List.map_nil, List.sum_nil,
      List.countP_nil, Nat.cast_zero, add_zero, mul_zero]
    exact ⟨hid, trivial, hgf, hga, hw, hl, hd, hP, hgd⟩
  | cons m ms ih =>
    rw [scoreTotal_cons] at hb
    rw [List.length_cons] at hbw hbl hbd hbP
    obtain ⟨b1, b2, b3, b4, b5⟩ := countedFor_single_bounds pid m
    obtain ⟨s1, s2, s3, s4, s5, s6, s7, s8, s9⟩ :=
      stepStats_exact pid m q g a w l d P hid (hne m (List.mem_cons_self m ms))
        (hint m (List.mem_cons_self m ms)) hgf hga hw hl hd hP (by omega) (by omega) (by omega)
        (by omega) (by omega)
    obtain ⟨i1, i2, i3, i4, i5, i6, i7, i8, i9⟩ :=
      ih (stepStats m q) _ _ _ _ _ _ s1 (fun m' hm' => hne m' (List.mem_cons_of_mem m hm'))
        (fun m' hm' => hint m' (List.mem_cons_of_mem m hm')) s3 s4 s5 s6 s7 s8 (s9 hgd)
        (by omega) (by omega) (by omega) (by omega) (by omega)
    rw [List.foldl_cons, countedFor_cons]
    simp only [List.map_append, List.sum_append, List.countP_append, Nat.cast_add]
    refine ⟨i1, by rw [i2, s2], ?_, ?_, ?_, ?_, ?_, ?_, ?_⟩
    · rw [i3]; congr 2; ring
    · rw [i4]; congr 2; ring
    · rw [i5]; congr 2; ring
    · rw [i6]; congr 2; ring
    · rw [i7]; congr 2; ring
    · rw [i8]; congr 2; ring
    · rw [i9]; congr 2; ring

/-- C9 (amended). For participants with pairwise different ids and a league match list of
fewer than 2^32 entries whose home and away ids are different and belong to listed
participants, in which the two scores of every match with both scores set are integers and the
absolute values of those scores add up to at most 2^53: after `recalculateStandings` every
participant p has gf, the sum of p's own scores, and ga, the sum of the opponents' scores,
over the matches involving p with both scores set; gd = gf − ga; w, l, d, the numbers of those
matches in which p scored more than, fewer than, or the same as the opponent; pts = 3 w + d.
Matches with a score unset contribute nothing.  For the matches A-D 2-1 and B-C 0-0 this gives
A 3 points, D 0, B 1, C 1. -/
theorem recalculateStandings_spec :
    (∀ s : State, (s.participants.map (fun p => p.id)).Nodup →
      (∀ m ∈ s.leagueMatches, m.homeId ≠ m.awayId ∧
        m.homeId ∈ s.participants.map (fun p => p.id) ∧
        m.awayId ∈ s.participants.map (fun p => p.id)) →
      (∀ m ∈ s.leagueMatches, bothSet m = true → IntegerScores m) →
      scoreTotal s.leagueMatches ≤ 2 ^ 53 → s.leagueMatches.length < 2 ^ 32 →
      (recalculateStandings s).participants.map (fun p => (p.id, p.name)) =
        s.participants.map (fun p => (p.id, p.name)) ∧
      ∀ p ∈ (recalculateStandings s).participants,
        p.gf = some (Number.fin ((countedFor p.id s.leagueMatches).map (ownScore p.id)).sum) ∧
        p.ga = some (Number.fin ((countedFor p.id s.leagueMatches).map (oppScore p.id)).sum) ∧
        p.gd = some (Number.fin
          (((countedFor p.id s.leagueMatches).map (ownScore p.id)).sum -
            ((countedFor p.id s.leagueMatches).map (oppScore p.id)).sum)) ∧
        p.w = some (Number.fin ((countedFor p.id s.leagueMatches).countP
          (fun m => oppScore p.id m < ownScore p.id m) : Nat)) ∧
        p.l = some (Number.fin ((countedFor p.id s.leagueMatches).countP
          (fun m => ownScore p.id m < oppScore p.id m) : Nat)) ∧
        p.d = some (Number.fin ((countedFor p.id s.leagueMatches).countP
          (fun m => ownScore p.id m = oppScore p.id m) : Nat)) ∧
        p.pts = some (Number.fin
          (3 * ((countedFor p.id s.leagueMatches).countP
            (fun m => oppScore p.id m < ownScore p.id m) : Nat) +
          ((countedFor p.id s.leagueMatches).countP
            (fun m => ownScore p.id m = oppScore p.id m) : Nat)))) ∧
    (recalculateStandings
      { participants := [mkParticipant "A", mkParticipant "B", mkParticipant "C",
          mkParticipant "D"]
        leagueMatches :=
          [{ id := "m1", round := 1, homeId := "A", awayId := "D",
             homeScore := some 2, awayScore := some 1 },
           { id := "m2", round := 1, homeId := "B", awayId := "C",
             homeScore := some 0, awayScore := some 0 }]
        knockoutRounds := [] }).participants.map (fun p => (p.id, p.pts)) =
      [("A", 3), ("B", 1), ("C", 1), ("D", 0)] := by
  refine ⟨?_, by decide⟩
  intro s hnd hms hint htot hlen
  have hfold : (recalculateStandings s).participants =
      (s.participants.map resetStats).map
        (fun p => s.leagueMatches.foldl (fun q m => stepStats m q) p) := by
    unfold recalculateStandings
    simp only
    exact foldl_applyResult_eq_map _ _ (by rw [map_id_resetStats]; exact hnd)
      (by rw [map_id_resetStats]; exact hms)
  have hne : ∀ m ∈ s.leagueMatches, m.homeId ≠ m.awayId := fun m hm => (hms m hm).1
  have hall : ∀ p0 : Participant, _ :=
    fun p0 => fold_stepStats_exact p0.id s.leagueMatches (resetStats p0) 0 0 0 0 0 0 rfl hne hint
      rfl rfl rfl rfl rfl rfl rfl (by simpa using htot) (by simp; omega) (by simp; omega)
      (by simp; omega) (by simp; omega)
  rw [hfold]
  constructor
  · rw [List.map_map, List.map_map]
    apply List.map_congr_left
    intro p _
    obtain ⟨h1, h2, _⟩ := hall p
    simp only [Function.comp, h1, h2]
    rfl
  · intro p hp
    simp only [List.map_map, List.mem_map, Function.comp] at hp
    obtain ⟨p0, _, rfl⟩ := hp
    obtain ⟨h1, _, h3, h4, h5, h6, h7, h8, h9⟩ := hall p0
    rw [h1]
    simp only [zero_add] at h3 h4 h5 h6 h7 h8 h9
    exact ⟨h3, h4, h9, h5, h6, h7, h8⟩

/-- Witness for C9 (amended): A-D 2-1 played, B-C with the away score unset; the record of A
after the recomputation has one win and three points. -/
theorem recalculateStandings_spec_witness :
    ([mkParticipant "A", mkParticipant "B", mkParticipant "C", mkParticipant "D"].map
      (fun p => p.id)).Nodup ∧
    scoreTotal
      [{ id := "m1", round := 1, homeId := "A", awayId := "D",
         homeScore := some 2, awayScore := some 1 },
       { id := "m2", round := 1, homeId := "B", awayId := "C",
         homeScore := some 4, awayScore := none }] ≤ 2 ^ 53 ∧
    ({ mkParticipant "A" with pts := 3, w := 1, gf := 2, ga := 1, gd := 1 } : Participant) ∈
      (recalculateStandings
        { participants := [mkParticipant "A", mkParticipant "B", mkParticipant "C",
            mkParticipant "D"]
          leagueMatches :=
            [{ id := "m1", round := 1, homeId := "A", awayId := "D",
               homeScore := some 2, awayScore := some 1 },
             { id := "m2", round := 1, homeId := "B", awayId := "C",
               homeScore := some 4, awayScore := none }]
          knockoutRounds := [] }).participants ∧
    ({ mkParticipant "A" with pts := 3, w := 1, gf := 2, ga := 1, gd := 1 } : Participant).pts =
      some (Number.fin
        (3 * ((countedFor "A"
          [{ id := "m1", round := 1, homeId := "A", awayId := "D",
             homeScore := some 2, awayScore := some 1 },
           { id := "m2", round := 1, homeId := "B", awayId := "C",
             homeScore := some 4, awayScore := none }]).countP
            (fun m => oppScore "A" m < ownScore "A" m) : Nat) +
        ((countedFor "A"
          [{ id := "m1", round := 1, homeId := "A", awayId := "D",
             homeScore := some 2, awayScore := some 1 },
           { id := "m2", round := 1, homeId := "B", awayId := "C",
             homeScore := some 4, awayScore := none }]).countP
            (fun m => ownScore "A" m = oppScore "A" m) : Nat))) :=
  ⟨by decide, by decide, by decide,
    ((recalculateStandings_spec.1
      { participants := [mkParticipant "A", mkParticipant "B", mkParticipant "C",
          mkParticipant "D"]
        leagueMatches :=
          [{ id := "m1", round := 1, homeId := "A", awayId := "D",
             homeScore := some 2, awayScore := some 1 },
           { id := "m2", round := 1, homeId := "B", awayId := "C",
             homeScore := some 4, awayScore := none }]
        knockoutRounds := [] } (by decide) (by decide) (by decide) (by decide) (by decide)).2
      { mkParticipant "A" with pts := 3, w := 1, gf := 2, ga := 1, gd := 1 }
      (by decide)).2.2.2.2.2.2⟩

/-- Counterexample to C9 as stated.  First, a score that is not an integer: with the match A-B
holding `NaN` for A (what `parseInt` returns for the entry `.5`) and 1 for B, both scores are
set, neither side scored more and the scores are not the same, yet the match is booked as a
draw for both sides and gf of A is `NaN`.  Second, rounding: with the matches A-B 2^53 to 0 and
A-B 1 to 0, gf of A is 2^53, not the sum 2^53 + 1 of the scores of A. -/
theorem recalculateStandings_counterexample :
    (recalculateStandings
      { participants := [mkParticipant "A", mkParticipant "B"]
        leagueMatches :=
          [{ id := "m1", round := 1, homeId := "A", awayId := "B",
             homeScore := some Number.nan, awayScore := some 1 }]
        knockoutRounds := [] }).participants =
      [{ mkParticipant "A" with
          pts := 1, d := 1, gf := some Number.nan, ga := 1, gd := some Number.nan },
       { mkParticipant "B" with
          pts := 1, d := 1, gf := 1, ga := some Number.nan, gd := some Number.nan }] ∧
    ¬ ((Number.nan : Number) < 1) ∧ ¬ ((1 : Number) < Number.nan) ∧
    (Number.nan : Number) ≠ 1 ∧
    (recalculateStandings
      { participants := [mkParticipant "A", mkParticipant "B"]
        leagueMatches :=
          [{ id := "m1", round := 1, homeId := "A", awayId := "B",
             homeScore := some (Number.fin (2 ^ 53)), awayScore := some 0 },
           { id := "m2", round := 2, homeId := "A", awayId := "B",
             homeScore := some 1, awayScore := some 0 }]
        knockoutRounds := [] }).participants.map (fun p => (p.id, p.gf)) =
      [("A", some (Number.fin (2 ^ 53))), ("B", 0)] ∧
    ((countedFor "A"
      [{ id := "m1", round := 1, homeId := "A", awayId := "B",
         homeScore := some (Number.fin (2 ^ 53)), awayScore := some 0 },
       { id := "m2", round := 2, homeId := "A", awayId := "B",
         homeScore := some 1, awayScore := some 0 }]).map (ownScore "A")).sum = 2 ^ 53 + 1 := by
  decide

/-! ## Recomputation from scratch -/

theorem map_resetStats_modifyAt (f : Participant → Participant) (i : Nat)
    (ps : List Participant) (hf : ∀ p, resetStats (f p) = resetStats p) :
    (modifyAt f i ps).map resetStats = ps.map resetStats := by
  induction ps generalizing i with
  | nil => simp [modifyAt]
  | cons p ps ih =>
    cases i with
    | zero => simp [modifyAt, hf]
    | succ i => simp [modifyAt, ih]

theorem map_resetStats_applyResult (ps : List Participant) (m : LeagueMatch) :
    (applyResult ps m).map resetStats = ps.map resetStats := by
  unfold applyResult
  split
  · split
    · simp only
      split_ifs
      all_goals
        repeat rw [map_resetStats_modifyAt]
      all_goals
        intro p
        rfl
    · rfl
  · rfl

theorem map_resetStats_foldl (ms : List LeagueMatch) (ps : List Participant) :
    (ms.foldl applyResult ps).map resetStats = ps.map resetStats := by
  induction ms generalizing ps with
  | nil => rfl
  | cons m ms ih => rw [List.foldl_cons, ih, map_resetStats_applyResult]

theorem map_resetStats_idem (ps : List Participant) :
    (ps.map resetStats).map resetStats = ps.map resetStats := by
  rw [List.map_map]
  rfl

/-- C10. `recalculateStandings` is idempotent and ignores the stats stored before: for every
state, running it twice gives the same state as running it once, and two states with the same
league matches whose participant lists agree in ids and names (in order), whatever their
stats, get identical participant lists. -/
theorem recalculateStandings_idempotent :
    (∀ s : State, recalculateStandings (recalculateStandings s) = recalculateStandings s) ∧
    (∀ s1 s2 : State, s1.leagueMatches = s2.leagueMatches →
      s1.participants.map (fun p => (p.id, p.name)) =
        s2.participants.map (fun p => (p.id, p.name)) →
      (recalculateStandings s1).participants = (recalculateStandings s2).participants) := by
  constructor
  · intro s
    unfold recalculateStandings
    simp only [map_resetStats_foldl, map_resetStats_idem]
  · intro s1 s2 hm hp
    have hreset : s1.participants.map resetStats = s2.participants.map resetStats :=
      (map_resetStats_eq _).trans ((congrArg _ hp).trans (map_resetStats_eq _).symm)
    unfold recalculateStandings
    simp only [hm, hreset]

/-- Witness for C10: stale stats on A and B, one played match. -/
theorem recalculateStandings_idempotent_witness :
    (recalculateStandings
      { participants := [{ mkParticipant "A" with pts := 7, gf := 9, gd := some (-4) },
          { mkParticipant "B" with w := 2 }]
        leagueMatches := [{ id := "m", round := 1, homeId := "A", awayId := "B",
                            homeScore := some 1, awayScore := some 3 }]
        knockoutRounds := [] }).participants =
    (recalculateStandings
      { participants := [mkParticipant "A", mkParticipant "B"]
        leagueMatches := [{ id := "m", round := 1, homeId := "A", awayId := "B",
                            homeScore := some 1, awayScore := some 3 }]
        knockoutRounds := [] }).participants :=
  recalculateStandings_idempotent.2 _ _ rfl (by decide)
/-! ## Ranking -/

theorem strictNe_fin (x y : Int) :
    strictNe (some (Number.fin x)) (some (Number.fin y)) = true ↔ x ≠ y := by
  simp [strictNe]

/-- On integer stats the comparator of the sort orders by the key. -/
theorem rankCompare_iff (a b : Participant) (ha : IntegerStats a) (hb : IntegerStats b) :
    ¬ (0 < rankCompare a b) ↔ keyGe a b := by
  obtain ⟨a1, _, _, _, a5, _, a7⟩ := ha
  obtain ⟨b1, _, _, _, b5, _, b7⟩ := hb
  obtain ⟨pa, hpa⟩ := (isInteger_iff _).mp a1
  obtain ⟨fa, hfa⟩ := (isInteger_iff _).mp a5
  obtain ⟨da, hda⟩ := (isInteger_iff _).mp a7
  obtain ⟨pb, hpb⟩ := (isInteger_iff _).mp b1
  obtain ⟨fb, hfb⟩ := (isInteger_iff _).mp b5
  obtain ⟨db, hdb⟩ := (isInteger_iff _).mp b7
  unfold rankCompare keyGe
  rw [hpa, hfa, hda, hpb, hfb, hdb]
  simp only [toNumber_some, intValue]
  by_cases h1 : pb ≠ pa
  · rw [if_pos ((strictNe_fin _ _).mpr h1), zero_lt_sub_fin]
    omega
  · rw [if_neg (fun c => h1 ((strictNe_fin _ _).mp c))]
    by_cases h2 : db ≠ da
    · rw [if_pos ((strictNe_fin _ _).mpr h2), zero_lt_sub_fin]
      omega
    · rw [if_neg (fun c => h2 ((strictNe_fin _ _).mp c)), zero_lt_sub_fin]
      omega

theorem orderedInsert_congr {α : Type} (r r' : α → α → Prop) [DecidableRel r] [DecidableRel r']
    (a : α) (t : List α) (h : ∀ b ∈ t, (r a b ↔ r' a b)) :
    List.orderedInsert r a t = List.orderedInsert r' a t := by
  induction t with
  | nil => rfl
  | cons b t ih =>
    have hb := h b (List.mem_cons_self b t)
    by_cases c : r a b
    · simp only [List.orderedInsert, c, hb.mp c, if_true]
    · have c' : ¬ r' a b := fun e => c (hb.mpr e)
      simp only [List.orderedInsert, c, c', if_false]
      rw [ih (fun b' hb' => h b' (List.mem_cons_of_mem b hb'))]

theorem insertionSort_congr {α : Type} (r r' : α → α → Prop) [DecidableRel r] [DecidableRel r']
    (l : List α) (h : ∀ a ∈ l, ∀ b ∈ l, (r a b ↔ r' a b)) :
    List.insertionSort r l = List.insertionSort r' l := by
  induction l with
  | nil => rfl
  | cons a l ih =>
    rw [List.insertionSort, List.insertionSort,
      ih (fun x hx y hy => h x (List.mem_cons_of_mem a hx) y (List.mem_cons_of_mem a hy))]
    apply orderedInsert_congr
    intro b hb
    exact h a (List.mem_cons_self a l) b
      (List.mem_cons_of_mem a ((List.perm_insertionSort r' l).mem_iff.mp hb))

theorem sortRanking_perm (ps : List Participant) : (sortRanking ps).Perm ps :=
  List.perm_insertionSort _ ps

/-- On integer stats the ranking is the stable sort by the key. -/
theorem sortRanking_eq (ps : List Participant) (hint : ∀ p ∈ ps, IntegerStats p) :
    sortRanking ps = ps.insertionSort keyGe :=
  insertionSort_congr _ _ ps (fun a ha b hb => rankCompare_iff a b (hint a ha) (hint b hb))

theorem sortRanking_sorted (ps : List Participant) (hint : ∀ p ∈ ps, IntegerStats p) :
    List.Pairwise keyGe (sortRanking ps) := by
  haveI : IsTotal Participant keyGe :=
    ⟨fun a b => by
      unfold keyGe
      omega⟩
  haveI : IsTrans Participant keyGe :=
    ⟨fun a b c => by
      unfold keyGe
      omega⟩
  rw [sortRanking_eq ps hint]
  exact List.sorted_insertionSort keyGe ps

theorem key_ne_of_not_keyGe (a b : Participant) (h : ¬ keyGe a b) : rankKey a ≠ rankKey b := by
  intro e
  apply h
  unfold rankKey at e
  simp only [Prod.mk.injEq] at e
  unfold keyGe
  omega

theorem filter_key_orderedInsert (k : Int × Int × Int) (a : Participant)
    (l : List Participant) :
    (List.orderedInsert keyGe a l).filter (fun p => rankKey p = k) =
      (a :: l).filter (fun p => rankKey p = k) := by
  induction l with
  | nil => rfl
  | cons b l ih =>
    by_cases h : keyGe a b
    · simp only [List.orderedInsert, h, if_true]
    · have hne := key_ne_of_not_keyGe a b h
      simp only [List.orderedInsert, h, if_false]
      rw [List.filter_cons, ih]
      by_cases hb : rankKey b = k
      · have ha : ¬ rankKey a = k := fun e => hne (e.trans hb.symm)
        simp [List.filter_cons, hb, ha]
      · simp [List.filter_cons, hb]

theorem filter_key_sortRanking (k : Int × Int × Int) (ps : List Participant)
    (hint : ∀ p ∈ ps, IntegerStats p) :
    (sortRanking ps).filter (fun p => rankKey p = k) = ps.filter (fun p => rankKey p = k) := by
  rw [sortRanking_eq ps hint]
  clear hint
  induction ps with
  | nil => rfl
  | cons a l ih =>
    rw [List.insertionSort, filter_key_orderedInsert, List.filter_cons, ih, List.filter_cons]

/-- C11. For every participant list with integer stats, the ranking used for the standings
table and for knockout qualification is a permutation of the participant list in which every
earlier entry has a key (pts, gd, gf) lexicographically greater than or equal to that of every
later entry, and in which the participants sharing a key keep the relative order they have in
the participant list.  For A with 6 points and goal difference 3 and B with 6 points and goal
difference 5, B ranks above A. -/
theorem sortRanking_spec :
    (∀ ps : List Participant, (∀ p ∈ ps, IntegerStats p) →
      (sortRanking ps).Perm ps ∧ List.Pairwise keyGe (sortRanking ps) ∧
      ∀ k : Int × Int × Int,
        (sortRanking ps).filter (fun p => rankKey p = k) =
          ps.filter (fun p => rankKey p = k)) ∧
    (sortRanking [{ mkParticipant "A" with pts := 6, gd := 3 },
        { mkParticipant "B" with pts := 6, gd := 5 }]).map (fun p => p.id) = ["B", "A"] :=
  ⟨fun ps hint => ⟨sortRanking_perm ps, sortRanking_sorted ps hint,
    fun k => filter_key_sortRanking k ps hint⟩, by decide⟩

/-- Witness for C11: A with 6 points and goal difference 3, B with 6 points and goal
difference 5, C with 7 points; the ranking is sorted by the key. -/
theorem sortRanking_spec_witness :
    (∀ p ∈ [{ mkParticipant "A" with pts := 6, gd := 3 },
        { mkParticipant "B" with pts := 6, gd := 5 },
        { mkParticipant "C" with pts := 7 }], IntegerStats p) ∧
    List.Pairwise keyGe
      (sortRanking [{ mkParticipant "A" with pts := 6, gd := 3 },
        { mkParticipant "B" with pts := 6, gd := 5 },
        { mkParticipant "C" with pts := 7 }]) ∧
    (sortRanking [{ mkParticipant "A" with pts := 6, gd := 3 },
        { mkParticipant "B" with pts := 6, gd := 5 },
        { mkParticipant "C" with pts := 7 }]).map (fun p => p.id) = ["C", "B", "A"] :=
  ⟨by decide,
    (sortRanking_spec.1 [{ mkParticipant "A" with pts := 6, gd := 3 },
        { mkParticipant "B" with pts := 6, gd := 5 },
        { mkParticipant "C" with pts := 7 }] (by decide)).2.1,
    by decide⟩

/-! ## The bracket built by `generateKnockout` -/

theorem bracketSize_spec (n : Nat) (h : 2 ≤ n) :
    ∃ size, bracketSize n = some size ∧ IsBracketSize n size := by
  unfold bracketSize IsBracketSize
  split_ifs
  · exact ⟨16, rfl, by simp, by omega, by intro t ht; simp at ht; omega⟩
  · exact ⟨8, rfl, by simp, by omega, by intro t ht; simp at ht; omega⟩
  · exact ⟨4, rfl, by simp, by omega, by intro t ht; simp at ht; omega⟩
  · exact ⟨2, rfl, by simp, by omega, by intro t ht; simp at ht; omega⟩

theorem isBracketSize_unique (n a b : Nat) (ha : IsBracketSize n a) (hb : IsBracketSize n b) :
    a = b :=
  Nat.le_antisymm (hb.2.2 a ha.1 ha.2.1) (ha.2.2 b hb.1 hb.2.1)

theorem generateKnockout_ok (genId : Nat → Nat → String) (s : State) (size : Nat)
    (h : bracketSize s.participants.length = some size) :
    generateKnockout genId s =
      ({ s with
          knockoutRounds :=
            buildRounds genId size (size / 2)
              [firstRound genId ((sortRanking s.participants).take size) (pairings size)] },
        none) := by
  unfold generateKnockout
  simp only [length_sortRanking, h]

theorem buildRounds_two (genId : Nat → Nat → String) (r1 : List KnockoutMatch) :
    buildRounds genId 2 (2 / 2) [r1] = [r1] := rfl

theorem buildRounds_four (genId : Nat → Nat → String) (r1 : List KnockoutMatch) :
    buildRounds genId 4 (4 / 2) [r1] = [r1, emptyRound genId 1 1] := rfl

theorem buildRounds_eight (genId : Nat → Nat → String) (r1 : List KnockoutMatch) :
    buildRounds genId 8 (8 / 2) [r1] = [r1, emptyRound genId 1 2, emptyRound genId 2 1] := rfl

theorem buildRounds_sixteen (genId : Nat → Nat → String) (r1 : List KnockoutMatch) :
    buildRounds genId 16 (16 / 2) [r1] =
      [r1, emptyRound genId 1 4, emptyRound genId 2 2, emptyRound genId 3 1] := rfl

theorem length_firstRound (genId : Nat → Nat → String) (q : List Participant)
    (prs : List (Nat × Nat)) : (firstRound genId q prs).length = prs.length := by
  unfold firstRound
  exact List.length_mapIdx

theorem getElem?_firstRound (genId : Nat → Nat → String) (q : List Participant)
    (prs : List (Nat × Nat)) (j : Nat) :
    (firstRound genId q prs)[j]? = prs[j]?.map (fun p =>
      { matchId := genId 0 j
        homeId := q[p.1]?.map (fun x => x.id)
        awayId := q[p.2]?.map (fun x => x.id)
        winnerId := none
        nextMatchId := some none }) := by
  unfold firstRound
  exact List.getElem?_mapIdx

theorem pairings_eq_seedTable (size : Nat) (h : size ∈ [2, 4, 8, 16]) :
    pairings size = seedTable size := by
  simp only [List.mem_cons, List.mem_singleton, List.not_mem_nil, or_false] at h
  rcases h with rfl | rfl | rfl | rfl <;> rfl

theorem pairings_lt (size : Nat) (h : size ∈ [2, 4, 8, 16]) :
    ∀ p ∈ pairings size, p.1 < size ∧ p.2 < size := by
  simp only [List.mem_cons, List.mem_singleton, List.not_mem_nil, or_false] at h
  rcases h with rfl | rfl | rfl | rfl <;> decide

theorem pairings_flat_perm (size : Nat) (h : size ∈ [2, 4, 8, 16]) :
    ((pairings size).flatMap (fun p => [p.1, p.2])).Perm (List.range size) := by
  simp only [List.mem_cons, List.mem_singleton, List.not_mem_nil, or_false] at h
  rcases h with rfl | rfl | rfl | rfl <;> decide

theorem length_pairings (size : Nat) (h : size ∈ [2, 4, 8, 16]) :
    (pairings size).length = size / 2 := by
  simp only [List.mem_cons, List.mem_singleton, List.not_mem_nil, or_false] at h
  rcases h with rfl | rfl | rfl | rfl <;> rfl

theorem firstRound_slots (genId : Nat → Nat → String) (q : List Participant)
    (prs : List (Nat × Nat)) :
    (firstRound genId q prs).flatMap (fun m => [m.homeId, m.awayId]) =
      (prs.flatMap (fun p => [p.1, p.2])).map (fun i => q[i]?.map (fun x => x.id)) := by
  have h1 : (firstRound genId q prs).map (fun m => [m.homeId, m.awayId]) =
      prs.map (fun p => [q[p.1]?.map (fun x => x.id), q[p.2]?.map (fun x => x.id)]) := by
    apply List.ext_getElem?
    intro j
    rw [List.getElem?_map, getElem?_firstRound, List.getElem?_map]
    cases prs[j]? <;> rfl
  rw [List.flatMap_def, h1, List.flatMap_def, List.map_flatten, List.map_map]
  rfl

/-- C12. With n ≥ 2 participants and q their ranking, the bracket size s is the largest
element of {2, 4, 8, 16} that is at most n, the first round of `generateKnockout` has s / 2
matches, and match j has the id of q[h_j] as home id, the id of q[a_j] as away id and no
winner, (h_j, a_j) being entry j of the seeding table for s.  The home and away slots of the
first round hold the ids of the top s ranked participants, each once, and nothing else.  With
five participants the bracket is rank 1 against rank 4 and rank 2 against rank 3. -/
theorem generateKnockout_first_round :
    (∀ (genId : Nat → Nat → String) (s : State), 2 ≤ s.participants.length →
      ∃ (size : Nat) (round1 : List KnockoutMatch),
        IsBracketSize s.participants.length size ∧
        (generateKnockout genId s).1.knockoutRounds[0]? = some round1 ∧
        round1.length = size / 2 ∧
        (∀ j h a : Nat, (seedTable size)[j]? = some (h, a) →
          ∃ (qh qa : Participant) (mt : KnockoutMatch), (sortRanking s.participants)[h]? = some qh ∧
            (sortRanking s.participants)[a]? = some qa ∧ round1[j]? = some mt ∧
            mt.homeId = some qh.id ∧ mt.awayId = some qa.id ∧ mt.winnerId = none) ∧
        (round1.flatMap (fun m => [m.homeId, m.awayId])).Perm
          (((sortRanking s.participants).take size).map (fun p => some p.id))) ∧
    ((generateKnockout (fun _ _ => "")
        { participants := [{ mkParticipant "E" with pts := 1 }, { mkParticipant "D" with pts := 4 },
            { mkParticipant "C" with pts := 6 }, { mkParticipant "B" with pts := 7 },
            { mkParticipant "A" with pts := 9 }]
          leagueMatches := []
          knockoutRounds := [] }).1.knockoutRounds[0]?).map
        (fun r => r.map (fun m => (m.homeId, m.awayId, m.winnerId))) =
      some [(some "A", some "D", none), (some "B", some "C", none)] := by
  refine ⟨?_, by decide⟩
  intro genId s h2
  obtain ⟨size, hb, hs⟩ := bracketSize_spec _ h2
  have hq : ((sortRanking s.participants).take size).length = size := by
    rw [List.length_take, length_sortRanking]
    exact Nat.min_eq_left hs.2.1
  have hget : ∀ i, i < size →
      ((sortRanking s.participants).take size)[i]? = (sortRanking s.participants)[i]? :=
    fun i hi => by rw [List.getElem?_take, if_pos hi]
  have hrounds : (generateKnockout genId s).1.knockoutRounds[0]? =
      some (firstRound genId ((sortRanking s.participants).take size) (pairings size)) := by
    rw [generateKnockout_ok genId s size hb]
    have hmem := hs.1
    simp only [List.mem_cons, List.mem_singleton, List.not_mem_nil, or_false] at hmem
    rcases hmem with rfl | rfl | rfl | rfl
    · rw [buildRounds_two]; rfl
    · rw [buildRounds_four]; rfl
    · rw [buildRounds_eight]; rfl
    · rw [buildRounds_sixteen]; rfl
  refine ⟨size, _, hs, hrounds, ?_, ?_, ?_⟩
  · rw [length_firstRound, length_pairings size hs.1]
  · intro j h a hj
    rw [← pairings_eq_seedTable size hs.1] at hj
    obtain ⟨hh, ha⟩ := pairings_lt size hs.1 (h, a) (List.getElem?_mem hj)
    simp only at hh ha
    have hlen : size ≤ (sortRanking s.participants).length := by
      rw [length_sortRanking]; exact hs.2.1
    have e1 : ((sortRanking s.participants).take size)[h]? =
        some (sortRanking s.participants)[h] := by
      rw [hget h hh, List.getElem?_eq_getElem]
    have e2 : ((sortRanking s.participants).take size)[a]? =
        some (sortRanking s.participants)[a] := by
      rw [hget a ha, List.getElem?_eq_getElem]
    refine ⟨(sortRanking s.participants)[h], (sortRanking s.participants)[a],
      { matchId := genId 0 j
        homeId := some (sortRanking s.participants)[h].id
        awayId := some (sortRanking s.participants)[a].id
        winnerId := none
        nextMatchId := some none },
      List.getElem?_eq_getElem (by omega), List.getElem?_eq_getElem (by omega), ?_, rfl, rfl,
      rfl⟩
    rw [getElem?_firstRound, hj]
    simp only [Option.map_some', e1, e2]
  · rw [firstRound_slots]
    refine ((pairings_flat_perm size hs.1).map _).trans ?_
    apply List.Perm.of_eq
    apply List.ext_getElem?
    intro i
    simp only [List.getElem?_map, List.getElem?_range]
    by_cases hi : i < size
    · rw [List.getElem?_range hi]
      have hi2 : i < ((sortRanking s.participants).take size).length := by
        rw [hq]; exact hi
      simp only [Option.map_some', List.getElem?_eq_getElem hi2]
    · rw [List.getElem?_eq_none (by rw [List.length_range]; omega),
        List.getElem?_eq_none (by rw [hq]; omega)]
      rfl

/-- Witness for C12: five participants ranked A, B, C, D, E; the bracket size is 4 and the
first round has two matches. -/
theorem generateKnockout_first_round_witness :
    2 ≤ (stateOf ["A", "B", "C", "D", "E"]).participants.length ∧
    ∃ (size : Nat) (round1 : List KnockoutMatch),
      IsBracketSize (stateOf ["A", "B", "C", "D", "E"]).participants.length size ∧
      (generateKnockout (fun _ _ => "")
        (stateOf ["A", "B", "C", "D", "E"])).1.knockoutRounds[0]? = some round1 ∧
      round1.length = size / 2 := by
  refine ⟨by decide, ?_⟩
  obtain ⟨size, round1, h1, h2, h3, _⟩ :=
    generateKnockout_first_round.1 (fun _ _ => "") (stateOf ["A", "B", "C", "D", "E"])
      (by decide)
  exact ⟨size, round1, h1, h2, h3⟩

theorem mem_emptyRound (genId : Nat → Nat → String) (k n : Nat) (mt : KnockoutMatch)
    (h : mt ∈ emptyRound genId k n) :
    mt.homeId = none ∧ mt.awayId = none ∧ mt.winnerId = none := by
  unfold emptyRound at h
  simp only [List.mem_map] at h
  obtain ⟨i, _, rfl⟩ := h
  exact ⟨rfl, rfl, rfl⟩

theorem length_emptyRound (genId : Nat → Nat → String) (k n : Nat) :
    (emptyRound genId k n).length = n := by
  unfold emptyRound
  rw [List.length_map, List.length_range]

theorem winner_of_mem_firstRound (genId : Nat → Nat → String) (q : List Participant)
    (prs : List (Nat × Nat)) (mt : KnockoutMatch) (h : mt ∈ firstRound genId q prs) :
    mt.winnerId = none := by
  obtain ⟨j, hj⟩ := List.mem_iff_getElem?.mp h
  rw [getElem?_firstRound] at hj
  cases hp : prs[j]? with
  | none => simp [hp] at hj
  | some p =>
    simp only [hp, Option.map_some', Option.some.injEq] at hj
    rw [← hj]

/-- C14. With n ≥ 2 participants and bracket size s, whatever bracket the state held,
`generateKnockout` yields exactly log2(s) rounds (2 to the number of rounds is s); round k has
s / 2^(k+1) matches, so every round has twice the matches of the next one and the last round
has one match; every match after the first round has home, away and winner unset, and every
first-round match has the winner unset.  The bracket depends on the participants only. -/
theorem generateKnockout_rounds (genId : Nat → Nat → String) (s : State)
    (h2 : 2 ≤ s.participants.length) :
    ∃ size : Nat, IsBracketSize s.participants.length size ∧
      2 ^ (generateKnockout genId s).1.knockoutRounds.length = size ∧
      (∀ (k : Nat) (round : List KnockoutMatch),
        (generateKnockout genId s).1.knockoutRounds[k]? = some round →
        round.length = size / 2 ^ (k + 1)) ∧
      (∀ (k : Nat) (r1 r2 : List KnockoutMatch),
        (generateKnockout genId s).1.knockoutRounds[k]? = some r1 →
        (generateKnockout genId s).1.knockoutRounds[k + 1]? = some r2 →
        r1.length = 2 * r2.length) ∧
      (∃ final : List KnockoutMatch,
        (generateKnockout genId s).1.knockoutRounds.getLast? = some final ∧ final.length = 1) ∧
      (∀ (k : Nat) (round : List KnockoutMatch) (mt : KnockoutMatch), 1 ≤ k →
        (generateKnockout genId s).1.knockoutRounds[k]? = some round → mt ∈ round →
        mt.homeId = none ∧ mt.awayId = none ∧ mt.winnerId = none) ∧
      (∀ (round : List KnockoutMatch) (mt : KnockoutMatch),
        (generateKnockout genId s).1.knockoutRounds[0]? = some round → mt ∈ round →
        mt.winnerId = none) ∧
      (∀ s2 : State, s2.participants = s.participants →
        (generateKnockout genId s2).1.knockoutRounds =
          (generateKnockout genId s).1.knockoutRounds) := by
  obtain ⟨size, hb, hs⟩ := bracketSize_spec _ h2
  refine ⟨size, hs, ?_⟩
  have hind : ∀ s2 : State, s2.participants = s.participants →
      (generateKnockout genId s2).1.knockoutRounds =
        (generateKnockout genId s).1.knockoutRounds := by
    intro s2 e
    rw [generateKnockout_ok genId s size hb, generateKnockout_ok genId s2 size (by rw [e]; exact hb),
      e]
  rw [generateKnockout_ok genId s size hb]
  have hmem := hs.1
  have hlen1 := length_firstRound genId ((sortRanking s.participants).take size) (pairings size)
  have hw := winner_of_mem_firstRound genId ((sortRanking s.participants).take size)
    (pairings size)
  simp only [List.mem_cons, List.mem_singleton, List.not_mem_nil, or_false] at hmem
  rcases hmem with rfl | rfl | rfl | rfl
  all_goals
    rw [length_pairings _ (by simp)] at hlen1
    have hthis := hind
    rw [generateKnockout_ok genId s _ hb] at hthis
    simp only [buildRounds_two, buildRounds_four, buildRounds_eight, buildRounds_sixteen]
      at hthis ⊢
    refine ⟨rfl, ?_, ?_, ⟨_, rfl, ?_⟩, ?_, ?_, hthis⟩
    · intro k round hk
      rcases k with _ | _ | _ | _ | k <;> simp at hk <;> subst hk <;>
        first
          | (rw [hlen1]; rfl)
          | (rw [length_emptyRound]; rfl)
    · intro k r1 r2 hk1 hk2
      rcases k with _ | _ | _ | _ | k <;> simp at hk1 hk2 <;> subst hk1 <;> subst hk2 <;>
        first
          | (rw [hlen1, length_emptyRound])
          | (rw [length_emptyRound, length_emptyRound])
    · first
        | exact hlen1
        | exact length_emptyRound _ _ _
    · intro k round mt h1 hk hm
      rcases k with _ | _ | _ | _ | k <;> simp at hk <;> first | omega | skip
      all_goals
        subst hk
        exact mem_emptyRound _ _ _ _ hm
    · intro round mt hk hm
      simp at hk
      subst hk
      exact hw mt hm

/-- Witness for C14: nine participants give bracket size 8 and rounds of 4, 2 and 1 matches,
also when the state already held a bracket with a recorded winner. -/
theorem generateKnockout_rounds_witness :
    2 ≤ ({ stateOf ["A", "B", "C", "D", "E", "F", "G", "H", "I"] with
            knockoutRounds := [[{ matchId := "old", homeId := some "A", awayId := some "B",
                                  winnerId := some "A", nextMatchId := some none }]] } :
          State).participants.length ∧
    (∃ size : Nat, IsBracketSize 9 size ∧
      2 ^ (generateKnockout (fun _ _ => "")
        { stateOf ["A", "B", "C", "D", "E", "F", "G", "H", "I"] with
          knockoutRounds := [[{ matchId := "old", homeId := some "A", awayId := some "B",
                                winnerId := some "A", nextMatchId := some none }]] }).1.knockoutRounds.length
        = size) ∧
    (generateKnockout (fun _ _ => "")
        { stateOf ["A", "B", "C", "D", "E", "F", "G", "H", "I"] with
          knockoutRounds := [[{ matchId := "old", homeId := some "A", awayId := some "B",
                                winnerId := some "A", nextMatchId := some none }]] }).1.knockoutRounds.map
      (fun r => r.map (fun m => (m.homeId, m.awayId, m.winnerId))) =
      [[(some "A", some "H", none), (some "D", some "E", none), (some "C", some "F", none),
        (some "B", some "G", none)],
       [(none, none, none), (none, none, none)], [(none, none, none)]] := by
  refine ⟨by decide, ?_, by decide⟩
  obtain ⟨size, h1, h2, _⟩ := generateKnockout_rounds (fun _ _ => "")
    { stateOf ["A", "B", "C", "D", "E", "F", "G", "H", "I"] with
      knockoutRounds := [[{ matchId := "old", homeId := some "A", awayId := some "B",
                            winnerId := some "A", nextMatchId := some none }]] } (by decide)
  exact ⟨size, h1, h2⟩

/-! ## Bracket progression -/

theorem getElem?_updateAt {α : Type} (f : α → α) (i : Nat) (l : List α) (j : Nat) :
    (updateAt f i l)[j]? = if j = i then l[j]?.map f else l[j]? := by
  induction l generalizing i j with
  | nil => simp [updateAt]
  | cons x xs ih =>
    cases i with
    | zero =>
      cases j with
      | zero => simp [updateAt]
      | succ j => simp [updateAt]
    | succ i =>
      cases j with
      | zero => simp [updateAt]
      | succ j => simp [updateAt, ih]

theorem length_updateAt {α : Type} (f : α → α) (i : Nat) (l : List α) :
    (updateAt f i l).length = l.length := by
  induction l generalizing i with
  | nil => simp [updateAt]
  | cons x xs ih =>
    cases i with
    | zero => simp [updateAt]
    | succ i => simp [updateAt, ih]

theorem length_updateMatch (f : KnockoutMatch → KnockoutMatch) (r m : Nat)
    (rounds : List (List KnockoutMatch)) : (updateMatch f r m rounds).length = rounds.length :=
  length_updateAt _ _ _

theorem map_length_updateMatch (f : KnockoutMatch → KnockoutMatch) (r m : Nat)
    (rounds : List (List KnockoutMatch)) :
    (updateMatch f r m rounds).map List.length = rounds.map List.length := by
  apply List.ext_getElem?
  intro k
  unfold updateMatch
  rw [List.getElem?_map, List.getElem?_map, getElem?_updateAt]
  split_ifs
  · cases rounds[k]? with
    | none => rfl
    | some round => simp [length_updateAt]
  · rfl

theorem matchAt_updateMatch (f : KnockoutMatch → KnockoutMatch) (r m : Nat)
    (rounds : List (List KnockoutMatch)) (k j : Nat) :
    matchAt (updateMatch f r m rounds) k j =
      if k = r ∧ j = m then (matchAt rounds k j).map f else matchAt rounds k j := by
  unfold matchAt updateMatch
  rw [getElem?_updateAt]
  by_cases hk : k = r
  · subst hk
    cases rounds[k]? with
    | none => simp
    | some round =>
      simp only [if_true, Option.map_some', getElem?_updateAt, true_and]
  · simp [hk]

/-- Every match of the bracket after `advanceWinner`, in terms of the bracket before. -/
theorem matchAt_advanceWinner (r m : Nat) (w : String) (s : State) (k j : Nat) :
    matchAt (advanceWinner r m w s).1.knockoutRounds k j =
      if matchAt s.knockoutRounds r m = none then matchAt s.knockoutRounds k j
      else if k = r ∧ j = m then
        (matchAt s.knockoutRounds k j).map (fun mt => { mt with winnerId := some w })
      else if k = r + 1 ∧ j = m / 2 then (matchAt s.knockoutRounds k j).map (feedSlot m w)
      else matchAt s.knockoutRounds k j := by
  have hne : ∀ x : Nat, ¬ (x + 1 = x ∧ m / 2 = m) := fun x h => by omega
  unfold advanceWinner
  cases h0 : matchAt s.knockoutRounds r m with
  | none => simp
  | some mt =>
    simp only [length_updateMatch, matchAt_updateMatch, hne, if_false]
    by_cases hlen : r + 1 < s.knockoutRounds.length
    · simp only [hlen, if_true]
      cases h1 : matchAt s.knockoutRounds (r + 1) (m / 2) with
      | none =>
        simp only [matchAt_updateMatch]
        by_cases c1 : k = r ∧ j = m
        · simp [c1]
        · by_cases c2 : k = r + 1 ∧ j = m / 2
          · simp [c2, h1]
          · simp [c1, c2]
      | some nm =>
        simp only
        by_cases c1 : k = r ∧ j = m
        · have c2 : ¬ (k = r + 1 ∧ j = m / 2) := by omega
          by_cases hpar : m % 2 = 0 <;> simp [matchAt_updateMatch, c1, c2, hpar]
        · by_cases c2 : k = r + 1 ∧ j = m / 2
          · have c3 : ¬ (r + 1 = r ∧ m / 2 = m) := by omega
            by_cases hpar : m % 2 = 0
            · simp only [hpar, if_true, matchAt_updateMatch, c2, c3, if_false, and_self,
                feedSlot, h1, Option.map_some', reduceCtorEq]
            · simp only [hpar, if_false, matchAt_updateMatch, c2, c3, and_self, if_true,
                feedSlot, h1, Option.map_some', reduceCtorEq]
          · by_cases hpar : m % 2 = 0 <;> simp [matchAt_updateMatch, c1, c2, hpar]
    · simp only [hlen, if_false, matchAt_updateMatch]
      by_cases c1 : k = r ∧ j = m
      · simp [c1]
      · by_cases c2 : k = r + 1 ∧ j = m / 2
        · have : matchAt s.knockoutRounds (r + 1) (m / 2) = none := by
            unfold matchAt
            rw [List.getElem?_eq_none (by omega)]
          obtain ⟨rfl, rfl⟩ := c2
          simp [c1, this]
        · simp [c1, c2]

theorem advanceWinner_frame (r m : Nat) (w : String) (s : State) :
    (advanceWinner r m w s).1.participants = s.participants ∧
    (advanceWinner r m w s).1.leagueMatches = s.leagueMatches ∧
    (advanceWinner r m w s).1.knockoutRounds.map List.length =
      s.knockoutRounds.map List.length := by
  unfold advanceWinner
  cases matchAt s.knockoutRounds r m with
  | none => exact ⟨rfl, rfl, rfl⟩
  | some mt =>
    simp only
    split_ifs
    · cases matchAt (updateMatch (fun mt => { mt with winnerId := some w }) r m s.knockoutRounds)
          (r + 1) (m / 2) with
      | none => exact ⟨rfl, rfl, map_length_updateMatch _ _ _ _⟩
      | some nm =>
        refine ⟨rfl, rfl, ?_⟩
        simp only [map_length_updateMatch]
    · cases matchAt (updateMatch (fun mt => { mt with winnerId := some w }) r m s.knockoutRounds)
          (r + 1) (m / 2) with
      | none => exact ⟨rfl, rfl, map_length_updateMatch _ _ _ _⟩
      | some nm =>
        refine ⟨rfl, rfl, ?_⟩
        simp only [map_length_updateMatch]
    · exact ⟨rfl, rfl, map_length_updateMatch _ _ _ _⟩

theorem advanceWinner_length (r m : Nat) (w : String) (s : State) :
    (advanceWinner r m w s).1.knockoutRounds.length = s.knockoutRounds.length := by
  have := congrArg List.length (advanceWinner_frame r m w s).2.2
  simpa using this

theorem matchAt_lt (rounds : List (List KnockoutMatch)) (r m : Nat) (mt : KnockoutMatch)
    (h : matchAt rounds r m = some mt) :
    ∃ round, rounds[r]? = some round ∧ round[m]? = some mt ∧ r < rounds.length ∧
      m < round.length := by
  unfold matchAt at h
  cases hr : rounds[r]? with
  | none => simp [hr] at h
  | some round =>
    simp only [hr] at h
    exact ⟨round, rfl, h, (List.getElem?_eq_some_iff.mp hr).1,
      (List.getElem?_eq_some_iff.mp h).1⟩

theorem destination_exists (rounds : List (List KnockoutMatch)) (hw : Halving rounds)
    (r m : Nat) (mt : KnockoutMatch) (h : matchAt rounds r m = some mt)
    (hlen : r + 1 < rounds.length) : ∃ nm, matchAt rounds (r + 1) (m / 2) = some nm := by
  obtain ⟨round, h1, _, h3, h4⟩ := matchAt_lt rounds r m mt h
  have h5 := hw r (by omega)
  rw [List.getD_eq_getElem?_getD, List.getD_eq_getElem?_getD, h1,
    List.getElem?_eq_getElem hlen] at h5
  simp only [Option.getD_some] at h5
  have h6 : m / 2 < rounds[r + 1].length := by omega
  exact ⟨rounds[r + 1][m / 2], by
    unfold matchAt
    rw [List.getElem?_eq_getElem hlen]
    exact List.getElem?_eq_getElem h6⟩

theorem advanceWinner_completes (r m : Nat) (w : String) (s : State) (mt : KnockoutMatch)
    (h : matchAt s.knockoutRounds r m = some mt)
    (hd : r + 1 < s.knockoutRounds.length →
      ∃ nm, matchAt s.knockoutRounds (r + 1) (m / 2) = some nm) :
    (advanceWinner r m w s).2 = false := by
  have hne : ¬ (r + 1 = r ∧ m / 2 = m) := by omega
  unfold advanceWinner
  simp only [h, length_updateMatch, matchAt_updateMatch, hne, if_false]
  split_ifs with hlen
  · obtain ⟨nm, hnm⟩ := hd hlen
    simp only [hnm]
  · obtain ⟨nm, hnm⟩ := hd hlen
    simp only [hnm]
  · rfl

/-- C15. In a bracket in which every round has twice the matches of the next one, for in-range
indices r, m and any winner id w: after `advanceWinner(r, m, w)` the match (r, m) has winner w;
if r is not the last round, the destination match at index floor(m / 2) of round r + 1 exists,
its home slot is w when m is even, its away slot is w when m is odd, and its winner is unset
whatever it was; if r is the last round, every other match is as before, so only the winner
field of (r, m) is written. -/
theorem advanceWinner_effect (r m : Nat) (w : String) (s : State) (mt : KnockoutMatch)
    (hw : Halving s.knockoutRounds) (h : matchAt s.knockoutRounds r m = some mt) :
    (advanceWinner r m w s).2 = false ∧
    matchAt (advanceWinner r m w s).1.knockoutRounds r m =
      some { mt with winnerId := some w } ∧
    (r + 1 < s.knockoutRounds.length →
      ∃ nm nm', matchAt s.knockoutRounds (r + 1) (m / 2) = some nm ∧
        matchAt (advanceWinner r m w s).1.knockoutRounds (r + 1) (m / 2) = some nm' ∧
        (m % 2 = 0 → nm'.homeId = some w ∧ nm'.awayId = nm.awayId) ∧
        (m % 2 = 1 → nm'.awayId = some w ∧ nm'.homeId = nm.homeId) ∧
        nm'.winnerId = none) ∧
    (¬ r + 1 < s.knockoutRounds.length →
      (advanceWinner r m w s).1.knockoutRounds.map List.length =
        s.knockoutRounds.map List.length ∧
      ∀ k j, ¬ (k = r ∧ j = m) →
        matchAt (advanceWinner r m w s).1.knockoutRounds k j =
          matchAt s.knockoutRounds k j) := by
  have hsome : ¬ matchAt s.knockoutRounds r m = none := by rw [h]; simp
  refine ⟨advanceWinner_completes r m w s mt h
    (fun hlen => destination_exists _ hw r m mt h hlen), ?_, ?_, ?_⟩
  · rw [matchAt_advanceWinner, if_neg hsome, if_pos ⟨rfl, rfl⟩, h]
    rfl
  · intro hlen
    obtain ⟨nm, hnm⟩ := destination_exists _ hw r m mt h hlen
    have hne : ¬ (r + 1 = r ∧ m / 2 = m) := by omega
    refine ⟨nm, feedSlot m w nm, hnm, ?_, ?_, ?_, ?_⟩
    · rw [matchAt_advanceWinner, if_neg hsome, if_neg hne, if_pos ⟨rfl, rfl⟩, hnm]
      rfl
    · intro hpar
      simp [feedSlot, hpar]
    · intro hpar
      have : ¬ m % 2 = 0 := by omega
      simp [feedSlot, this]
    · unfold feedSlot
      split_ifs <;> rfl
  · intro hlen
    refine ⟨(advanceWinner_frame r m w s).2.2, ?_⟩
    intro k j hkj
    rw [matchAt_advanceWinner, if_neg hsome, if_neg hkj]
    split_ifs with c
    · obtain ⟨rfl, rfl⟩ := c
      have : matchAt s.knockoutRounds (r + 1) (m / 2) = none := by
        unfold matchAt
        rw [List.getElem?_eq_none (by omega)]
      rw [this]; rfl
    · rfl

/-- Witness for C15: bracket of size 4 right after seeding, winner D recorded for match 1 of
round 0; the away slot of the final becomes D. -/
theorem advanceWinner_effect_witness :
    Halving (generateKnockout (fun _ _ => "") (stateOf ["A", "B", "C", "D"])).1.knockoutRounds ∧
    matchAt (generateKnockout (fun _ _ => "") (stateOf ["A", "B", "C", "D"])).1.knockoutRounds
      0 1 = some { matchId := "", homeId := some "B", awayId := some "C", winnerId := none,
                   nextMatchId := some none } ∧
    (advanceWinner 0 1 "C"
      (generateKnockout (fun _ _ => "") (stateOf ["A", "B", "C", "D"])).1).2 = false ∧
    matchAt (advanceWinner 0 1 "C"
      (generateKnockout (fun _ _ => "") (stateOf ["A", "B", "C", "D"])).1).1.knockoutRounds 0 1 =
      some { matchId := "", homeId := some "B", awayId := some "C", winnerId := some "C",
             nextMatchId := some none } ∧
    matchAt (advanceWinner 0 1 "C"
      (generateKnockout (fun _ _ => "") (stateOf ["A", "B", "C", "D"])).1).1.knockoutRounds 1 0 =
      some { matchId := "", homeId := none, awayId := some "C", winnerId := none,
             nextMatchId := none } :=
  ⟨by decide, by decide,
    (advanceWinner_effect 0 1 "C"
      (generateKnockout (fun _ _ => "") (stateOf ["A", "B", "C", "D"])).1
      { matchId := "", homeId := some "B", awayId := some "C", winnerId := none,
        nextMatchId := some none } (by decide) (by decide)).1,
    (advanceWinner_effect 0 1 "C"
      (generateKnockout (fun _ _ => "") (stateOf ["A", "B", "C", "D"])).1
      { matchId := "", homeId := some "B", awayId := some "C", winnerId := none,
        nextMatchId := some none } (by decide) (by decide)).2.1, by decide⟩

/-- C16. `advanceWinner(r, m, w)` changes nothing but the winner of match (r, m), one slot of
the destination match (r + 1, floor(m / 2)) and the winner of that match: participants and
league matches are untouched; the number of rounds and of matches per round is as before;
every match other than (r, m) and the destination is as before, in particular every match two
or more rounds ahead; match (r, m) keeps its identifier and its home and away ids; the
destination match keeps its identifier and the slot that m does not feed. -/
theorem advanceWinner_changes_two_matches_only (r m : Nat) (w : String) (s : State) :
    (advanceWinner r m w s).1.participants = s.participants ∧
    (advanceWinner r m w s).1.leagueMatches = s.leagueMatches ∧
    (advanceWinner r m w s).1.knockoutRounds.map List.length =
      s.knockoutRounds.map List.length ∧
    (∀ k j, ¬ (k = r ∧ j = m) → ¬ (k = r + 1 ∧ j = m / 2) →
      matchAt (advanceWinner r m w s).1.knockoutRounds k j = matchAt s.knockoutRounds k j) ∧
    (∀ k j, r + 2 ≤ k →
      matchAt (advanceWinner r m w s).1.knockoutRounds k j = matchAt s.knockoutRounds k j) ∧
    (∀ mt' : KnockoutMatch, matchAt (advanceWinner r m w s).1.knockoutRounds r m = some mt' →
      ∃ mt : KnockoutMatch, matchAt s.knockoutRounds r m = some mt ∧
        mt'.matchId = mt.matchId ∧ mt'.homeId = mt.homeId ∧ mt'.awayId = mt.awayId ∧
        mt'.nextMatchId = mt.nextMatchId) ∧
    (∀ nm' : KnockoutMatch,
      matchAt (advanceWinner r m w s).1.knockoutRounds (r + 1) (m / 2) = some nm' →
      ∃ nm : KnockoutMatch, matchAt s.knockoutRounds (r + 1) (m / 2) = some nm ∧
        nm'.matchId = nm.matchId ∧ nm'.nextMatchId = nm.nextMatchId ∧
        (m % 2 = 0 → nm'.awayId = nm.awayId) ∧ (m % 2 = 1 → nm'.homeId = nm.homeId)) := by
  have hfr := advanceWinner_frame r m w s
  have hne : ¬ (r + 1 = r ∧ m / 2 = m) := by omega
  refine ⟨hfr.1, hfr.2.1, hfr.2.2, ?_, ?_, ?_, ?_⟩
  · intro k j h1 h2
    rw [matchAt_advanceWinner]
    simp only [h1, h2, if_false, ite_self]
  · intro k j hk
    have h1 : ¬ (k = r ∧ j = m) := by omega
    have h2 : ¬ (k = r + 1 ∧ j = m / 2) := by omega
    rw [matchAt_advanceWinner]
    simp only [h1, h2, if_false, ite_self]
  · intro mt' h
    rw [matchAt_advanceWinner] at h
    cases h0 : matchAt s.knockoutRounds r m with
    | none => simp [h0] at h
    | some mt =>
      simp only [h0, reduceCtorEq, if_false, and_self, if_true, Option.map_some',
        Option.some.injEq] at h
      exact ⟨mt, rfl, by rw [← h], by rw [← h], by rw [← h], by rw [← h]⟩
  · intro nm' h
    rw [matchAt_advanceWinner] at h
    cases h0 : matchAt s.knockoutRounds r m with
    | none =>
      simp only [h0, if_true] at h
      exact ⟨nm', h, rfl, rfl, fun _ => rfl, fun _ => rfl⟩
    | some mt =>
      simp only [h0, reduceCtorEq, if_false, hne, and_self, if_true] at h
      cases h1 : matchAt s.knockoutRounds (r + 1) (m / 2) with
      | none => simp [h1] at h
      | some nm =>
        simp only [h1, Option.map_some', Option.some.injEq] at h
        refine ⟨nm, rfl, ?_, ?_, ?_, ?_⟩
        · rw [← h]; unfold feedSlot; split_ifs <;> rfl
        · rw [← h]; unfold feedSlot; split_ifs <;> rfl
        · intro hpar; rw [← h]; simp [feedSlot, hpar]
        · intro hpar
          have : ¬ m % 2 = 0 := by omega
          rw [← h]; simp [feedSlot, this]

/-- Counterexample to C17: in the bracket seeded from A, B, C, D the first match is A against
D; recording the winner `Z`, which is neither, is neither rejected nor ignored: no error is
raised, the match gets the winner `Z` and the home slot of the final becomes `Z`. -/
theorem advance_invalid_winner_counterexample :
    matchAt (generateKnockout (fun _ _ => "") (stateOf ["A", "B", "C", "D"])).1.knockoutRounds
      0 0 = some { matchId := "", homeId := some "A", awayId := some "D", winnerId := none,
                   nextMatchId := some none } ∧
    (windowAdvance 0 0 "Z"
      (generateKnockout (fun _ _ => "") (stateOf ["A", "B", "C", "D"])).1).2 = false ∧
    (windowAdvance 0 0 "Z"
      (generateKnockout (fun _ _ => "") (stateOf ["A", "B", "C", "D"])).1).1 ≠
      (generateKnockout (fun _ _ => "") (stateOf ["A", "B", "C", "D"])).1 ∧
    (windowAdvance 0 0 "Z"
      (generateKnockout (fun _ _ => "") (stateOf ["A", "B", "C", "D"])).1).1.knockoutRounds.map
      (fun r => r.map (fun mt => (mt.homeId, mt.awayId, mt.winnerId))) =
      [[(some "A", some "D", some "Z"), (some "B", some "C", none)],
       [(some "Z", none, none)]] ∧
    (advanceWinner 0 0 "Z"
      (generateKnockout (fun _ _ => "") (stateOf ["A", "B", "C", "D"])).1).1 ≠
      (generateKnockout (fun _ _ => "") (stateOf ["A", "B", "C", "D"])).1 := by
  decide

/-- C17 (amended). `window.advance` leaves the state unchanged when the winner text is
`undefined` or `null`; for every other winner id w, also one that is neither the home id nor
the away id of the targeted match, and in-range indices, w is recorded as the winner of the
match, by `advanceWinner` and by `window.advance` alike. -/
theorem advance_records_any_winner :
    (∀ (r m : Nat) (s : State),
      windowAdvance r m "undefined" s = (s, false) ∧ windowAdvance r m "null" s = (s, false)) ∧
    (∀ (r m : Nat) (w : String) (s : State) (mt : KnockoutMatch),
      matchAt s.knockoutRounds r m = some mt →
      matchAt (advanceWinner r m w s).1.knockoutRounds r m =
        some { mt with winnerId := some w } ∧
      (w ≠ "undefined" → w ≠ "null" →
        matchAt (windowAdvance r m w s).1.knockoutRounds r m =
          some { mt with winnerId := some w })) := by
  refine ⟨fun r m s => ⟨by simp [windowAdvance], by simp [windowAdvance]⟩, ?_⟩
  intro r m w s mt h
  have hsome : ¬ matchAt s.knockoutRounds r m = none := by rw [h]; simp
  have key : matchAt (advanceWinner r m w s).1.knockoutRounds r m =
      some { mt with winnerId := some w } := by
    rw [matchAt_advanceWinner, if_neg hsome, if_pos ⟨rfl, rfl⟩, h]
    rfl
  refine ⟨key, fun h1 h2 => ?_⟩
  unfold windowAdvance
  rw [if_pos ⟨h1, h2⟩]
  exact key

/-- Witness for C17 (amended): the winner `Z` is recorded for the match A against D. -/
theorem advance_records_any_winner_witness :
    matchAt (generateKnockout (fun _ _ => "") (stateOf ["A", "B", "C", "D"])).1.knockoutRounds
      0 0 = some { matchId := "", homeId := some "A", awayId := some "D", winnerId := none,
                   nextMatchId := some none } ∧
    matchAt (advanceWinner 0 0 "Z"
      (generateKnockout (fun _ _ => "") (stateOf ["A", "B", "C", "D"])).1).1.knockoutRounds 0 0 =
      some { matchId := "", homeId := some "A", awayId := some "D", winnerId := some "Z",
             nextMatchId := some none } :=
  ⟨by decide,
    (advance_records_any_winner.2 0 0 "Z"
      (generateKnockout (fun _ _ => "") (stateOf ["A", "B", "C", "D"])).1
      { matchId := "", homeId := some "A", awayId := some "D", winnerId := none,
        nextMatchId := some none } (by decide)).1⟩

/-- Witness for C16: in a bracket of size 8 with A recorded through to the final, recording H
as winner of the first quarter-final leaves the final (two rounds ahead) as it was, stale
winner included. -/
theorem advanceWinner_changes_two_matches_only_witness :
    matchAt (advanceWinner 0 0 "H" (advanceWinner 1 0 "A" (advanceWinner 0 0 "A"
      (generateKnockout (fun _ _ => "")
        (stateOf ["A", "B", "C", "D", "E", "F", "G", "H"])).1).1).1).1.knockoutRounds 2 0 =
    matchAt (advanceWinner 1 0 "A" (advanceWinner 0 0 "A"
      (generateKnockout (fun _ _ => "")
        (stateOf ["A", "B", "C", "D", "E", "F", "G", "H"])).1).1).1.knockoutRounds 2 0 ∧
    matchAt (advanceWinner 0 0 "H" (advanceWinner 1 0 "A" (advanceWinner 0 0 "A"
      (generateKnockout (fun _ _ => "")
        (stateOf ["A", "B", "C", "D", "E", "F", "G", "H"])).1).1).1).1.knockoutRounds 2 0 =
      some { matchId := "", homeId := some "A", awayId := none, winnerId := none,
             nextMatchId := none } :=
  ⟨(advanceWinner_changes_two_matches_only 0 0 "H" (advanceWinner 1 0 "A" (advanceWinner 0 0 "A"
      (generateKnockout (fun _ _ => "")
        (stateOf ["A", "B", "C", "D", "E", "F", "G", "H"])).1).1).1).2.2.2.2.1 2 0 (by decide),
    by decide⟩

/-! ## Invariants of the bracket -/

theorem generateKnockout_cases (genId : Nat → Nat → String) (s : State)
    (h2 : 2 ≤ s.participants.length) :
    ∃ (size : Nat) (rest : List (List KnockoutMatch)),
      bracketSize s.participants.length = some size ∧
      IsBracketSize s.participants.length size ∧
      (generateKnockout genId s).1.knockoutRounds =
        firstRound genId ((sortRanking s.participants).take size) (pairings size) :: rest ∧
      (∀ round ∈ rest, ∀ mt ∈ round,
        mt.homeId = none ∧ mt.awayId = none ∧ mt.winnerId = none) ∧
      2 ^ (rest.length + 1) = size := by
  obtain ⟨size, hb, hs⟩ := bracketSize_spec _ h2
  have hmem := hs.1
  simp only [List.mem_cons, List.mem_singleton, List.not_mem_nil, or_false] at hmem
  rw [generateKnockout_ok genId s size hb]
  rcases hmem with rfl | rfl | rfl | rfl
  · exact ⟨2, [], hb, hs, rfl, by simp, rfl⟩
  · refine ⟨4, [emptyRound genId 1 1], hb, hs, rfl, ?_, rfl⟩
    intro round hr mt hm
    simp only [List.mem_cons, List.mem_singleton, List.not_mem_nil, or_false] at hr
    subst hr
    exact mem_emptyRound _ _ _ _ hm
  · refine ⟨8, [emptyRound genId 1 2, emptyRound genId 2 1], hb, hs, rfl, ?_, rfl⟩
    intro round hr mt hm
    simp only [List.mem_cons, List.mem_singleton, List.not_mem_nil, or_false] at hr
    rcases hr with rfl | rfl <;> exact mem_emptyRound _ _ _ _ hm
  · refine ⟨16, [emptyRound genId 1 4, emptyRound genId 2 2, emptyRound genId 3 1], hb, hs, rfl, ?_, rfl⟩
    intro round hr mt hm
    simp only [List.mem_cons, List.mem_singleton, List.not_mem_nil, or_false] at hr
    rcases hr with rfl | rfl | rfl <;> exact mem_emptyRound _ _ _ _ hm

theorem matchAt_mem (rounds : List (List KnockoutMatch)) (k j : Nat) (mt : KnockoutMatch)
    (h : matchAt rounds k j = some mt) : ∃ round ∈ rounds, mt ∈ round := by
  obtain ⟨round, h1, h2, _, _⟩ := matchAt_lt rounds k j mt h
  exact ⟨round, List.getElem?_mem h1, List.getElem?_mem h2⟩

theorem mem_matchAt (rounds : List (List KnockoutMatch)) (round : List KnockoutMatch)
    (mt : KnockoutMatch) (hr : round ∈ rounds) (hm : mt ∈ round) :
    ∃ k j, matchAt rounds k j = some mt := by
  obtain ⟨k, hk⟩ := List.mem_iff_getElem?.mp hr
  obtain ⟨j, hj⟩ := List.mem_iff_getElem?.mp hm
  exact ⟨k, j, by unfold matchAt; rw [hk]; exact hj⟩

theorem matchAt_cons_succ (r0 : List KnockoutMatch) (rest : List (List KnockoutMatch))
    (k j : Nat) : matchAt (r0 :: rest) (k + 1) j = matchAt rest k j := by
  unfold matchAt
  simp

theorem matchAt_cons_zero (r0 : List KnockoutMatch) (rest : List (List KnockoutMatch))
    (j : Nat) : matchAt (r0 :: rest) 0 j = r0[j]? := by
  unfold matchAt
  simp

/-- The winner of a seeded bracket is unset everywhere. -/
theorem winner_none_generateKnockout (genId : Nat → Nat → String) (s : State)
    (h2 : 2 ≤ s.participants.length) (k j : Nat) (mt : KnockoutMatch)
    (h : matchAt (generateKnockout genId s).1.knockoutRounds k j = some mt) :
    mt.winnerId = none := by
  obtain ⟨size, rest, _, _, hrounds, hrest, _⟩ := generateKnockout_cases genId s h2
  rw [hrounds] at h
  cases k with
  | zero =>
    rw [matchAt_cons_zero] at h
    exact winner_of_mem_firstRound _ _ _ _ (List.getElem?_mem h)
  | succ k =>
    rw [matchAt_cons_succ] at h
    obtain ⟨round, hr, hm⟩ := matchAt_mem _ _ _ _ h
    exact (hrest round hr mt hm).2.2

/-- One valid call keeps the property that a set winner is the home or the away id. -/
theorem winnerValid_step (r m : Nat) (w : String) (s : State) (mt : KnockoutMatch)
    (h : matchAt s.knockoutRounds r m = some mt)
    (hw : mt.homeId = some w ∨ mt.awayId = some w)
    (inv : ∀ k j mt', matchAt s.knockoutRounds k j = some mt' → ∀ x, mt'.winnerId = some x →
      mt'.homeId = some x ∨ mt'.awayId = some x) :
    ∀ k j mt', matchAt (advanceWinner r m w s).1.knockoutRounds k j = some mt' →
      ∀ x, mt'.winnerId = some x → mt'.homeId = some x ∨ mt'.awayId = some x := by
  intro k j mt' hk x hx
  have hsome : ¬ matchAt s.knockoutRounds r m = none := by rw [h]; simp
  rw [matchAt_advanceWinner, if_neg hsome] at hk
  split_ifs at hk with c1 c2
  · obtain ⟨rfl, rfl⟩ := c1
    rw [h] at hk
    simp only [Option.map_some', Option.some.injEq] at hk
    subst hk
    simp only [Option.some.injEq] at hx
    subst hx
    exact hw
  · cases h1 : matchAt s.knockoutRounds k j with
    | none => simp [h1] at hk
    | some nm =>
      simp only [h1, Option.map_some', Option.some.injEq] at hk
      subst hk
      unfold feedSlot at hx
      split_ifs at hx
  · exact inv k j mt' hk x hx

/-- C18. In every bracket state reachable from the output of `generateKnockout` by
`advanceWinner` calls with in-range indices and a winner id that is the home or the away id
of the targeted match at the time of the call, every match of every round has a winner id
that, if set, equals its home id or its away id. -/
theorem winner_is_home_or_away (genId : Nat → Nat → String) (s0 s : State)
    (h2 : 2 ≤ s0.participants.length)
    (hr : ReachableByWinners (generateKnockout genId s0).1 s) :
    ∀ round ∈ s.knockoutRounds, ∀ mt ∈ round, ∀ w : String,
      mt.winnerId = some w → mt.homeId = some w ∨ mt.awayId = some w := by
  have inv : ∀ k j mt', matchAt s.knockoutRounds k j = some mt' → ∀ x, mt'.winnerId = some x →
      mt'.homeId = some x ∨ mt'.awayId = some x := by
    induction hr with
    | start =>
      intro k j mt' h x hx
      rw [winner_none_generateKnockout genId s0 h2 k j mt' h] at hx
      simp at hx
    | advance s1 r m w mt _ hm hw ih => exact winnerValid_step r m w s1 mt hm hw ih
  intro round hround mt hmt w hw
  obtain ⟨k, j, hkj⟩ := mem_matchAt _ _ _ hround hmt
  exact inv k j mt hkj w hw

/-- Witness for C18: in the bracket seeded from A, B, C, D, after recording A as winner of the
first match, A is the home id of that match. -/
theorem winner_is_home_or_away_witness :
    2 ≤ (stateOf ["A", "B", "C", "D"]).participants.length ∧
    ReachableByWinners (generateKnockout (fun _ _ => "") (stateOf ["A", "B", "C", "D"])).1
      (advanceWinner 0 0 "A"
        (generateKnockout (fun _ _ => "") (stateOf ["A", "B", "C", "D"])).1).1 ∧
    (({ matchId := "", homeId := some "A", awayId := some "D", winnerId := some "A",
        nextMatchId := some none } : KnockoutMatch).homeId = some "A" ∨
     ({ matchId := "", homeId := some "A", awayId := some "D", winnerId := some "A",
        nextMatchId := some none } : KnockoutMatch).awayId = some "A") :=
  ⟨by decide,
    ReachableByWinners.advance _ 0 0 "A"
      { matchId := "", homeId := some "A", awayId := some "D", winnerId := none,
        nextMatchId := some none } ReachableByWinners.start (by decide) (Or.inl rfl),
    winner_is_home_or_away (fun _ _ => "") (stateOf ["A", "B", "C", "D"])
      (advanceWinner 0 0 "A"
        (generateKnockout (fun _ _ => "") (stateOf ["A", "B", "C", "D"])).1).1 (by decide)
      (ReachableByWinners.advance _ 0 0 "A"
        { matchId := "", homeId := some "A", awayId := some "D", winnerId := none,
          nextMatchId := some none } ReachableByWinners.start (by decide) (Or.inl rfl))
      [{ matchId := "", homeId := some "A", awayId := some "D", winnerId := some "A",
         nextMatchId := some none },
       { matchId := "", homeId := some "B", awayId := some "C", winnerId := none,
         nextMatchId := some none }] (by decide)
      { matchId := "", homeId := some "A", awayId := some "D", winnerId := some "A",
        nextMatchId := some none } (by decide) "A" rfl⟩

/-! ## The two top seeds -/

/-- One valid call keeps the property that the ids in the slots of match (k, j) come from the
first-round matches i with floor(i / 2^k) = j. -/
theorem slotsFrom_step (R0 : List KnockoutMatch) (r m : Nat) (w : String) (s : State)
    (mt : KnockoutMatch) (h : matchAt s.knockoutRounds r m = some mt)
    (hw : mt.homeId = some w ∨ mt.awayId = some w)
    (inv : ∀ k j mt' x, matchAt s.knockoutRounds k j = some mt' →
      (mt'.homeId = some x ∨ mt'.awayId = some x) →
      ∃ i mt0, R0[i]? = some mt0 ∧ i / 2 ^ k = j ∧
        (mt0.homeId = some x ∨ mt0.awayId = some x)) :
    ∀ k j mt' x, matchAt (advanceWinner r m w s).1.knockoutRounds k j = some mt' →
      (mt'.homeId = some x ∨ mt'.awayId = some x) →
      ∃ i mt0, R0[i]? = some mt0 ∧ i / 2 ^ k = j ∧
        (mt0.homeId = some x ∨ mt0.awayId = some x) := by
  intro k j mt' x hk hx
  have hsome : ¬ matchAt s.knockoutRounds r m = none := by rw [h]; simp
  rw [matchAt_advanceWinner, if_neg hsome] at hk
  split_ifs at hk with c1 c2
  · obtain ⟨rfl, rfl⟩ := c1
    rw [h] at hk
    simp only [Option.map_some', Option.some.injEq] at hk
    subst hk
    exact inv k j mt x h hx
  · obtain ⟨rfl, rfl⟩ := c2
    have hfeed : ∃ i mt0, R0[i]? = some mt0 ∧ i / 2 ^ (r + 1) = m / 2 ∧
        (mt0.homeId = some w ∨ mt0.awayId = some w) := by
      obtain ⟨i, mt0, h1, h2, h3⟩ := inv r m mt w h hw
      exact ⟨i, mt0, h1, by rw [pow_succ, ← Nat.div_div_eq_div_mul, h2], h3⟩
    cases h1 : matchAt s.knockoutRounds (r + 1) (m / 2) with
    | none => simp [h1] at hk
    | some nm =>
      simp only [h1, Option.map_some', Option.some.injEq] at hk
      subst hk
      unfold feedSlot at hx
      split_ifs at hx
      · rcases hx with hx | hx
        · simp only [Option.some.injEq] at hx
          subst hx
          exact hfeed
        · exact inv _ _ nm x h1 (Or.inr hx)
      · rcases hx with hx | hx
        · exact inv _ _ nm x h1 (Or.inl hx)
        · simp only [Option.some.injEq] at hx
          subst hx
          exact hfeed
  · exact inv k j mt' x hk hx

theorem pairings_seeds_apart (size : Nat) (hs : size ∈ [4, 8, 16]) (i i' k : Nat)
    (p p' : Nat × Nat) (hp : (pairings size)[i]? = some p) (hp' : (pairings size)[i']? = some p')
    (hk : 2 ^ (k + 1) < size) (h0 : p.1 = 0 ∨ p.2 = 0) (h1 : p'.1 = 1 ∨ p'.2 = 1) :
    i / 2 ^ k ≠ i' / 2 ^ k := by
  have hi := (List.getElem?_eq_some_iff.mp hp).1
  have hi' := (List.getElem?_eq_some_iff.mp hp').1
  simp only [List.mem_cons, List.mem_singleton, List.not_mem_nil, or_false] at hs
  rcases hs with rfl | rfl | rfl
  · have hk3 : k < 1 := by
      by_contra hc
      have : 2 ^ 2 ≤ 2 ^ (k + 1) := Nat.pow_le_pow_right (by omega) (by omega)
      omega
    have e : pairings 4 = [(0, 3), (1, 2)] := rfl
    rw [e] at hp hp' hi hi'
    clear e
    simp only [List.length_cons, List.length_nil] at hi hi'
    interval_cases k
    interval_cases i <;> interval_cases i' <;>
      simp only [List.getElem?_cons_zero, List.getElem?_cons_succ, Option.some.injEq] at hp hp' <;>
      (subst hp; subst hp'; simp at h0 h1 ⊢)
  · have hk3 : k < 2 := by
      by_contra hc
      have : 2 ^ 3 ≤ 2 ^ (k + 1) := Nat.pow_le_pow_right (by omega) (by omega)
      omega
    have e : pairings 8 = [(0, 7), (3, 4), (2, 5), (1, 6)] := rfl
    rw [e] at hp hp' hi hi'
    clear e
    simp only [List.length_cons, List.length_nil] at hi hi'
    interval_cases k <;> interval_cases i <;> interval_cases i' <;>
      simp only [List.getElem?_cons_zero, List.getElem?_cons_succ, Option.some.injEq] at hp hp' <;>
      (subst hp; subst hp'; simp at h0 h1 ⊢)
  · have hk3 : k < 3 := by
      by_contra hc
      have : 2 ^ 4 ≤ 2 ^ (k + 1) := Nat.pow_le_pow_right (by omega) (by omega)
      omega
    have e : pairings 16 = [(0, 15), (7, 8), (3, 12), (4, 11), (2, 13), (5, 10), (1, 14), (6, 9)] := rfl
    rw [e] at hp hp' hi hi'
    clear e
    simp only [List.length_cons, List.length_nil] at hi hi'
    interval_cases k <;> interval_cases i <;> interval_cases i' <;>
      simp only [List.getElem?_cons_zero, List.getElem?_cons_succ, Option.some.injEq] at hp hp' <;>
      (subst hp; subst hp'; simp at h0 h1 ⊢)

theorem slotsFrom_init (R0 : List KnockoutMatch) (rest : List (List KnockoutMatch))
    (hrest : ∀ round ∈ rest, ∀ mt ∈ round,
      mt.homeId = none ∧ mt.awayId = none ∧ mt.winnerId = none) :
    ∀ k j mt' x, matchAt (R0 :: rest) k j = some mt' →
      (mt'.homeId = some x ∨ mt'.awayId = some x) →
      ∃ i mt0, R0[i]? = some mt0 ∧ i / 2 ^ k = j ∧
        (mt0.homeId = some x ∨ mt0.awayId = some x) := by
  intro k j mt' x h hx
  cases k with
  | zero =>
    rw [matchAt_cons_zero] at h
    exact ⟨j, mt', h, by simp, hx⟩
  | succ k =>
    rw [matchAt_cons_succ] at h
    obtain ⟨round, hr, hm⟩ := matchAt_mem _ _ _ _ h
    obtain ⟨e1, e2, _⟩ := hrest round hr mt' hm
    rw [e1, e2] at hx
    simp at hx

/-- A first-round match holding the id of the participant ranked `t` is built from a pairing
that names rank `t`, when ids are pairwise different. -/
theorem firstRound_rank (genId : Nat → Nat → String) (q : List Participant) (size : Nat)
    (hs : size ∈ [2, 4, 8, 16]) (hnd : (q.map (fun p => p.id)).Nodup) (t : Nat)
    (qt : Participant) (hqt : q[t]? = some qt) (i : Nat) (mt0 : KnockoutMatch)
    (h : (firstRound genId (q.take size) (pairings size))[i]? = some mt0)
    (hx : mt0.homeId = some qt.id ∨ mt0.awayId = some qt.id) :
    ∃ p, (pairings size)[i]? = some p ∧ (p.1 = t ∨ p.2 = t) := by
  rw [getElem?_firstRound] at h
  cases hp : (pairings size)[i]? with
  | none => simp [hp] at h
  | some p =>
    simp only [hp, Option.map_some', Option.some.injEq] at h
    subst h
    simp only at hx
    obtain ⟨l1, l2⟩ := pairings_lt size hs p (List.getElem?_mem hp)
    have hpos : ∀ a : Nat, a < size → (q.take size)[a]?.map (fun x => x.id) = some qt.id →
        a = t := by
      intro a ha e
      rw [List.getElem?_take, if_pos ha] at e
      cases hqa : q[a]? with
      | none => simp [hqa] at e
      | some y =>
        simp only [hqa, Option.map_some', Option.some.injEq] at e
        have h1 : (q.map (fun p => p.id))[a]? = some qt.id := by simp [hqa, e]
        have h2 : (q.map (fun p => p.id))[t]? = some qt.id := by simp [hqt]
        exact position_unique (p := fun _ => true) (by simpa using hnd) h1 h2 rfl
    refine ⟨p, rfl, ?_⟩
    rcases hx with hx | hx
    · exact Or.inl (hpos p.1 l1 hx)
    · exact Or.inr (hpos p.2 l2 hx)

/-- C13. The two top seeds can only meet in the final: for a bracket of size 4, 8 or 16 built
by `generateKnockout` from participants with pairwise different ids, in every state reachable
by `advanceWinner` calls whose winner is the home or the away id of the targeted match, no
match of a round other than the last one has the participants ranked 0 and 1 as its two
sides.  In the seeding table, the first-round indices i0 and i1 of the ranks 0 and 1 satisfy
floor(i0 / 2^k) ≠ floor(i1 / 2^k) for every round index k other than the last. -/
theorem top_seeds_meet_only_in_final :
    (∀ (genId : Nat → Nat → String) (s0 s : State) (q0 q1 : Participant),
      4 ≤ s0.participants.length →
      (s0.participants.map (fun p => p.id)).Nodup →
      (sortRanking s0.participants)[0]? = some q0 →
      (sortRanking s0.participants)[1]? = some q1 →
      ReachableByWinners (generateKnockout genId s0).1 s →
      ∀ (k j : Nat) (mt : KnockoutMatch), k + 1 < s.knockoutRounds.length →
        matchAt s.knockoutRounds k j = some mt →
        ¬ ((mt.homeId = some q0.id ∧ mt.awayId = some q1.id) ∨
           (mt.homeId = some q1.id ∧ mt.awayId = some q0.id))) ∧
    (∀ size ∈ [4, 8, 16], ∀ (i0 i1 : Nat) (p0 p1 : Nat × Nat),
      (seedTable size)[i0]? = some p0 → (p0.1 = 0 ∨ p0.2 = 0) →
      (seedTable size)[i1]? = some p1 → (p1.1 = 1 ∨ p1.2 = 1) →
      ∀ k : Nat, 2 ^ (k + 1) < size → i0 / 2 ^ k ≠ i1 / 2 ^ k) := by
  constructor
  · intro genId s0 s q0 q1 h4 hnd hq0 hq1 hr
    obtain ⟨size, rest, _, hs, hrounds, hrest, hpow⟩ :=
      generateKnockout_cases genId s0 (by omega)
    have hsize : size ∈ [4, 8, 16] := by
      have h1 := hs.1
      have h2 := hs.2.2 4 (by simp) h4
      simp only [List.mem_cons, List.mem_singleton, List.not_mem_nil, or_false] at h1 ⊢
      omega
    have inv : s.knockoutRounds.length = rest.length + 1 ∧
        ∀ k j mt' x, matchAt s.knockoutRounds k j = some mt' →
          (mt'.homeId = some x ∨ mt'.awayId = some x) →
          ∃ i mt0,
            (firstRound genId ((sortRanking s0.participants).take size) (pairings size))[i]? =
              some mt0 ∧ i / 2 ^ k = j ∧ (mt0.homeId = some x ∨ mt0.awayId = some x) := by
      induction hr with
      | start =>
        rw [hrounds]
        exact ⟨rfl, slotsFrom_init _ rest hrest⟩
      | advance s1 r m w mt1 _ hm hw ih =>
        exact ⟨by rw [advanceWinner_length]; exact ih.1,
          slotsFrom_step _ r m w s1 mt1 hm hw ih.2⟩
    intro k j mt hk hmt hsides
    have hqnd : ((sortRanking s0.participants).map (fun p => p.id)).Nodup :=
      (((sortRanking_perm s0.participants).map _).nodup_iff).mpr hnd
    have hrank : ∀ (t : Nat) (qt : Participant), (sortRanking s0.participants)[t]? = some qt →
        (mt.homeId = some qt.id ∨ mt.awayId = some qt.id) →
        ∃ i p, (pairings size)[i]? = some p ∧ (p.1 = t ∨ p.2 = t) ∧ i / 2 ^ k = j := by
      intro t qt hqt hx
      obtain ⟨i, mt0, h1, h2, h3⟩ := inv.2 k j mt qt.id hmt hx
      obtain ⟨p, hp1, hp2⟩ := firstRound_rank genId _ size hs.1 hqnd t qt hqt i mt0 h1 h3
      exact ⟨i, p, hp1, hp2, h2⟩
    have hx0 : mt.homeId = some q0.id ∨ mt.awayId = some q0.id := by
      rcases hsides with ⟨a, _⟩ | ⟨_, b⟩
      · exact Or.inl a
      · exact Or.inr b
    have hx1 : mt.homeId = some q1.id ∨ mt.awayId = some q1.id := by
      rcases hsides with ⟨_, b⟩ | ⟨a, _⟩
      · exact Or.inr b
      · exact Or.inl a
    obtain ⟨i0, p0, e0, f0, g0⟩ := hrank 0 q0 hq0 hx0
    obtain ⟨i1, p1, e1, f1, g1⟩ := hrank 1 q1 hq1 hx1
    have hlt : 2 ^ (k + 1) < size := by
      rw [← hpow]
      exact Nat.pow_lt_pow_right (by omega) (by rw [inv.1] at hk; exact hk)
    exact pairings_seeds_apart size hsize i0 i1 k p0 p1 e0 e1 hlt f0 f1 (g0.trans g1.symm)
  · intro size hsize i0 i1 p0 p1 e0 f0 e1 f1 k hk
    have hmem : size ∈ [2, 4, 8, 16] := by
      simp only [List.mem_cons, List.mem_singleton, List.not_mem_nil, or_false] at hsize ⊢
      omega
    rw [← pairings_eq_seedTable size hmem] at e0 e1
    exact pairings_seeds_apart size hsize i0 i1 k p0 p1 e0 e1 hk f0 f1

/-- Witness for C13: bracket of size 4 seeded from A, B, C, D (ranked in this order), after
recording A as winner of the first match; the first match, A against D, is not the pair of the
two top seeds A and B. -/
theorem top_seeds_meet_only_in_final_witness :
    4 ≤ (stateOf ["A", "B", "C", "D"]).participants.length ∧
    ((stateOf ["A", "B", "C", "D"]).participants.map (fun p => p.id)).Nodup ∧
    (sortRanking (stateOf ["A", "B", "C", "D"]).participants)[0]? = some (mkParticipant "A") ∧
    (sortRanking (stateOf ["A", "B", "C", "D"]).participants)[1]? = some (mkParticipant "B") ∧
    matchAt (advanceWinner 0 0 "A"
      (generateKnockout (fun _ _ => "") (stateOf ["A", "B", "C", "D"])).1).1.knockoutRounds 0 0 =
      some { matchId := "", homeId := some "A", awayId := some "D", winnerId := some "A",
             nextMatchId := some none } ∧
    ¬ ((({ matchId := "", homeId := some "A", awayId := some "D", winnerId := some "A",
           nextMatchId := some none } : KnockoutMatch).homeId = some (mkParticipant "A").id ∧
        ({ matchId := "", homeId := some "A", awayId := some "D", winnerId := some "A",
           nextMatchId := some none } : KnockoutMatch).awayId = some (mkParticipant "B").id) ∨
       (({ matchId := "", homeId := some "A", awayId := some "D", winnerId := some "A",
           nextMatchId := some none } : KnockoutMatch).homeId = some (mkParticipant "B").id ∧
        ({ matchId := "", homeId := some "A", awayId := some "D", winnerId := some "A",
           nextMatchId := some none } : KnockoutMatch).awayId = some (mkParticipant "A").id)) :=
  ⟨by decide, by decide, by decide, by decide, by decide,
    top_seeds_meet_only_in_final.1 (fun _ _ => "") (stateOf ["A", "B", "C", "D"])
      (advanceWinner 0 0 "A"
        (generateKnockout (fun _ _ => "") (stateOf ["A", "B", "C", "D"])).1).1
      (mkParticipant "A") (mkParticipant "B") (by decide) (by decide) (by decide) (by decide)
      (ReachableByWinners.advance _ 0 0 "A"
        { matchId := "", homeId := some "A", awayId := some "D", winnerId := none,
          nextMatchId := some none } ReachableByWinners.start (by decide) (Or.inl rfl))
      0 0 _ (by decide) (by decide)⟩

/-! ## Score entry -/

theorem mem_updateAt {α : Type} (f : α → α) (i : Nat) (l : List α) (x : α)
    (h : x ∈ updateAt f i l) : x ∈ l ∨ ∃ y ∈ l, x = f y := by
  obtain ⟨j, hj⟩ := List.mem_iff_getElem?.mp h
  rw [getElem?_updateAt] at hj
  split_ifs at hj
  · cases hl : l[j]? with
    | none => simp [hl] at hj
    | some y =>
      simp only [hl, Option.map_some', Option.some.injEq] at hj
      exact Or.inr ⟨y, List.getElem?_mem hl, hj.symm⟩
  · exact Or.inl (List.getElem?_mem hj)

theorem map_updateAt_of_eq {α β : Type} (f : α → α) (g : α → β) (i : Nat) (l : List α)
    (h : ∀ x, g (f x) = g x) : (updateAt f i l).map g = l.map g := by
  induction l generalizing i with
  | nil => simp [updateAt]
  | cons x xs ih =>
    cases i with
    | zero => simp [updateAt, h]
    | succ i => simp [updateAt, ih]

/-- One score entry keeps the identity of every match and lets every set score satisfy `ok`
when the entered value does. -/
theorem updateScore_step (ok : Number → Prop) (matchId type : String)
    (value : Option Number)
    (s : State) (hv : ∀ v, value = some v → ok v)
    (inv : ∀ m ∈ s.leagueMatches,
      (∀ v, m.homeScore = some v → ok v) ∧ (∀ v, m.awayScore = some v → ok v)) :
    (updateScore matchId type value s).leagueMatches.map
        (fun m => (m.id, m.round, m.homeId, m.awayId)) =
      s.leagueMatches.map (fun m => (m.id, m.round, m.homeId, m.awayId)) ∧
    ∀ m ∈ (updateScore matchId type value s).leagueMatches,
      (∀ v, m.homeScore = some v → ok v) ∧ (∀ v, m.awayScore = some v → ok v) := by
  unfold updateScore
  cases findMatchIndex s.leagueMatches matchId with
  | none => exact ⟨rfl, inv⟩
  | some i =>
    simp only [recalculateStandings]
    have hhome : ∀ l : List LeagueMatch,
        (∀ m ∈ l, (∀ v, m.homeScore = some v → ok v) ∧ (∀ v, m.awayScore = some v → ok v)) →
        ∀ m ∈ updateAt (fun m => { m with homeScore := value }) i l,
          (∀ v, m.homeScore = some v → ok v) ∧ (∀ v, m.awayScore = some v → ok v) := by
      intro l hl m hm
      rcases mem_updateAt _ _ _ _ hm with h | ⟨y, hy, rfl⟩
      · exact hl m h
      · exact ⟨hv, (hl y hy).2⟩
    have haway : ∀ l : List LeagueMatch,
        (∀ m ∈ l, (∀ v, m.homeScore = some v → ok v) ∧ (∀ v, m.awayScore = some v → ok v)) →
        ∀ m ∈ updateAt (fun m => { m with awayScore := value }) i l,
          (∀ v, m.homeScore = some v → ok v) ∧ (∀ v, m.awayScore = some v → ok v) := by
      intro l hl m hm
      rcases mem_updateAt _ _ _ _ hm with h | ⟨y, hy, rfl⟩
      · exact hl m h
      · exact ⟨(hl y hy).1, hv⟩
    by_cases h1 : type = "home" <;> by_cases h2 : type = "away"
    · subst h1
      exact absurd h2 (by decide)
    · simp only [h1, h2, if_true, if_false]
      exact ⟨map_updateAt_of_eq _ _ _ _ (fun _ => rfl), hhome _ inv⟩
    · simp only [h1, h2, if_true, if_false]
      exact ⟨map_updateAt_of_eq _ _ _ _ (fun _ => rfl), haway _ inv⟩
    · rw [if_neg h1, if_neg h2]
      exact ⟨rfl, inv⟩

/-- Counterexample to C19: after `generateLeague` for A and B, entering 2 on the home side of
the only match leaves it with the home score set and the away score unset; entering −3 and −1
on the two sides stores the negative values; and an entry that `parseInt` reads as `NaN` (such
as `.5`) stores `NaN`. -/
theorem score_pair_counterexample :
    ReachableByScores (fun _ => True)
      (generateLeague (fun _ _ => "x") (some 1) (stateOf ["A", "B"])).1
      (updateScore "x" "home" (some 2)
        (generateLeague (fun _ _ => "x") (some 1) (stateOf ["A", "B"])).1) ∧
    (updateScore "x" "home" (some 2)
      (generateLeague (fun _ _ => "x") (some 1) (stateOf ["A", "B"])).1).leagueMatches.map
      (fun m => (m.homeScore, m.awayScore)) = [(some 2, none)] ∧
    ReachableByScores (fun _ => True)
      (generateLeague (fun _ _ => "x") (some 1) (stateOf ["A", "B"])).1
      (updateScore "x" "away" (some (-1)) (updateScore "x" "home" (some (-3))
        (generateLeague (fun _ _ => "x") (some 1) (stateOf ["A", "B"])).1)) ∧
    (updateScore "x" "away" (some (-1)) (updateScore "x" "home" (some (-3))
      (generateLeague (fun _ _ => "x") (some 1) (stateOf ["A", "B"])).1)).leagueMatches.map
      (fun m => (m.homeScore, m.awayScore)) =
        [(some (Number.fin (-3)), some (Number.fin (-1)))] ∧
    ReachableByScores (fun _ => True)
      (generateLeague (fun _ _ => "x") (some 1) (stateOf ["A", "B"])).1
      (updateScore "x" "home" (some Number.nan)
        (generateLeague (fun _ _ => "x") (some 1) (stateOf ["A", "B"])).1) ∧
    (updateScore "x" "home" (some Number.nan)
      (generateLeague (fun _ _ => "x") (some 1) (stateOf ["A", "B"])).1).leagueMatches.map
      (fun m => (m.homeScore, m.awayScore)) = [(some Number.nan, none)] :=
  ⟨ReachableByScores.home _ "x" (some 2) ReachableByScores.start (fun _ _ => trivial),
    by decide,
    ReachableByScores.away _ "x" (some (-1))
      (ReachableByScores.home _ "x" (some (-3)) ReachableByScores.start (fun _ _ => trivial))
      (fun _ _ => trivial),
    by decide,
    ReachableByScores.home _ "x" (some Number.nan) ReachableByScores.start
      (fun _ _ => trivial),
    by decide⟩

/-- C19 (amended). In every league state reachable from the output of `generateLeague` by
score entries, every league match keeps its id, round, home id and away id, and each of its
two scores, independently of the other, is unset or a number that `parseInt` returned for an
entry, `NaN` included: every set score satisfies whatever all entered numbers satisfy, so when
every entry is read as a non-negative integer every set score is a non-negative integer. -/
theorem score_entries_keep_matches (ok : Number → Prop) (genId : Nat → Nat → String)
    (parsed : Option Int) (s0 s : State) (h2 : 2 ≤ s0.participants.length)
    (hr : ReachableByScores ok (generateLeague genId parsed s0).1 s) :
    s.leagueMatches.map (fun m => (m.id, m.round, m.homeId, m.awayId)) =
      (generateLeague genId parsed s0).1.leagueMatches.map
        (fun m => (m.id, m.round, m.homeId, m.awayId)) ∧
    ∀ m ∈ s.leagueMatches,
      (∀ v, m.homeScore = some v → ok v) ∧ (∀ v, m.awayScore = some v → ok v) := by
  induction hr with
  | start =>
    refine ⟨rfl, ?_⟩
    intro m hm
    rw [generateLeague_ok _ _ _ h2] at hm
    obtain ⟨_, _, _, _, e1, e2⟩ := sides_of_mem_fixtures _ _ _ _ _ hm
    rw [e1, e2]
    simp
  | home s1 matchId value _ hv ih =>
    obtain ⟨h1, h3⟩ := updateScore_step ok matchId "home" value s1 hv ih.2
    exact ⟨h1.trans ih.1, h3⟩
  | away s1 matchId value _ hv ih =>
    obtain ⟨h1, h3⟩ := updateScore_step ok matchId "away" value s1 hv ih.2
    exact ⟨h1.trans ih.1, h3⟩

/-- Witness for C19 (amended): A and B, the value 2 entered on the home side; the home score
of the match is a non-negative integer. -/
theorem score_entries_keep_matches_witness :
    2 ≤ (stateOf ["A", "B"]).participants.length ∧
    ReachableByScores (fun v => ∃ z : Int, v = Number.fin z ∧ 0 ≤ z)
      (generateLeague (fun _ _ => "x") (some 1) (stateOf ["A", "B"])).1
      (updateScore "x" "home" (some 2)
        (generateLeague (fun _ _ => "x") (some 1) (stateOf ["A", "B"])).1) ∧
    (updateScore "x" "home" (some 2)
      (generateLeague (fun _ _ => "x") (some 1) (stateOf ["A", "B"])).1).leagueMatches =
      [{ id := "x", round := 1, homeId := "A", awayId := "B", homeScore := some 2,
         awayScore := none }] ∧
    ∃ z : Int, (2 : Number) = Number.fin z ∧ 0 ≤ z :=
  ⟨by decide,
    ReachableByScores.home _ "x" (some 2) ReachableByScores.start
      (fun v hv => by
        simp only [Option.some.injEq] at hv
        exact ⟨2, hv.symm, by decide⟩),
    by decide,
    ((score_entries_keep_matches (fun v => ∃ z : Int, v = Number.fin z ∧ 0 ≤ z)
      (fun _ _ => "x") (some 1) (stateOf ["A", "B"])
      (updateScore "x" "home" (some 2)
        (generateLeague (fun _ _ => "x") (some 1) (stateOf ["A", "B"])).1) (by decide)
      (ReachableByScores.home _ "x" (some 2) ReachableByScores.start
        (fun v hv => by
          simp only [Option.some.injEq] at hv
          exact ⟨2, hv.symm, by decide⟩))).2
      { id := "x", round := 1, homeId := "A", awayId := "B", homeScore := some 2,
        awayScore := none } (by decide)).1 2 rfl⟩

/-! ## Persistence -/

theorem jsonNumber_of_finite (x : Option Number) (h : finiteField x = true) :
    jsonNumber x = x := by
  cases x with
  | none => rfl
  | some v =>
    cases v with
    | fin z => rfl
    | nan => simp [finiteField] at h
    | posInf => simp [finiteField] at h
    | negInf => simp [finiteField] at h

theorem map_json_of_finite (s : State) (h : FiniteNumbers s) :
    s.participants.map jsonParticipant = s.participants ∧
    s.leagueMatches.map jsonMatch = s.leagueMatches := by
  constructor
  · conv_rhs => rw [← List.map_id s.participants]
    apply List.map_congr_left
    intro p hp
    obtain ⟨h1, h2, h3, h4, h5, h6, h7⟩ := h.1 p hp
    simp only [jsonParticipant, jsonNumber_of_finite _ h1, jsonNumber_of_finite _ h2,
      jsonNumber_of_finite _ h3, jsonNumber_of_finite _ h4, jsonNumber_of_finite _ h5,
      jsonNumber_of_finite _ h6, jsonNumber_of_finite _ h7, id]
  · conv_rhs => rw [← List.map_id s.leagueMatches]
    apply List.map_congr_left
    intro m hm
    obtain ⟨h1, h2⟩ := h.2 m hm
    simp only [jsonMatch, jsonNumber_of_finite _ h1, jsonNumber_of_finite _ h2, id]

/-- Counterexample to C20: A and B, the entry `.5` (read by `parseInt` as `NaN`) on the home
side of the only match and 1 on the away side.  The state holds `NaN` as home score and as
goals for of A; after saving and loading, the home score and the goals for of A are `null`,
so neither the league matches nor the participants are restored. -/
theorem load_after_save_counterexample :
    (updateScore "x" "away" (some 1) (updateScore "x" "home" (some Number.nan)
      (generateLeague (fun _ _ => "x") (some 1) (stateOf ["A", "B"])).1)).leagueMatches.map
      (fun m => (m.homeScore, m.awayScore)) = [(some Number.nan, some 1)] ∧
    (loadFromLocal (saveToLocal
      (updateScore "x" "away" (some 1) (updateScore "x" "home" (some Number.nan)
        (generateLeague (fun _ _ => "x") (some 1) (stateOf ["A", "B"])).1)))
      (stateOf [])).leagueMatches.map
      (fun m => (m.homeScore, m.awayScore)) = [(none, some 1)] ∧
    (updateScore "x" "away" (some 1) (updateScore "x" "home" (some Number.nan)
      (generateLeague (fun _ _ => "x") (some 1) (stateOf ["A", "B"])).1)).participants.map
      (fun p => (p.id, p.gf)) = [("A", some Number.nan), ("B", 1)] ∧
    (loadFromLocal (saveToLocal
      (updateScore "x" "away" (some 1) (updateScore "x" "home" (some Number.nan)
        (generateLeague (fun _ _ => "x") (some 1) (stateOf ["A", "B"])).1)))
      (stateOf [])).participants.map
      (fun p => (p.id, p.gf)) = [("A", none), ("B", 1)] := by
  decide

/-- C20 (amended). Loading with `loadFromLocal` the snapshot that `saveToLocal` wrote for a
state always yields empty knockout rounds, whatever bracket was saved: the saved document holds
the bracket under `knockoutRounds` and has no key `knockoutRockoutRounds`, which is the key the
loader reads and defaults to the empty sequence.  The participants and the league matches come
back with every `NaN` or infinite score or stat replaced by `null`; they are restored as they
were when no score and no stat is `NaN` or infinite. -/
theorem load_after_save_drops_bracket :
    (∀ s prior : State,
      loadFromLocal (saveToLocal s) prior =
        { participants := s.participants.map jsonParticipant
          leagueMatches := s.leagueMatches.map jsonMatch
          knockoutRounds := [] }) ∧
    (∀ s prior : State, FiniteNumbers s →
      loadFromLocal (saveToLocal s) prior =
        { participants := s.participants
          leagueMatches := s.leagueMatches
          knockoutRounds := [] }) ∧
    (∀ s : State, ∃ data : Snapshot, saveToLocal s = Stored.document data ∧
      data.knockoutRounds = some s.knockoutRounds ∧ data.knockoutRockoutRounds = none) ∧
    (loadFromLocal (saveToLocal
        (advanceWinner 0 0 "A"
          (generateKnockout (fun _ _ => "") (stateOf ["A", "B", "C", "D"])).1).1)
      (stateOf [])).knockoutRounds = [] := by
  refine ⟨fun _ _ => rfl, ?_, fun _ => ⟨_, rfl, rfl, rfl⟩, rfl⟩
  intro s prior h
  obtain ⟨h1, h2⟩ := map_json_of_finite s h
  show ({ participants := s.participants.map jsonParticipant
          leagueMatches := s.leagueMatches.map jsonMatch
          knockoutRounds := [] } : State) = _
  rw [h1, h2]

/-- Witness for C20 (amended): A and B with the result 2 to 1 entered and a bracket generated;
the state holds no `NaN`, and loading its snapshot restores the participants and the league
matches and yields no bracket. -/
theorem load_after_save_drops_bracket_witness :
    FiniteNumbers
      (generateKnockout (fun _ _ => "k")
        (updateScore "x" "away" (some 1) (updateScore "x" "home" (some 2)
          (generateLeague (fun _ _ => "x") (some 1) (stateOf ["A", "B"])).1))).1 ∧
    (generateKnockout (fun _ _ => "k")
      (updateScore "x" "away" (some 1) (updateScore "x" "home" (some 2)
        (generateLeague (fun _ _ => "x") (some 1) (stateOf ["A", "B"])).1))).1.knockoutRounds ≠
      [] ∧
    loadFromLocal (saveToLocal
      (generateKnockout (fun _ _ => "k")
        (updateScore "x" "away" (some 1) (updateScore "x" "home" (some 2)
          (generateLeague (fun _ _ => "x") (some 1) (stateOf ["A", "B"])).1))).1)
      (stateOf []) =
      { participants :=
          (generateKnockout (fun _ _ => "k")
            (updateScore "x" "away" (some 1) (updateScore "x" "home" (some 2)
              (generateLeague (fun _ _ => "x") (some 1) (stateOf ["A", "B"])).1))).1.participants
        leagueMatches :=
          (generateKnockout (fun _ _ => "k")
            (updateScore "x" "away" (some 1) (updateScore "x" "home" (some 2)
              (generateLeague (fun _ _ => "x") (some 1)
                (stateOf ["A", "B"])).1))).1.leagueMatches
        knockoutRounds := [] } :=
  ⟨by decide, by decide,
    load_after_save_drops_bracket.2.1
      (generateKnockout (fun _ _ => "k")
        (updateScore "x" "away" (some 1) (updateScore "x" "home" (some 2)
          (generateLeague (fun _ _ => "x") (some 1) (stateOf ["A", "B"])).1))).1
      (stateOf []) (by decide)⟩

/-! ## Winners and the slots they feed -/

theorem halving_of_map_length (rounds rounds' : List (List KnockoutMatch))
    (h : rounds'.map List.length = rounds.map List.length) (hw : Halving rounds) :
    Halving rounds' := by
  have hlen : rounds'.length = rounds.length := by
    have := congrArg List.length h
    simpa using this
  have hget : ∀ k, (rounds'.getD k []).length = (rounds.getD k []).length := by
    intro k
    have := congrArg (fun l => l[k]?) h
    simp only [List.getElem?_map] at this
    rw [List.getD_eq_getElem?_getD, List.getD_eq_getElem?_getD]
    cases h1 : rounds'[k]? <;> cases h2 : rounds[k]? <;> simp_all
  intro k hk
  rw [hget, hget]
  exact hw k (by omega)

theorem halving_generateKnockout (genId : Nat → Nat → String) (s : State)
    (h2 : 2 ≤ s.participants.length) : Halving (generateKnockout genId s).1.knockoutRounds := by
  obtain ⟨size, hb, hs⟩ := bracketSize_spec _ h2
  have hmem := hs.1
  have hlen1 := length_firstRound genId ((sortRanking s.participants).take size) (pairings size)
  rw [generateKnockout_ok genId s size hb]
  simp only [List.mem_cons, List.mem_singleton, List.not_mem_nil, or_false] at hmem
  rcases hmem with rfl | rfl | rfl | rfl
  all_goals
    rw [length_pairings _ (by simp)] at hlen1
    simp only [buildRounds_two, buildRounds_four, buildRounds_eight, buildRounds_sixteen]
    intro k hk
    simp only [List.length_cons, List.length_nil] at hk
    interval_cases k <;> simp [hlen1, length_emptyRound]

/-- One call on an existing match keeps every recorded winner in the slot it feeds. -/
theorem feeds_step (r m : Nat) (w : String) (s : State) (mt : KnockoutMatch)
    (h : matchAt s.knockoutRounds r m = some mt) (hw : Halving s.knockoutRounds)
    (inv : ∀ k j mt' x, k + 1 < s.knockoutRounds.length →
      matchAt s.knockoutRounds k j = some mt' → mt'.winnerId = some x →
      ∃ nm, matchAt s.knockoutRounds (k + 1) (j / 2) = some nm ∧
        (j % 2 = 0 → nm.homeId = some x) ∧ (j % 2 = 1 → nm.awayId = some x)) :
    ∀ k j mt' x, k + 1 < (advanceWinner r m w s).1.knockoutRounds.length →
      matchAt (advanceWinner r m w s).1.knockoutRounds k j = some mt' →
      mt'.winnerId = some x →
      ∃ nm, matchAt (advanceWinner r m w s).1.knockoutRounds (k + 1) (j / 2) = some nm ∧
        (j % 2 = 0 → nm.homeId = some x) ∧ (j % 2 = 1 → nm.awayId = some x) := by
  intro k j mt' x hk hm hx
  rw [advanceWinner_length] at hk
  have hsome : ¬ matchAt s.knockoutRounds r m = none := by rw [h]; simp
  rw [matchAt_advanceWinner, if_neg hsome] at hm
  rw [matchAt_advanceWinner, if_neg hsome]
  split_ifs at hm with c1 c2
  · -- the match addressed by the call
    obtain ⟨rfl, rfl⟩ := c1
    rw [h] at hm
    simp only [Option.map_some', Option.some.injEq] at hm
    subst hm
    simp only [Option.some.injEq] at hx
    subst hx
    obtain ⟨nm, hnm⟩ := destination_exists _ hw k j mt h hk
    have hne : ¬ (k + 1 = k ∧ j / 2 = j) := by omega
    rw [if_neg hne, if_pos ⟨rfl, rfl⟩, hnm]
    refine ⟨feedSlot j w nm, rfl, ?_, ?_⟩
    · intro hpar; simp [feedSlot, hpar]
    · intro hpar
      have : ¬ j % 2 = 0 := by omega
      simp [feedSlot, this]
  · -- the destination match: its winner is cleared
    cases h1 : matchAt s.knockoutRounds k j with
    | none => simp [h1] at hm
    | some nm =>
      simp only [h1, Option.map_some', Option.some.injEq] at hm
      subst hm
      unfold feedSlot at hx
      split_ifs at hx
  · -- any other match: unchanged, and the slot it feeds is not the one written
    obtain ⟨nm, hnm, e1, e2⟩ := inv k j mt' x hk hm hx
    by_cases d1 : k + 1 = r ∧ j / 2 = m
    · rw [if_pos d1, hnm]
      exact ⟨_, rfl, e1, e2⟩
    · rw [if_neg d1]
      by_cases d2 : k + 1 = r + 1 ∧ j / 2 = m / 2
      · rw [if_pos d2, hnm]
        have hkr : k = r := by omega
        have hjm : j ≠ m := fun e => c1 ⟨hkr, e⟩
        refine ⟨feedSlot m w nm, rfl, ?_, ?_⟩
        · intro hpar
          have : ¬ m % 2 = 0 := by omega
          simp only [feedSlot, this, if_false]
          exact e1 hpar
        · intro hpar
          have : m % 2 = 0 := by omega
          simp only [feedSlot, this, if_true]
          exact e2 hpar
      · rw [if_neg d2]
        exact ⟨nm, hnm, e1, e2⟩

/-- C21. In every bracket state reachable from the output of `generateKnockout` by
`advanceWinner` calls with in-range indices, for every match (k, j) of a round other than the
last whose winner is set, the destination match (k + 1, floor(j / 2)) exists and its slot fed
by j, home if j is even and away if j is odd, holds exactly that winner id. -/
theorem recorded_winner_feeds_next_slot (genId : Nat → Nat → String) (s0 s : State)
    (h2 : 2 ≤ s0.participants.length)
    (hr : ReachableByCalls (generateKnockout genId s0).1 s) :
    ∀ (k j : Nat) (mt : KnockoutMatch) (w : String), k + 1 < s.knockoutRounds.length →
      matchAt s.knockoutRounds k j = some mt → mt.winnerId = some w →
      ∃ nm : KnockoutMatch, matchAt s.knockoutRounds (k + 1) (j / 2) = some nm ∧
        (j % 2 = 0 → nm.homeId = some w) ∧ (j % 2 = 1 → nm.awayId = some w) := by
  have inv : Halving s.knockoutRounds ∧
      ∀ k j mt' x, k + 1 < s.knockoutRounds.length →
        matchAt s.knockoutRounds k j = some mt' → mt'.winnerId = some x →
        ∃ nm, matchAt s.knockoutRounds (k + 1) (j / 2) = some nm ∧
          (j % 2 = 0 → nm.homeId = some x) ∧ (j % 2 = 1 → nm.awayId = some x) := by
    induction hr with
    | start =>
      refine ⟨halving_generateKnockout genId s0 h2, ?_⟩
      intro k j mt' x _ hm hx
      rw [winner_none_generateKnockout genId s0 h2 k j mt' hm] at hx
      simp at hx
    | advance s1 r m w mt1 _ hm ih =>
      exact ⟨halving_of_map_length _ _ (advanceWinner_frame r m w s1).2.2 ih.1,
        feeds_step r m w s1 mt1 hm ih.1 ih.2⟩
  exact inv.2

/-- Witness for C21: bracket of size 4 seeded from A, B, C, D; A is recorded as winner of the
first match and then overwritten by D; the home slot of the final holds D. -/
theorem recorded_winner_feeds_next_slot_witness :
    2 ≤ (stateOf ["A", "B", "C", "D"]).participants.length ∧
    ReachableByCalls (generateKnockout (fun _ _ => "") (stateOf ["A", "B", "C", "D"])).1
      (advanceWinner 0 0 "D" (advanceWinner 0 0 "A"
        (generateKnockout (fun _ _ => "") (stateOf ["A", "B", "C", "D"])).1).1).1 ∧
    matchAt (advanceWinner 0 0 "D" (advanceWinner 0 0 "A"
        (generateKnockout (fun _ _ => "") (stateOf ["A", "B", "C", "D"])).1).1).1.knockoutRounds
      0 0 = some { matchId := "", homeId := some "A", awayId := some "D", winnerId := some "D",
                   nextMatchId := some none } ∧
    (∃ nm : KnockoutMatch,
      matchAt (advanceWinner 0 0 "D" (advanceWinner 0 0 "A"
        (generateKnockout (fun _ _ => "") (stateOf ["A", "B", "C", "D"])).1).1).1.knockoutRounds
        (0 + 1) (0 / 2) = some nm ∧
      (0 % 2 = 0 → nm.homeId = some "D") ∧ (0 % 2 = 1 → nm.awayId = some "D")) ∧
    matchAt (advanceWinner 0 0 "D" (advanceWinner 0 0 "A"
        (generateKnockout (fun _ _ => "") (stateOf ["A", "B", "C", "D"])).1).1).1.knockoutRounds
      1 0 = some { matchId := "", homeId := some "D", awayId := none, winnerId := none,
                   nextMatchId := none } :=
  ⟨by decide,
    ReachableByCalls.advance _ 0 0 "D"
      { matchId := "", homeId := some "A", awayId := some "D", winnerId := some "A",
        nextMatchId := some none }
      (ReachableByCalls.advance _ 0 0 "A"
        { matchId := "", homeId := some "A", awayId := some "D", winnerId := none,
          nextMatchId := some none } ReachableByCalls.start (by decide)) (by decide),
    by decide,
    recorded_winner_feeds_next_slot (fun _ _ => "") (stateOf ["A", "B", "C", "D"])
      (advanceWinner 0 0 "D" (advanceWinner 0 0 "A"
        (generateKnockout (fun _ _ => "") (stateOf ["A", "B", "C", "D"])).1).1).1 (by decide)
      (ReachableByCalls.advance _ 0 0 "D"
        { matchId := "", homeId := some "A", awayId := some "D", winnerId := some "A",
          nextMatchId := some none }
        (ReachableByCalls.advance _ 0 0 "A"
          { matchId := "", homeId := some "A", awayId := some "D", winnerId := none,
            nextMatchId := some none } ReachableByCalls.start (by decide)) (by decide))
      0 0 { matchId := "", homeId := some "A", awayId := some "D", winnerId := some "D",
            nextMatchId := some none } "D" (by decide) (by decide) rfl,
    by decide⟩

/-! ## Odd number of participants: byes -/

theorem countP_unique {α : Type} [DecidableEq α] (l : List α) (hl : l.Nodup) (Q : α → Bool)
    (x : α) (hx : x ∈ l) (hQ : Q x = true) (huniq : ∀ y ∈ l, Q y = true → y = x) :
    List.countP Q l = 1 := by
  have := countP_filterMap_unique l hl some Q x hx x rfl hQ
    (fun x' hx' y' hy' hq => by
      simp only [Option.some.injEq] at hy'
      subst hy'
      exact huniq x' hx' hq)
  simpa using this

theorem pairing_eq_none_of_dummy (genId : Nat → Nat → String) (T r i : Nat)
    (teams : List Participant) (home away : Participant) (hh : teams[i]? = some home)
    (ha : teams[teams.length - 1 - i]? = some away)
    (hd : home.id = "dummy" ∨ away.id = "dummy") :
    pairing genId T r teams i = none := by
  simp [pairing, hh, ha, hd]

theorem workingTeams_odd (ps : List Participant) (h : ps.length % 2 = 1) :
    workingTeams (ps.map resetStats) = ps.map resetStats ++ [dummyTeam] := by
  unfold workingTeams
  simp [h]

/-- A round on a working list that contains the dummy has one match fewer than half the
length of the list. -/
theorem length_roundMatches_one_dummy (genId : Nat → Nat → String) (T r h : Nat)
    (teams : List Participant) (hlen : teams.length = 2 * h)
    (hnd : (teams.map (fun p => p.id)).Nodup) (d : Nat) (x : Participant)
    (hd : teams[d]? = some x) (hx : x.id = "dummy") :
    (roundMatches genId T r teams).length = h - 1 := by
  have hdlt : d < 2 * h := by
    have := (List.getElem?_eq_some_iff.mp hd).1
    omega
  have hpos : ∀ (a : Nat) (p : Participant), teams[a]? = some p → p.id = "dummy" → a = d := by
    intro a p ha hp
    have h1 : (teams.map (fun p => p.id))[a]? = some "dummy" := by simp [ha, hp]
    have h2 : (teams.map (fun p => p.id))[d]? = some "dummy" := by simp [hd, hx]
    exact position_unique (p := fun _ => true) (by simpa using hnd) h1 h2 rfl
  have hget : ∀ i, (hi : i < teams.length) → teams[i]? = some teams[i] :=
    fun i hi => List.getElem?_eq_getElem hi
  have hh : (teams.length + 1) / 2 = h := by omega
  unfold roundMatches
  rw [hh, List.length_filterMap_eq_countP]
  have hsplit := List.length_eq_countP_add_countP
    (p := fun i => (pairing genId T r teams i).isSome) (List.range h)
  rw [List.length_range] at hsplit
  have hone : List.countP (fun i => decide ¬ (pairing genId T r teams i).isSome = true)
      (List.range h) = 1 := by
    by_cases hdh : d < h
    · refine countP_unique _ (List.nodup_range h) _ d (List.mem_range.mpr hdh) ?_ ?_
      · rw [pairing_eq_none_of_dummy genId T r d teams x _ hd (hget _ (by omega)) (Or.inl hx)]
        rfl
      · intro i hi hQ
        have hi' := List.mem_range.mp hi
        by_contra hne
        have r1 : teams[i].id ≠ "dummy" := fun e => hne (hpos i _ (hget i (by omega)) e)
        have r2 : teams[teams.length - 1 - i].id ≠ "dummy" := fun e => by
          have := hpos _ _ (hget (teams.length - 1 - i) (by omega)) e
          omega
        rw [pairing_eq_some genId T r i teams _ _ (hget i (by omega))
          (hget _ (by omega)) r1 r2] at hQ
        simp at hQ
    · have e0 : teams.length - 1 - (teams.length - 1 - d) = d := by omega
      refine countP_unique _ (List.nodup_range h) _ (teams.length - 1 - d)
        (List.mem_range.mpr (by omega)) ?_ ?_
      · rw [pairing_eq_none_of_dummy genId T r _ teams _ x (hget _ (by omega))
          (by rw [e0]; exact hd) (Or.inr hx)]
        rfl
      · intro i hi hQ
        have hi' := List.mem_range.mp hi
        by_contra hne
        have r1 : teams[i].id ≠ "dummy" := fun e => by
          have := hpos i _ (hget i (by omega)) e
          omega
        have r2 : teams[teams.length - 1 - i].id ≠ "dummy" := fun e => by
          have := hpos _ _ (hget (teams.length - 1 - i) (by omega)) e
          omega
        rw [pairing_eq_some genId T r i teams _ _ (hget i (by omega))
          (hget _ (by omega)) r1 r2] at hQ
        simp at hQ
  rw [hone] at hsplit
  omega

/-- The number of matches of a round that involve the entry at position `a`: none when its
partner at the mirrored position is the dummy, one otherwise. -/
theorem round_count_of_position (genId : Nat → Nat → String) (T r h : Nat)
    (teams : List Participant) (hlen : teams.length = 2 * h) (hd : DistinctReal teams)
    (a : Nat) (p q : Participant) (ha : teams[a]? = some p)
    (hq : teams[teams.length - 1 - a]? = some q) (hp : p.id ≠ "dummy") :
    List.countP (fun m => decide (m.homeId = p.id ∨ m.awayId = p.id))
      (roundMatches genId T r teams) = if q.id = "dummy" then 0 else 1 := by
  have ha' : a < 2 * h := by
    have := (List.getElem?_eq_some_iff.mp ha).1
    omega
  have hh : (teams.length + 1) / 2 = h := by omega
  have huniq : ∀ i' m', pairing genId T r teams i' = some m' →
      decide (m'.homeId = p.id ∨ m'.awayId = p.id) = true →
      (i' = a ∨ teams.length - 1 - i' = a) := by
    intro i' m' hm' hQ
    simp only [decide_eq_true_eq] at hQ
    obtain ⟨home, away, h1, h2, h3, h4, h5⟩ := sides_of_pairing _ _ _ _ _ _ hm'
    have : home.id = p.id ∨ away.id = p.id := by
      rcases h5 with ⟨e1, e2⟩ | ⟨e1, e2⟩ <;> rcases hQ with q | q
      · left; rw [← e1]; exact q
      · right; rw [← e2]; exact q
      · right; rw [← e1]; exact q
      · left; rw [← e2]; exact q
    rcases this with e | e
    · left; exact distinctReal_position hd h1 ha e h3
    · right; exact distinctReal_position hd h2 ha e h4
  have e0 : teams.length - 1 - (teams.length - 1 - a) = a := by omega
  split_ifs with hqd
  · rw [List.countP_eq_zero]
    intro m hm hQ
    simp only [roundMatches, List.mem_filterMap, List.mem_range, hh] at hm
    obtain ⟨i', hi', hm'⟩ := hm
    obtain ⟨home, away, h1, h2, h3, h4, _⟩ := sides_of_pairing _ _ _ _ _ _ hm'
    rcases huniq i' m hm' hQ with e | e
    · subst e
      rw [hq] at h2
      simp only [Option.some.injEq] at h2
      subst h2
      exact h4 hqd
    · have e' : i' = teams.length - 1 - a := by omega
      subst e'
      rw [hq] at h1
      simp only [Option.some.injEq] at h1
      subst h1
      exact h3 hqd
  · unfold roundMatches
    rw [hh]
    by_cases hlt : a < h
    · have hm := pairing_eq_some genId T r a teams p q ha hq hp hqd
      refine countP_filterMap_unique _ (List.nodup_range h) _ _ a (by simp [hlt]) _ hm ?_ ?_
      · by_cases hT : T ≤ r <;> simp [hT]
      · intro i' hi' m' hm' hQ
        have := huniq i' m' hm' hQ
        simp only [List.mem_range] at hi'
        omega
    · have hm := pairing_eq_some genId T r (teams.length - 1 - a) teams q p hq
        (by rw [e0]; exact ha) hqd hp
      refine countP_filterMap_unique _ (List.nodup_range h) _ _ (teams.length - 1 - a)
        (by simp; omega) _ hm ?_ ?_
      · by_cases hT : T ≤ r <;> simp [hT]
      · intro i' hi' m' hm' hQ
        have := huniq i' m' hm' hQ
        simp only [List.mem_range] at hi'
        omega

theorem bye_round_iff (h pa k0 i0 k a : Nat) (hk0 : k0 < 2 * h - 1) (hi0 : i0 < h)
    (hmeet : (seat (2 * h - 1) k0 i0 = pa ∧ seat (2 * h - 1) k0 (2 * h - 1 - i0) = 2 * h - 1) ∨
      (seat (2 * h - 1) k0 i0 = 2 * h - 1 ∧ seat (2 * h - 1) k0 (2 * h - 1 - i0) = pa))
    (hk : k < 2 * h - 1) (ha : a ≤ 2 * h - 1) (hs : seat (2 * h - 1) k a = pa) :
    seat (2 * h - 1) k (2 * h - 1 - a) = 2 * h - 1 ↔ k = k0 := by
  constructor
  · intro hn
    by_cases hlt : a < h
    · refine (meet_unique h k0 k i0 a hk0 hk hi0 hlt ?_).1.symm
      rcases hmeet with ⟨e1, e2⟩ | ⟨e1, e2⟩
      · exact Or.inl ⟨e1.trans hs.symm, e2.trans hn.symm⟩
      · exact Or.inr ⟨e1.trans hn.symm, e2.trans hs.symm⟩
    · have e0 : 2 * h - 1 - (2 * h - 1 - a) = a := by omega
      refine (meet_unique h k0 k i0 (2 * h - 1 - a) hk0 hk hi0 (by omega) ?_).1.symm
      rw [e0]
      rcases hmeet with ⟨e1, e2⟩ | ⟨e1, e2⟩
      · exact Or.inr ⟨e1.trans hs.symm, e2.trans hn.symm⟩
      · exact Or.inl ⟨e1.trans hn.symm, e2.trans hs.symm⟩
  · intro e
    subst e
    rcases hmeet with ⟨e1, e2⟩ | ⟨e1, e2⟩
    · have := seat_injective (2 * h - 1) k a i0 (by omega) ha (by omega) (hs.trans e1.symm)
      rw [this]; exact e2
    · have := seat_injective (2 * h - 1) k a (2 * h - 1 - i0) (by omega) ha (by omega)
        (hs.trans e2.symm)
      have e0 : 2 * h - 1 - a = i0 := by omega
      rw [e0]; exact e1

/-- On a working list whose last entry is the dummy, the entry with initial index `pa` plays
no match in the round in which it is paired with the dummy, and one match in every other
round of the first cycle. -/
theorem bye_count (genId : Nat → Nat → String) (T r h : Nat) (teams : List Participant)
    (hlen : teams.length = 2 * h) (hnd : (teams.map (fun p => p.id)).Nodup)
    (dm : Participant) (hdum : teams[2 * h - 1]? = some dm) (hdm : dm.id = "dummy")
    (pa : Nat) (p : Participant) (hpa : teams[pa]? = some p) (hp : p.id ≠ "dummy")
    (k0 i0 : Nat) (hk0 : k0 < 2 * h - 1) (hi0 : i0 < h)
    (hmeet : (seat (2 * h - 1) k0 i0 = pa ∧ seat (2 * h - 1) k0 (2 * h - 1 - i0) = 2 * h - 1) ∨
      (seat (2 * h - 1) k0 i0 = 2 * h - 1 ∧ seat (2 * h - 1) k0 (2 * h - 1 - i0) = pa))
    (k : Nat) (hk : k < 2 * h - 1) :
    List.countP (fun m => decide (m.homeId = p.id ∨ m.awayId = p.id))
      (roundMatches genId T r (rotateTeams^[k] teams)) = if k = k0 then 0 else 1 := by
  have hh : 1 ≤ h := by omega
  have hT : teams.length = (2 * h - 1) + 1 := by omega
  have hd : DistinctReal teams := by
    unfold DistinctReal
    exact hnd.filter _
  have hpos : ∀ (i j : Nat) (x y : Participant), teams[i]? = some x → teams[j]? = some y →
      x.id = y.id → i = j := by
    intro i j x y hi hj hid
    have h1 : (teams.map (fun p => p.id))[i]? = some x.id := by simp [hi]
    have h2 : (teams.map (fun p => p.id))[j]? = some x.id := by simp [hj, hid]
    exact position_unique (p := fun _ => true) (by simpa using hnd) h1 h2 rfl
  have hlenk : (rotateTeams^[k] teams).length = 2 * h := by
    rw [length_iterate_rotateTeams, hlen]
  have hmem : p ∈ rotateTeams^[k] teams :=
    (iterate_rotateTeams_perm k teams).mem_iff.mpr (List.getElem?_mem hpa)
  obtain ⟨a, ha⟩ := List.mem_iff_getElem?.mp hmem
  have ha' : a < 2 * h := by
    have := (List.getElem?_eq_some_iff.mp ha).1
    omega
  have hsa : seat (2 * h - 1) k a = pa := by
    have := ha
    rw [getElem?_iterate_rotateTeams teams (2 * h - 1) k a hT (by omega) (by omega)] at this
    exact hpos _ _ _ _ this hpa rfl
  obtain ⟨q, hq⟩ : ∃ q, (rotateTeams^[k] teams)[(rotateTeams^[k] teams).length - 1 - a]? =
      some q := by
    have hq0 : (rotateTeams^[k] teams).length - 1 - a < (rotateTeams^[k] teams).length := by
      omega
    exact ⟨_, List.getElem?_eq_getElem hq0⟩
  have hq' : teams[seat (2 * h - 1) k (2 * h - 1 - a)]? = some q := by
    have e := getElem?_iterate_rotateTeams teams (2 * h - 1) k (2 * h - 1 - a) hT (by omega)
      (by omega)
    rw [← e, ← hq, hlenk]
  rw [round_count_of_position genId T r h _ hlenk (distinctReal_iterate k teams hd) a p q ha hq
    hp]
  have hiff : q.id = "dummy" ↔ k = k0 := by
    rw [← bye_round_iff h pa k0 i0 k a hk0 hi0 hmeet hk (by omega) hsa]
    constructor
    · intro e
      exact hpos _ _ _ _ hq' hdum (e.trans hdm.symm)
    · intro e
      rw [e, hdum] at hq'
      simp only [Option.some.injEq] at hq'
      rw [← hq']
      exact hdm
  by_cases e : k = k0
  · rw [if_pos (hiff.mpr e), if_pos e]
  · rw [if_neg (fun c => e (hiff.mp c)), if_neg e]

/-- C22. With an odd number N ≥ 3 of participants whose ids are pairwise different and none of
which is the placeholder id `dummy`, `generateLeague` with requested round count N produces
rounds numbered 1 to N only, each of them with exactly (N − 1) / 2 matches; every two
different participants meet (as home and away, in either order) in exactly one match of the
whole list; and every participant has exactly one round among 1 to N in which it plays no
match, playing exactly one match in each of the other rounds. -/
theorem generateLeague_odd_round_robin (genId : Nat → Nat → String) (s : State)
    (hodd : s.participants.length % 2 = 1) (h3 : 3 ≤ s.participants.length)
    (hnd : (s.participants.map (fun p => p.id)).Nodup)
    (hreal : "dummy" ∉ s.participants.map (fun p => p.id)) :
    (∀ m ∈ (generateLeague genId (some ((s.participants.length : Nat) : Int)) s).1.leagueMatches,
      1 ≤ m.round ∧ m.round ≤ s.participants.length) ∧
    (∀ r : Nat, 1 ≤ r → r ≤ s.participants.length →
      ((generateLeague genId (some ((s.participants.length : Nat) : Int)) s).1.leagueMatches.filter
        (fun m => m.round = r)).length = (s.participants.length - 1) / 2) ∧
    (∀ a ∈ s.participants, ∀ b ∈ s.participants, a.id ≠ b.id →
      (generateLeague genId (some ((s.participants.length : Nat) : Int)) s).1.leagueMatches.countP
        (fun m => (m.homeId = a.id ∧ m.awayId = b.id) ∨
          (m.homeId = b.id ∧ m.awayId = a.id)) = 1) ∧
    (∀ p ∈ s.participants, ∃ r0 : Nat, 1 ≤ r0 ∧ r0 ≤ s.participants.length ∧
      ((generateLeague genId (some ((s.participants.length : Nat) : Int)) s).1.leagueMatches.filter
        (fun m => m.round = r0)).countP (fun m => m.homeId = p.id ∨ m.awayId = p.id) = 0 ∧
      ∀ r : Nat, 1 ≤ r → r ≤ s.participants.length → r ≠ r0 →
        ((generateLeague genId (some ((s.participants.length : Nat) : Int)) s).1.leagueMatches.filter
          (fun m => m.round = r)).countP (fun m => m.homeId = p.id ∨ m.awayId = p.id) = 1) := by
  have hpad : paddedLength s.participants.length = s.participants.length + 1 := by
    unfold paddedLength; omega
  have hn : roundsToPlay (some ((s.participants.length : Nat) : Int))
      s.participants.length = s.participants.length := by
    rw [roundsToPlay_of_pos _ _ (by omega), hpad]
    omega
  have hlen : (s.participants.map resetStats ++ [dummyTeam]).length =
      2 * ((s.participants.length + 1) / 2) := by
    rw [List.length_append, List.length_map, List.length_singleton]; omega
  have hr : ∀ p ∈ s.participants, (resetStats p).id ≠ "dummy" := by
    intro p hp hid
    apply hreal
    rw [← hid]
    exact List.mem_map_of_mem (fun p => p.id) hp
  have hT : s.participants.length + 1 - 1 = 2 * ((s.participants.length + 1) / 2) - 1 := by
    omega
  have hN : s.participants.length = 2 * ((s.participants.length + 1) / 2) - 1 := by omega
  have hd : DistinctReal (s.participants.map resetStats ++ [dummyTeam]) := by
    have := distinctReal_workingTeams s.participants hnd
    rwa [workingTeams_odd _ hodd] at this
  have hnd0 : ((s.participants.map resetStats ++ [dummyTeam]).map (fun p => p.id)).Nodup := by
    have := nodup_ids_workingTeams s.participants hnd hreal
    rwa [workingTeams_odd _ hodd] at this
  have hdum : (s.participants.map resetStats ++ [dummyTeam])[
      2 * ((s.participants.length + 1) / 2) - 1]? = some dummyTeam := by
    rw [← hN, List.getElem?_append_right (by simp)]
    simp
  have hmemL : ∀ p ∈ s.participants,
      resetStats p ∈ s.participants.map resetStats ++ [dummyTeam] := by
    intro p hp
    exact List.mem_append_left _ (List.mem_map_of_mem _ hp)
  rw [generateLeague_ok _ _ _ (by omega)]
  simp only [hn, hpad, workingTeams_odd _ hodd]
  refine ⟨?_, ?_, ?_, ?_⟩
  · intro m hm
    simp only [List.mem_flatMap, List.mem_range] at hm
    obtain ⟨k, hk, hmk⟩ := hm
    rw [round_of_mem_roundMatches _ _ _ _ _ hmk]
    omega
  · intro r hr1 hr2
    obtain ⟨r0, rfl⟩ : ∃ r0, r = r0 + 1 := ⟨r - 1, by omega⟩
    rw [filter_round_flatMap, if_pos (by omega)]
    have hmem : dummyTeam ∈ rotateTeams^[r0] (s.participants.map resetStats ++ [dummyTeam]) :=
      (iterate_rotateTeams_perm _ _).mem_iff.mpr (by simp)
    obtain ⟨d, hdd⟩ := List.mem_iff_getElem?.mp hmem
    rw [length_roundMatches_one_dummy genId _ r0 ((s.participants.length + 1) / 2) _
      (by rw [length_iterate_rotateTeams, hlen])
      (((iterate_rotateTeams_perm _ _).map _).nodup_iff.mpr hnd0) d dummyTeam hdd rfl]
    omega
  · intro a ha b hb hne
    rw [hT]
    have := pair_count_one genId _ _ hlen hd (resetStats a) (resetStats b)
      (hmemL a ha) (hmemL b hb) hne (hr a ha) (hr b hb)
    rw [← hN] at this ⊢
    exact this
  · intro p hp
    obtain ⟨pa, hpa⟩ := List.mem_iff_getElem?.mp (hmemL p hp)
    have hpa1 : pa < 2 * ((s.participants.length + 1) / 2) := by
      have := (List.getElem?_eq_some_iff.mp hpa).1
      omega
    have hpa2 : pa ≠ 2 * ((s.participants.length + 1) / 2) - 1 := by
      intro e
      rw [e, hdum] at hpa
      simp only [Option.some.injEq] at hpa
      exact hr p hp (by rw [← hpa]; rfl)
    obtain ⟨k0, i0, hk0, hi0, hmeet⟩ := meet_exists ((s.participants.length + 1) / 2) pa
      (2 * ((s.participants.length + 1) / 2) - 1) (by omega) (by omega)
    have hcount := fun (T k : Nat) (hk : k < 2 * ((s.participants.length + 1) / 2) - 1) =>
      bye_count genId T k ((s.participants.length + 1) / 2) _ hlen hnd0 dummyTeam hdum rfl pa
        (resetStats p) hpa (hr p hp) k0 i0 hk0 hi0 hmeet k hk
    refine ⟨k0 + 1, by omega, by omega, ?_, ?_⟩
    · rw [filter_round_flatMap, if_pos (by omega)]
      exact (hcount _ k0 hk0).trans (if_pos rfl)
    · intro r hr1 hr2 hne
      obtain ⟨r1, rfl⟩ : ∃ r1, r = r1 + 1 := ⟨r - 1, by omega⟩
      rw [filter_round_flatMap, if_pos (by omega)]
      exact (hcount _ r1 (by omega)).trans (if_neg (by omega))

/-- Witness for C22: three participants A, B, C and three requested rounds; round 2 has one
match, A meets B exactly once, and A has one round without a match and one match in each of
the other two. -/
theorem generateLeague_odd_round_robin_witness :
    (stateOf ["A", "B", "C"]).participants.length % 2 = 1 ∧
    3 ≤ (stateOf ["A", "B", "C"]).participants.length ∧
    ((stateOf ["A", "B", "C"]).participants.map (fun p => p.id)).Nodup ∧
    "dummy" ∉ (stateOf ["A", "B", "C"]).participants.map (fun p => p.id) ∧
    ((generateLeague (fun _ _ => "")
        (some (((stateOf ["A", "B", "C"]).participants.length : Nat) : Int))
        (stateOf ["A", "B", "C"])).1.leagueMatches.filter
        (fun m => m.round = 2)).length = ((stateOf ["A", "B", "C"]).participants.length - 1) / 2 ∧
    (generateLeague (fun _ _ => "")
        (some (((stateOf ["A", "B", "C"]).participants.length : Nat) : Int))
        (stateOf ["A", "B", "C"])).1.leagueMatches.countP
        (fun m => (m.homeId = (mkParticipant "A").id ∧ m.awayId = (mkParticipant "B").id) ∨
          (m.homeId = (mkParticipant "B").id ∧ m.awayId = (mkParticipant "A").id)) = 1 ∧
    (∃ r0 : Nat, 1 ≤ r0 ∧ r0 ≤ (stateOf ["A", "B", "C"]).participants.length ∧
      ((generateLeague (fun _ _ => "")
        (some (((stateOf ["A", "B", "C"]).participants.length : Nat) : Int))
        (stateOf ["A", "B", "C"])).1.leagueMatches.filter
        (fun m => m.round = r0)).countP
          (fun m => m.homeId = (mkParticipant "A").id ∨ m.awayId = (mkParticipant "A").id) = 0 ∧
      ∀ r : Nat, 1 ≤ r → r ≤ (stateOf ["A", "B", "C"]).participants.length → r ≠ r0 →
        ((generateLeague (fun _ _ => "")
          (some (((stateOf ["A", "B", "C"]).participants.length : Nat) : Int))
          (stateOf ["A", "B", "C"])).1.leagueMatches.filter
          (fun m => m.round = r)).countP
            (fun m => m.homeId = (mkParticipant "A").id ∨ m.awayId = (mkParticipant "A").id)
          = 1) ∧
    (generateLeague (fun _ _ => "")
        (some (((stateOf ["A", "B", "C"]).participants.length : Nat) : Int))
        (stateOf ["A", "B", "C"])).1.leagueMatches.map (fun m => (m.round, m.homeId, m.awayId)) =
      [(1, "B", "C"), (2, "A", "C"), (3, "A", "B")] :=
  ⟨by decide, by decide, by decide, by decide,
    (generateLeague_odd_round_robin (fun _ _ => "") (stateOf ["A", "B", "C"])
      (by decide) (by decide) (by decide) (by decide)).2.1 2 (by decide) (by decide),
    (generateLeague_odd_round_robin (fun _ _ => "") (stateOf ["A", "B", "C"])
      (by decide) (by decide) (by decide) (by decide)).2.2.1 (mkParticipant "A") (by decide)
      (mkParticipant "B") (by decide) (by decide),
    (generateLeague_odd_round_robin (fun _ _ => "") (stateOf ["A", "B", "C"])
      (by decide) (by decide) (by decide) (by decide)).2.2.2 (mkParticipant "A") (by decide),
    by decide⟩
end ProLeague
